import Mathlib

/-!
# crossbow : infinio, the logger, the epoch allocator and the singleton holder

A shallow embedding of `libs/infinio/src/InfinibandBuffer.cpp`, of the headers
`ErrorCode.hpp`, `InfinibandLimits.hpp` and `InfinibandSocket.hpp` of infinio,
of `libs/logger/include/crossbow/logger.hpp`, of
`libs/allocator/src/allocator.cpp` and of `crossbow/singleton.hpp`.

Machine integers are natural numbers; every place where the C++ arithmetic is
performed in an unsigned type of fixed width carries an explicit `% 2 ^ w`.
`size_t` and `uintptr_t` are 64 bits wide, `uint32_t` and `uint16_t` are 32 and
16 bits wide.  Arguments are taken to lie inside their C++ type; the theorems
say so with explicit bounds wherever a bound is needed.
-/

namespace crossbow
namespace infinio

/-! ## Data model -/

/-- Scatter/gather element of the verbs library (`struct ibv_sge`):
a 64-bit address, a 32-bit length and a 32-bit local key. -/
structure ibv_sge where
  addr : Nat
  length : Nat
  lkey : Nat
  deriving DecidableEq, Repr

/-- Registration record of the verbs library (`struct ibv_mr`), restricted to
the members that `InfinibandBuffer.cpp` reads: the start address, the length
(a `size_t`) and the local key. -/
structure ibv_mr where
  addr : Nat
  length : Nat
  lkey : Nat
  deriving DecidableEq, Repr

/-- Modelled from the spec: the class `InfinibandBuffer` is declared in the
header `InfinibandBuffer.hpp`, which is not among the sources.  The spec
describes it as a lightweight handle made of an id, a data pointer, a length
and the access key of the region; the source file reaches the last three
through `handle()`, a pointer to one `ibv_sge`. -/
structure InfinibandBuffer where
  mId : Nat
  mHandle : ibv_sge
  deriving DecidableEq, Repr

/-- Modelled from the spec: the designated invalid id of the 16-bit id type.
Its declaration lives in the absent header; the largest `uint16_t` value is
used.  No proof below depends on the numeral beyond it being a 16-bit value. -/
def InfinibandBuffer.INVALID_ID : Nat := 65535

/-- Modelled from the spec: the constructor `InfinibandBuffer(id)` of the
absent header; it yields a handle with the given id whose element is still
empty. -/
def InfinibandBuffer.new (id : Nat) : InfinibandBuffer :=
  { mId := id, mHandle := { addr := 0, length := 0, lkey := 0 } }

/-- Accessor `id()`. -/
def InfinibandBuffer.id (self : InfinibandBuffer) : Nat := self.mId

/-- Accessor `data()`: the data pointer, as an address. -/
def InfinibandBuffer.data (self : InfinibandBuffer) : Nat := self.mHandle.addr

/-- Accessor `length()`. -/
def InfinibandBuffer.length (self : InfinibandBuffer) : Nat := self.mHandle.length

/-- Accessor `lkey()`. -/
def InfinibandBuffer.lkey (self : InfinibandBuffer) : Nat := self.mHandle.lkey

/-- The class `LocalMemoryRegion`: its only state is the pointer `mDataRegion`
to the registration record, null when the region holds no registration. -/
structure LocalMemoryRegion where
  mDataRegion : Option ibv_mr
  deriving DecidableEq, Repr

/-- Modelled from the spec: `valid()` of the absent header, true exactly when
the region holds a registration (`mDataRegion` is not null). -/
def LocalMemoryRegion.valid (self : LocalMemoryRegion) : Bool :=
  self.mDataRegion.isSome

/-- Modelled from the spec: `address()` of the absent header, the start of the
registered span.  It dereferences `mDataRegion`, so it has no result on a
region without registration. -/
def LocalMemoryRegion.address (self : LocalMemoryRegion) : Option Nat :=
  self.mDataRegion.map ibv_mr.addr

/-- Modelled from the spec: `length()` of the absent header, the length of the
registered span; no result on a region without registration. -/
def LocalMemoryRegion.length (self : LocalMemoryRegion) : Option Nat :=
  self.mDataRegion.map ibv_mr.length

/-- Modelled from the spec: `lkey()` of the absent header, the region-local
access key; no result on a region without registration. -/
def LocalMemoryRegion.lkey (self : LocalMemoryRegion) : Option Nat :=
  self.mDataRegion.map ibv_mr.lkey

/-- The class `ScatterGatherBuffer`, with the two members the source file
updates: the vector `mHandle` of elements and the running total `mLength`. -/
structure ScatterGatherBuffer where
  mHandle : List ibv_sge
  mLength : Nat
  deriving DecidableEq, Repr

/-- Modelled from the spec: a freshly constructed scatter-gather buffer of the
absent header holds no element and a total length of zero. -/
def ScatterGatherBuffer.empty : ScatterGatherBuffer :=
  { mHandle := [], mLength := 0 }

/-- Sum of the `length` members of the elements held. -/
def ScatterGatherBuffer.elementBytes (self : ScatterGatherBuffer) : Nat :=
  (self.mHandle.map ibv_sge.length).sum

/-! ## `LocalMemoryRegion::acquireBuffer` -/

/-- `LocalMemoryRegion::acquireBuffer(uint16_t id, size_t offset, uint32_t length)`.
The sum `offset + length` is computed in `size_t`, the address in `uintptr_t`.
On a region without registration the function dereferences a null pointer and
has no result. -/
def LocalMemoryRegion.acquireBuffer (self : LocalMemoryRegion) (id offset length : Nat) :
    Option InfinibandBuffer :=
  match self.mDataRegion with
  | none => none
  | some mr =>
    if (offset + length) % 2 ^ 64 > mr.length then
      some (InfinibandBuffer.new InfinibandBuffer.INVALID_ID)
    else
      let buffer := InfinibandBuffer.new id
      some { buffer with
        mHandle := { addr := (mr.addr + offset) % 2 ^ 64, length := length, lkey := mr.lkey } }

/-! ## `ScatterGatherBuffer::add` -/

/-- `ScatterGatherBuffer::add(const LocalMemoryRegion& region, const void* addr, uint32_t length)`.
No range or access check is made.  The key is read through `region.lkey()`,
which has no result on a region without registration.  The member `mLength`
is declared in the absent header; `lengthBits` is the width of its unsigned
type. -/
def ScatterGatherBuffer.addRegion (lengthBits : Nat) (self : ScatterGatherBuffer)
    (region : LocalMemoryRegion) (addr length : Nat) : Option ScatterGatherBuffer :=
  match region.lkey with
  | none => none
  | some key =>
    let element : ibv_sge := { addr := addr, length := length, lkey := key }
    some { mHandle := self.mHandle ++ [element],
           mLength := (self.mLength + length) % 2 ^ lengthBits }

/-- `ScatterGatherBuffer::add(const InfinibandBuffer& buffer, size_t offset, uint32_t length)`.
The sum `offset + length` is computed in `size_t`; a request beyond the length
of the buffer returns without any change. -/
def ScatterGatherBuffer.addBuffer (lengthBits : Nat) (self : ScatterGatherBuffer)
    (buffer : InfinibandBuffer) (offset length : Nat) : ScatterGatherBuffer :=
  if (offset + length) % 2 ^ 64 > buffer.length then
    self
  else
    let element : ibv_sge :=
      { addr := (buffer.data + offset) % 2 ^ 64, length := length, lkey := buffer.lkey }
    { mHandle := self.mHandle ++ [element],
      mLength := (self.mLength + length) % 2 ^ lengthBits }

/-- One call of either form of `add`. -/
inductive AddCall where
  | region (src : LocalMemoryRegion) (addr length : Nat)
  | buffer (src : InfinibandBuffer) (offset length : Nat)
  deriving DecidableEq

/-- The call is well defined: the region form reads the key of a region that
holds a registration. -/
def AddCall.defined : AddCall → Bool
  | .region src _ _ => src.valid
  | .buffer _ _ _ => true

/-- Perform one call of `add`. -/
def ScatterGatherBuffer.add (lengthBits : Nat) (self : ScatterGatherBuffer) :
    AddCall → Option ScatterGatherBuffer
  | .region src addr length => self.addRegion lengthBits src addr length
  | .buffer src offset length => some (self.addBuffer lengthBits src offset length)

/-- Perform a sequence of calls of `add`, first call first. -/
def ScatterGatherBuffer.addAll (lengthBits : Nat) :
    ScatterGatherBuffer → List AddCall → Option ScatterGatherBuffer
  | self, [] => some self
  | self, call :: calls =>
    match self.add lengthBits call with
    | none => none
    | some next => next.addAll lengthBits calls

/-! ## Registration life cycle

The functions below call into the verbs library (`ibv_dereg_mr`) and the OS
(`munmap`).  Both are outside the repository, so they are parameters: a
`Host` gives, for an arbitrary state `σ` of the outside world, the return
value and the next state of each call.  Every function returns the calls it
made, in program order, next to the state it leaves behind. -/

/-- The exception `std::system_error(errno, std::generic_category())`; `code`
is the error number. -/
structure system_error where
  code : Int
  deriving DecidableEq, Repr

/-- The two error lines the source file logs. -/
inductive LogLine where
  | deregister_failed
  | unmap_failed
  deriving DecidableEq, Repr

/-- What a function does to the outside world: a call of `ibv_dereg_mr` or of
`munmap` together with the value the call returned, or a `LOG_ERROR` line
together with the error number it prints. -/
inductive Effect where
  | ibv_dereg_mr (mr : ibv_mr) (rc : Int)
  | munmap (data length : Nat) (rc : Int)
  | LOG_ERROR (line : LogLine) (code : Int)
  deriving DecidableEq, Repr

/-- The effect is a call of `munmap`. -/
def Effect.isMunmap : Effect → Bool
  | .munmap _ _ _ => true
  | _ => false

/-- The effect is a call of `ibv_dereg_mr`. -/
def Effect.isDereg : Effect → Bool
  | .ibv_dereg_mr _ _ => true
  | _ => false

/-- The effect is a call into the verbs library or the OS, not a log line. -/
def Effect.isCall (e : Effect) : Bool := e.isDereg || e.isMunmap

/-- The outside world.  `ibv_dereg_mr` and `munmap` return an `int` that is
zero on success; `errno` is the error number a failing call left behind. -/
structure Host (σ : Type) where
  ibv_dereg_mr : σ → ibv_mr → Int × σ
  munmap : σ → Nat → Nat → Int × σ
  errno : σ → Int

/-- Outcome of running a member function: the outside world and the object it
leaves behind, the effects it had in program order, and the exception it
threw, if any. -/
structure Run (σ α : Type) where
  world : σ
  trace : List Effect
  self : α
  thrown : Option system_error

/-- The calls into the verbs library and the OS made by a run, in order. -/
def Run.calls {σ α : Type} (r : Run σ α) : List Effect :=
  r.trace.filter Effect.isCall

/-- `LocalMemoryRegion::deregisterRegion()`.  The `&&` calls `ibv_dereg_mr`
only when `mDataRegion` is not null; a non-zero return throws and leaves
`mDataRegion` as it was, otherwise `mDataRegion` becomes null. -/
def LocalMemoryRegion.deregisterRegion {σ : Type} (host : Host σ) (world : σ)
    (self : LocalMemoryRegion) : Run σ LocalMemoryRegion :=
  match self.mDataRegion with
  | none => { world := world, trace := [], self := { mDataRegion := none }, thrown := none }
  | some mr =>
    let r := host.ibv_dereg_mr world mr
    if r.1 ≠ 0 then
      { world := r.2, trace := [Effect.ibv_dereg_mr mr r.1], self := self,
        thrown := some { code := host.errno r.2 } }
    else
      { world := r.2, trace := [Effect.ibv_dereg_mr mr r.1],
        self := { mDataRegion := none }, thrown := none }

/-- The destructor of `LocalMemoryRegion`: it deregisters a region
that still holds a registration and logs a failure instead of throwing. -/
def LocalMemoryRegion.dtor {σ : Type} (host : Host σ) (world : σ)
    (self : LocalMemoryRegion) : Run σ Unit :=
  match self.mDataRegion with
  | none => { world := world, trace := [], self := (), thrown := none }
  | some mr =>
    let r := host.ibv_dereg_mr world mr
    if r.1 ≠ 0 then
      { world := r.2,
        trace := [Effect.ibv_dereg_mr mr r.1,
                  Effect.LOG_ERROR LogLine.deregister_failed (host.errno r.2)],
        self := (), thrown := none }
    else
      { world := r.2, trace := [Effect.ibv_dereg_mr mr r.1], self := (), thrown := none }

/-- The move assignment `LocalMemoryRegion::operator=(LocalMemoryRegion&& other)`,
for two distinct objects; the pair returned is `(*this, other)`.  A failing
deregistration of the registration held so far throws before anything is
moved. -/
def LocalMemoryRegion.moveAssign {σ : Type} (host : Host σ) (world : σ)
    (self other : LocalMemoryRegion) : Run σ (LocalMemoryRegion × LocalMemoryRegion) :=
  match self.mDataRegion with
  | none =>
    { world := world, trace := [],
      self := ({ mDataRegion := other.mDataRegion }, { mDataRegion := none }), thrown := none }
  | some mr =>
    let r := host.ibv_dereg_mr world mr
    if r.1 ≠ 0 then
      { world := r.2, trace := [Effect.ibv_dereg_mr mr r.1], self := (self, other),
        thrown := some { code := host.errno r.2 } }
    else
      { world := r.2, trace := [Effect.ibv_dereg_mr mr r.1],
        self := ({ mDataRegion := other.mDataRegion }, { mDataRegion := none }),
        thrown := none }

/-- The class `AllocatedMemoryRegion`: a `LocalMemoryRegion` whose backing
memory, an anonymous mapping, it owns as well. -/
structure AllocatedMemoryRegion where
  mRegion : LocalMemoryRegion
  deriving DecidableEq, Repr

/-- The body of the destructor of `AllocatedMemoryRegion`.  `valid()` is the
null test of `mDataRegion`; `address()` and `length()` read the registration
record before `deregisterRegion` runs.  An exception of `deregisterRegion` is
caught and logged, and `munmap` follows in either case. -/
def AllocatedMemoryRegion.dtor {σ : Type} (host : Host σ) (world : σ)
    (self : AllocatedMemoryRegion) : Run σ AllocatedMemoryRegion :=
  match self.mRegion.mDataRegion with
  | none => { world := world, trace := [], self := self, thrown := none }
  | some mr =>
    let data := mr.addr
    let length := mr.length
    let d := self.mRegion.deregisterRegion host world
    let caught : List Effect :=
      match d.thrown with
      | some e => [Effect.LOG_ERROR LogLine.deregister_failed e.code]
      | none => []
    let u := host.munmap d.world data length
    let failed : List Effect :=
      if u.1 ≠ 0 then [Effect.LOG_ERROR LogLine.unmap_failed (host.errno u.2)] else []
    { world := u.2,
      trace := d.trace ++ caught ++ [Effect.munmap data length u.1] ++ failed,
      self := { mRegion := d.self }, thrown := none }

/-- Destruction of an `AllocatedMemoryRegion` object: the body of its
destructor, followed by the destructor of the member `mRegion`. -/
def AllocatedMemoryRegion.destroy {σ : Type} (host : Host σ) (world : σ)
    (self : AllocatedMemoryRegion) : Run σ Unit :=
  let body := self.dtor host world
  let member := body.self.mRegion.dtor host body.world
  { world := member.world, trace := body.trace ++ member.trace, self := (), thrown := none }

/-- The move assignment `AllocatedMemoryRegion::operator=(AllocatedMemoryRegion&& other)`,
for two distinct objects; the pair returned is `(*this, other)`.  An exception
of the inner move assignment leaves the function before `munmap` is reached;
a failing `munmap` throws after the registration has been moved. -/
def AllocatedMemoryRegion.moveAssign {σ : Type} (host : Host σ) (world : σ)
    (self other : AllocatedMemoryRegion) :
    Run σ (AllocatedMemoryRegion × AllocatedMemoryRegion) :=
  match self.mRegion.mDataRegion with
  | none =>
    let a := self.mRegion.moveAssign host world other.mRegion
    { world := a.world, trace := a.trace,
      self := ({ mRegion := a.self.1 }, { mRegion := a.self.2 }), thrown := a.thrown }
  | some mr =>
    let data := mr.addr
    let length := mr.length
    let a := self.mRegion.moveAssign host world other.mRegion
    match a.thrown with
    | some e =>
      { world := a.world, trace := a.trace,
        self := ({ mRegion := a.self.1 }, { mRegion := a.self.2 }), thrown := some e }
    | none =>
      let u := host.munmap a.world data length
      { world := u.2, trace := a.trace ++ [Effect.munmap data length u.1],
        self := ({ mRegion := a.self.1 }, { mRegion := a.self.2 }),
        thrown := if u.1 ≠ 0 then some { code := host.errno u.2 } else none }

/-- A host whose calls return fixed values: `ibv_dereg_mr` returns `deregRc`,
`munmap` returns `unmapRc`, and `errno` reads `err`.  Used for concrete runs. -/
def Host.const (deregRc unmapRc err : Int) : Host Unit :=
  { ibv_dereg_mr := fun _ _ => (deregRc, ()),
    munmap := fun _ _ _ => (unmapRc, ()),
    errno := fun _ => err }

/-! ## Registration -/

/-- The registration call of the verbs library as seen from the constructor of
`LocalMemoryRegion`: `ibv_reg_mr(pd, addr, length, access)` returns the
registration record, or null when the hardware rejects the registration, next
to the state of the outside world it leaves; `errno` is the error number a
failing call left behind. -/
structure Registrar (σ : Type) where
  ibv_reg_mr : σ → Nat → Nat → Nat → Int → Option ibv_mr × σ
  errno : σ → Int

/-- Outcome of running a constructor: the outside world it leaves behind, the
object when construction completed, the exception when it did not, and the
arguments of the `LOG_TRACE` lines it issued. -/
structure Constructed (σ α : Type) where
  world : σ
  object : Option α
  thrown : Option system_error
  traced : List Nat

/-- The constructor
`LocalMemoryRegion(const ProtectionDomain& domain, void* data, size_t length, int access)`.
The member `mDataRegion` is initialised with the value of `ibv_reg_mr`; a null
value throws `std::system_error(errno, std::generic_category())`, otherwise the
creation is traced.  `domain` stands for the pointer `domain.get()`. -/
def LocalMemoryRegion.ctor {σ : Type} (reg : Registrar σ) (world : σ)
    (domain data length : Nat) (access : Int) : Constructed σ LocalMemoryRegion :=
  let r := reg.ibv_reg_mr world domain data length access
  match r.1 with
  | none =>
    { world := r.2, object := none, thrown := some { code := reg.errno r.2 }, traced := [] }
  | some mr =>
    { world := r.2, object := some { mDataRegion := some mr }, thrown := none,
      traced := [data] }

/-- A registrar with a fixed answer: `ibv_reg_mr` returns `answer`, and `errno`
reads `err`.  Used for concrete runs. -/
def Registrar.const (answer : Option ibv_mr) (err : Int) : Registrar Unit :=
  { ibv_reg_mr := fun _ _ _ _ _ => (answer, ()),
    errno := fun _ => err }

/-! ## Error codes (`ErrorCode.hpp`) -/

/-- The error categories that occur: the three singletons returned by
`get_rpc_category()`, `get_network_category()` and
`get_work_completion_category()`, and `std::generic_category()`.  A category
is identified by the address of its one instance. -/
inductive error_category where
  | rpc
  | network
  | work_completion
  | generic
  deriving DecidableEq, Repr

/-- The library type `std::error_code`: an `int` value and a reference to its
category.  Two error codes compare equal when the categories are the same
object and the values are equal, which is equality of the two fields. -/
structure error_code where
  value : Int
  category : error_category
  deriving DecidableEq, Repr

namespace error

/-- The enumeration `rpc_errors`. -/
inductive rpc_errors where
  | no_response
  | invalid_message
  | wrong_type
  | message_too_big
  deriving DecidableEq, Repr

/-- The numeric value `static_cast<int>(e)` of an `rpc_errors` enumerator:
`no_response = 1`, each following enumerator one more. -/
def rpc_errors.toInt : rpc_errors → Int
  | .no_response => 1
  | .invalid_message => 2
  | .wrong_type => 3
  | .message_too_big => 4

/-- All enumerators of `rpc_errors`, in declaration order. -/
def rpc_errors.all : List rpc_errors :=
  [.no_response, .invalid_message, .wrong_type, .message_too_big]

/-- The member `rpc_category::name()`. -/
def rpc_category.name : String := "infinio.rpc"

/-- The member `rpc_category::message(int value)`: a `switch` over the
enumerators with a `default` label. -/
def rpc_category.message (value : Int) : String :=
  if value = rpc_errors.no_response.toInt then
    "No response received"
  else if value = rpc_errors.invalid_message.toInt then
    "Received message is invalid"
  else if value = rpc_errors.wrong_type.toInt then
    "Received message of wrong type"
  else if value = rpc_errors.message_too_big.toInt then
    "Tried to write a message exceeding the buffer size"
  else
    "infinio.rpc error"

/-- The function `get_rpc_category()`: the one instance of `rpc_category`. -/
def get_rpc_category : error_category := error_category.rpc

/-- The overload `make_error_code(rpc_errors e)`. -/
def rpc_errors.make_error_code (e : rpc_errors) : error_code :=
  { value := e.toInt, category := get_rpc_category }

/-- The enumeration `network_errors`. -/
inductive network_errors where
  | already_open
  | address_resolution
  | route_resolution
  | unreachable
  | connection_error
  | invalid_buffer
  | out_of_range
  deriving DecidableEq, Repr

/-- The numeric value `static_cast<int>(e)` of a `network_errors` enumerator:
`already_open = 1`, each following enumerator one more. -/
def network_errors.toInt : network_errors → Int
  | .already_open => 1
  | .address_resolution => 2
  | .route_resolution => 3
  | .unreachable => 4
  | .connection_error => 5
  | .invalid_buffer => 6
  | .out_of_range => 7

/-- All enumerators of `network_errors`, in declaration order. -/
def network_errors.all : List network_errors :=
  [.already_open, .address_resolution, .route_resolution, .unreachable,
   .connection_error, .invalid_buffer, .out_of_range]

/-- The member `network_category::name()`. -/
def network_category.name : String := "infinio.network"

/-- The member `network_category::message(int value)`: a `switch` over the
enumerators with a `default` label. -/
def network_category.message (value : Int) : String :=
  if value = network_errors.already_open.toInt then
    "Already open"
  else if value = network_errors.address_resolution.toInt then
    "Address resolution failed"
  else if value = network_errors.route_resolution.toInt then
    "Route resolution failed"
  else if value = network_errors.unreachable.toInt then
    "Remote unreachable"
  else if value = network_errors.connection_error.toInt then
    "Connection error"
  else if value = network_errors.invalid_buffer.toInt then
    "Buffer is invalid"
  else if value = network_errors.out_of_range.toInt then
    "Memory access out of range"
  else
    "infinio.network error"

/-- The function `get_network_category()`: the one instance of
`network_category`. -/
def get_network_category : error_category := error_category.network

/-- The overload `make_error_code(network_errors e)`. -/
def network_errors.make_error_code (e : network_errors) : error_code :=
  { value := e.toInt, category := get_network_category }

/-- The enumeration `ibv_wc_status` of the verbs library, one enumerator per
completion status of the hardware.  The library owns the list of enumerators;
an enumerator is represented by its numeric value. -/
structure ibv_wc_status where
  toInt : Int
  deriving DecidableEq, Repr

/-- The member `work_completion_category::name()`. -/
def work_completion_category.name : String := "infinio.wc"

/-- The function `get_work_completion_category()`: the one instance of
`work_completion_category`. -/
def get_work_completion_category : error_category := error_category.work_completion

/-- The overload `make_error_code(ibv_wc_status e)`. -/
def ibv_wc_status.make_error_code (e : ibv_wc_status) : error_code :=
  { value := e.toInt, category := get_work_completion_category }

end error

/-! ## Configurable limits (`InfinibandLimits.hpp`) -/

/-- The struct `InfinibandLimits`: two `uint16_t` counts, three `uint32_t`
lengths and the `uint64_t` number of poll cycles. -/
structure InfinibandLimits where
  receiveBufferCount : Nat
  sendBufferCount : Nat
  bufferLength : Nat
  sendQueueLength : Nat
  completionQueueLength : Nat
  pollCycles : Nat
  deriving DecidableEq, Repr

/-- The default constructor `InfinibandLimits()`: every member is initialised
from an integer literal, converted to the type of the member. -/
def InfinibandLimits.new : InfinibandLimits :=
  { receiveBufferCount := 64 % 2 ^ 16,
    sendBufferCount := 64 % 2 ^ 16,
    bufferLength := 256 % 2 ^ 32,
    sendQueueLength := 64 % 2 ^ 32,
    completionQueueLength := 128 % 2 ^ 32,
    pollCycles := 1000000 % 2 ^ 64 }

/-! ## Sockets (`InfinibandSocket.hpp`) -/

/-- A call of one of the virtual callbacks of `InfinibandSocketHandler`,
together with its arguments.  Pointers and the private data are represented by
numbers and lists of bytes. -/
inductive HandlerCall where
  | onConnected (data : List Nat) (ec : error_code)
  | onReceive (buffer length : Nat) (ec : error_code)
  | onSend (userId : Nat) (ec : error_code)
  | onRead (userId : Nat) (ec : error_code)
  | onWrite (userId : Nat) (ec : error_code)
  | onDisconnect
  | onDisconnected
  deriving DecidableEq, Repr

/-- The members of `InfinibandSocketImpl` that the functions defined in the
header touch: the completion context `mContext` and the handler `mHandler`,
both pointers that may be null, and the private data `mData`. -/
structure InfinibandSocketImpl where
  mContext : Option Nat
  mHandler : Option Nat
  mData : List Nat
  deriving DecidableEq, Repr

/-- The member `InfinibandSocketImpl::setHandler(handler)`; a null pointer is
`none`. -/
def InfinibandSocketImpl.setHandler (self : InfinibandSocketImpl) (handler : Option Nat) :
    InfinibandSocketImpl :=
  { self with mHandler := handler }

/-- The internal event `InfinibandSocketImpl::onDisconnected()`: it calls
`mHandler->onDisconnect()`.  The result is the handler called and the calls it
received; with a null `mHandler` the call dereferences a null pointer and has
no result. -/
def InfinibandSocketImpl.onDisconnected (self : InfinibandSocketImpl) :
    Option (Nat × List HandlerCall) :=
  match self.mHandler with
  | none => none
  | some handler => some (handler, [HandlerCall.onDisconnect])

/-- The internal event
`InfinibandSocketImpl::onReceive(const void* buffer, uint32_t length, const std::error_code& ec)`:
it calls `mHandler->onReceive(buffer, length, ec)`, where the `uint32_t` length
widens to the `size_t` parameter of the handler. -/
def InfinibandSocketImpl.onReceive (self : InfinibandSocketImpl) (buffer length : Nat)
    (ec : error_code) : Option (Nat × List HandlerCall) :=
  match self.mHandler with
  | none => none
  | some handler => some (handler, [HandlerCall.onReceive buffer length ec])

/-- The internal event `InfinibandSocketImpl::onSend(uint32_t userId, const std::error_code& ec)`:
it calls `mHandler->onSend(userId, ec)`. -/
def InfinibandSocketImpl.onSend (self : InfinibandSocketImpl) (userId : Nat)
    (ec : error_code) : Option (Nat × List HandlerCall) :=
  match self.mHandler with
  | none => none
  | some handler => some (handler, [HandlerCall.onSend userId ec])

/-- The internal event `InfinibandSocketImpl::onRead(uint32_t userId, const std::error_code& ec)`:
it calls `mHandler->onRead(userId, ec)`. -/
def InfinibandSocketImpl.onRead (self : InfinibandSocketImpl) (userId : Nat)
    (ec : error_code) : Option (Nat × List HandlerCall) :=
  match self.mHandler with
  | none => none
  | some handler => some (handler, [HandlerCall.onRead userId ec])

/-- The internal event `InfinibandSocketImpl::onWrite(uint32_t userId, const std::error_code& ec)`:
it calls `mHandler->onWrite(userId, ec)`. -/
def InfinibandSocketImpl.onWrite (self : InfinibandSocketImpl) (userId : Nat)
    (ec : error_code) : Option (Nat × List HandlerCall) :=
  match self.mHandler with
  | none => none
  | some handler => some (handler, [HandlerCall.onWrite userId ec])

/-! ### Reference counting of sockets -/

/-- The library struct `rdma_cm_id`, restricted to the two members the
constructor of `InfinibandBaseSocket` touches: the event channel and the user
context, a pointer that is null or points to the owning socket. -/
structure rdma_cm_id where
  channel : Nat
  context : Option Nat
  deriving DecidableEq, Repr

/-- The class template `InfinibandBaseSocket<SocketType>`.  `useCount` is the
counter of the base class `boost::intrusive_ref_counter`, which starts at
zero; `destroyed` counts how often the counter has deleted the object.
`mChannel` is the event channel and `mId` the hardware identifier, null while
the socket is not open. -/
structure InfinibandBaseSocket where
  useCount : Int
  destroyed : Nat
  mChannel : Nat
  mId : Option rdma_cm_id
  deriving DecidableEq, Repr

/-- The library function `intrusive_ptr_add_ref`: one more holder.  Creating
or copying a `boost::intrusive_ptr` to the object calls it. -/
def InfinibandBaseSocket.intrusive_ptr_add_ref (self : InfinibandBaseSocket) :
    InfinibandBaseSocket :=
  { self with useCount := self.useCount + 1 }

/-- The library function `intrusive_ptr_release`: the counter is decremented,
and the object is deleted when the decrement yields zero.  Destroying or
resetting a `boost::intrusive_ptr` to the object calls it.  The counter is
atomic, so a release is one indivisible step. -/
def InfinibandBaseSocket.intrusive_ptr_release (self : InfinibandBaseSocket) :
    InfinibandBaseSocket :=
  if self.useCount - 1 = 0 then
    { self with useCount := self.useCount - 1, destroyed := self.destroyed + 1 }
  else
    { self with useCount := self.useCount - 1 }

/-- The constructor `InfinibandBaseSocket(struct rdma_event_channel* channel)`:
no hardware identifier yet, and no reference taken. -/
def InfinibandBaseSocket.ofChannel (channel : Nat) : InfinibandBaseSocket :=
  { useCount := 0, destroyed := 0, mChannel := channel, mId := none }

/-- The constructor `InfinibandBaseSocket(struct rdma_cm_id* id)`, for the
object at address `thisPtr`: the channel is taken from the identifier, a
`boost::intrusive_ptr` to the object is created, which increments the counter,
and detached, which leaves the counter as it is, and the raw pointer is stored
in `id->context`. -/
def InfinibandBaseSocket.ofId (thisPtr : Nat) (id : rdma_cm_id) : InfinibandBaseSocket :=
  let base : InfinibandBaseSocket :=
    { useCount := 0, destroyed := 0, mChannel := id.channel, mId := some id }
  let held := base.intrusive_ptr_add_ref
  { held with mId := some { id with context := some thisPtr } }

/-- The member `isOpen()`. -/
def InfinibandBaseSocket.isOpen (self : InfinibandBaseSocket) : Bool :=
  self.mId.isSome

/-- A holder of a reference to a socket: an `InfinibandSocket` smart pointer
held by the application, or the `context` pointer of the hardware identifier. -/
inductive Holder where
  | application (n : Nat)
  | hardwareId
  deriving DecidableEq, Repr

/-- The holders take their references: each application holder is one
`boost::intrusive_ptr`, created with `intrusive_ptr_add_ref`; the reference of
the hardware identifier is the one the constructor took. -/
def InfinibandBaseSocket.acquireAll (self : InfinibandBaseSocket) :
    List Holder → InfinibandBaseSocket
  | [] => self
  | Holder.application _ :: rest => (self.intrusive_ptr_add_ref).acquireAll rest
  | Holder.hardwareId :: rest => self.acquireAll rest

/-- The holders give up their references one after the other, in the order of
the list; each release is one call of `intrusive_ptr_release`. -/
def InfinibandBaseSocket.releaseAll (self : InfinibandBaseSocket) :
    List Holder → InfinibandBaseSocket
  | [] => self
  | _ :: rest => (self.intrusive_ptr_release).releaseAll rest

/-! ### Connection requests -/

/-- The class `ConnectionRequest` of the header: `mSocket` is the smart pointer
to the socket with the pending connection request, null once the socket has
been handed on, and `mData` is the private data sent with the request.  The
reference `mService` plays no part below. -/
structure ConnectionRequest where
  mSocket : Option Nat
  mData : List Nat
  deriving DecidableEq, Repr

/-- A terminal action performed on a pending socket: the connection is
accepted with some private data on a completion thread, or rejected with some
private data. -/
inductive TerminalAction where
  | accepted (socket : Nat) (data : List Nat) (thread : Nat)
  | rejected (socket : Nat) (data : List Nat)
  deriving DecidableEq, Repr

/-- Modelled from the spec: the body of
`ConnectionRequest::accept(const crossbow::string& data, std::error_code& ec, uint64_t thread)`
is in `InfinibandSocket.cpp`, which is absent; the header only declares it.  The
spec says that exactly one of `accept` / `reject` may be called on a request
exactly once, that both consume it, and that after one of them invoking the
other is not possible because the request is moved-from.  So on a request that
holds its pending socket the call accepts that socket and leaves the request
without socket; on a request without socket no call is possible and there is
no result. -/
def ConnectionRequest.accept (self : ConnectionRequest) (data : List Nat) (thread : Nat) :
    Option (TerminalAction × ConnectionRequest) :=
  match self.mSocket with
  | none => none
  | some socket => some (TerminalAction.accepted socket data thread, { self with mSocket := none })

/-- Modelled from the spec: the body of
`ConnectionRequest::reject(const crossbow::string& data)` is in
`InfinibandSocket.cpp`, which is absent.  The spec says that `reject` sends a
rejection and discards the pending socket, and that it consumes the request
like `accept` does. -/
def ConnectionRequest.reject (self : ConnectionRequest) (data : List Nat) :
    Option (TerminalAction × ConnectionRequest) :=
  match self.mSocket with
  | none => none
  | some socket => some (TerminalAction.rejected socket data, { self with mSocket := none })

/-- The inline overload `accept(std::error_code& ec, uint64_t thread = 0)` of
the header: it accepts with an empty private data string. -/
def ConnectionRequest.acceptNoData (self : ConnectionRequest) (thread : Nat) :
    Option (TerminalAction × ConnectionRequest) :=
  self.accept [] thread

/-- The inline overload `reject()` of the header: it rejects with an empty
private data string. -/
def ConnectionRequest.rejectNoData (self : ConnectionRequest) :
    Option (TerminalAction × ConnectionRequest) :=
  self.reject []

/-- A call made on a connection request. -/
inductive RequestCall where
  | accept (data : List Nat) (thread : Nat)
  | reject (data : List Nat)
  deriving DecidableEq, Repr

/-- Make one call on a connection request. -/
def ConnectionRequest.call (self : ConnectionRequest) :
    RequestCall → Option (TerminalAction × ConnectionRequest)
  | RequestCall.accept data thread => self.accept data thread
  | RequestCall.reject data => self.reject data

/-- Attempt a sequence of calls on a connection request, first call first, and
collect the terminal actions performed; a call that is not possible performs
nothing and leaves the request as it is. -/
def ConnectionRequest.perform (self : ConnectionRequest) : List RequestCall → List TerminalAction
  | [] => []
  | c :: rest =>
    match self.call c with
    | none => self.perform rest
    | some (action, next) => action :: next.perform rest

/-! ### Life cycle of a socket -/

/-- The lifecycle states of a socket listed by the spec. -/
inductive SocketState where
  | Idle
  | AddressResolving
  | RouteResolving
  | Connecting
  | Connected
  | Disconnecting
  | Draining
  | Disconnected
  | Error
  deriving DecidableEq, Repr

/-- The calls of the application and the events of the completion context that
a socket receives: the public calls and the private event handlers declared
in `InfinibandSocketImpl`. -/
inductive SocketEvent where
  | connect
  | accept
  | disconnect
  | send
  | read
  | write
  | onAddressResolved
  | onRouteResolved
  | onResolutionError
  | onConnectionError
  | onConnectionRejected
  | onConnectionEstablished
  | onDisconnected
  | onTimewaitExit
  | onDrained
  | onReceive
  | onSend
  | onRead
  | onWrite
  deriving DecidableEq, Repr

/-- Modelled from the spec: the bodies of the state-changing members of
`InfinibandSocketImpl` are in `InfinibandSocket.cpp`, which is absent, and the
header holds no state member.  The transitions are those of section 4.3 of the
spec.  (1) `connect` takes Idle to AddressResolving.  (2) Address resolved
takes AddressResolving to RouteResolving; a resolution failure goes to Error.
(3) Route resolved takes RouteResolving to Connecting.  (4) Connection
established takes Connecting to Connected; `accept` completes the passive side
of this step and leaves the pending socket in Connecting.  (5) Connection
rejected, and a connection error, take Connecting to Error.  (6) `disconnect`
takes Connected to Disconnecting; a remote disconnect only invokes the handler.
(7) Timewait exit takes Disconnecting to Draining.  (8) Drained takes Draining
to Disconnected.  `send`, `read` and `write` are permitted in Connected and
change no state; a receive completion may arrive from Connecting on, and
completions may still arrive during Disconnecting and Draining.  An event that
arrives in any other state is not well-formed and has no result. -/
def SocketState.step : SocketState → SocketEvent → Option SocketState
  | .Idle, .connect => some .AddressResolving
  | .AddressResolving, .onAddressResolved => some .RouteResolving
  | .AddressResolving, .onResolutionError => some .Error
  | .RouteResolving, .onRouteResolved => some .Connecting
  | .RouteResolving, .onResolutionError => some .Error
  | .Connecting, .accept => some .Connecting
  | .Connecting, .onConnectionEstablished => some .Connected
  | .Connecting, .onConnectionRejected => some .Error
  | .Connecting, .onConnectionError => some .Error
  | .Connecting, .onReceive => some .Connecting
  | .Connected, .disconnect => some .Disconnecting
  | .Connected, .onDisconnected => some .Connected
  | .Connected, .send => some .Connected
  | .Connected, .read => some .Connected
  | .Connected, .write => some .Connected
  | .Connected, .onReceive => some .Connected
  | .Connected, .onSend => some .Connected
  | .Connected, .onRead => some .Connected
  | .Connected, .onWrite => some .Connected
  | .Disconnecting, .onTimewaitExit => some .Draining
  | .Disconnecting, .onReceive => some .Disconnecting
  | .Disconnecting, .onSend => some .Disconnecting
  | .Disconnecting, .onRead => some .Disconnecting
  | .Disconnecting, .onWrite => some .Disconnecting
  | .Draining, .onDrained => some .Disconnected
  | .Draining, .onReceive => some .Draining
  | .Draining, .onSend => some .Draining
  | .Draining, .onRead => some .Draining
  | .Draining, .onWrite => some .Draining
  | _, _ => none

/-- The state that follows a state on the line
Idle, AddressResolving, RouteResolving, Connecting, Connected, Disconnecting,
Draining, Disconnected. -/
def SocketState.succ : SocketState → Option SocketState
  | .Idle => some .AddressResolving
  | .AddressResolving => some .RouteResolving
  | .RouteResolving => some .Connecting
  | .Connecting => some .Connected
  | .Connected => some .Disconnecting
  | .Disconnecting => some .Draining
  | .Draining => some .Disconnected
  | .Disconnected => none
  | .Error => none

/-- The state is terminal: Disconnected or Error. -/
def SocketState.terminal : SocketState → Bool
  | .Disconnected => true
  | .Error => true
  | _ => false

/-- The edges of the transition graph: from a state to the next state on the
line, and from every state that is not terminal to Error. -/
def SocketState.edge (a b : SocketState) : Bool :=
  a.succ == some b || (b == SocketState.Error && !a.terminal)

/-- The state sequence stays in place or follows an edge of the graph. -/
def SocketState.follows (a b : SocketState) : Prop :=
  b = a ∨ SocketState.edge a b = true

/-- The states a socket goes through, the first one included, while it
receives a sequence of events; no result when an event is not well-formed in
the state it arrives in. -/
def SocketState.run : SocketState → List SocketEvent → Option (List SocketState)
  | s, [] => some [s]
  | s, e :: rest =>
    match s.step e with
    | none => none
    | some t =>
      match t.run rest with
      | none => none
      | some path => some (s :: path)

end infinio

/-! ## The logger (`logger.hpp`) -/

namespace logger

/-- The enumeration `LogLevel`. -/
inductive LogLevel where
  | TRACE
  | DEBUG
  | INFO
  | WARN
  | ERROR
  | FATAL
  deriving DecidableEq, Repr

/-- The value of a `LogLevel` in its underlying type `unsigned char`:
`TRACE = 0`, each following enumerator one more. -/
def LogLevel.toNat : LogLevel → Nat
  | .TRACE => 0
  | .DEBUG => 1
  | .INFO => 2
  | .WARN => 3
  | .ERROR => 4
  | .FATAL => 5

/-- The output streams a `std::ostream*` of the configuration can point to. -/
inductive ostream where
  | cout
  | clog
  | cerr
  | other (id : Nat)
  deriving DecidableEq, Repr

/-- The struct `LoggerConfig`, without the destruct functions: the level of
the filter, which has no initialiser, and the six sinks with their default
values. -/
structure LoggerConfig where
  level : LogLevel
  traceOut : ostream := ostream.cout
  debugOut : ostream := ostream.cout
  infoOut : ostream := ostream.cout
  warnOut : ostream := ostream.clog
  errorOut : ostream := ostream.cerr
  fatalOut : ostream := ostream.cerr
  deriving DecidableEq, Repr

/-- The private member template `LoggerT::log`.  `format str args` stands for
the text `formatter.str()` that `boost::format` makes of the format string
`str` and the arguments fed to it; the arguments are given as text.  A call
below the configured level returns without writing.  Otherwise the result is
the stream written to and the text of the two `<<` statements, which are made
under the mutex of the call: the formatted message, then the function, the
file and the line, then the end of line. -/
def LoggerT.log (format : String → List String → String) (config : LoggerConfig)
    (level : LogLevel) (stream : ostream) (file : String) (line : Nat) (function : String)
    (str : String) (args : List String) : Option (ostream × String) :=
  if config.level.toNat > level.toNat then
    none
  else
    some (stream,
      format str args ++ (" (in " ++ function ++ " at " ++ file ++ ":" ++ toString line ++ ")"
        ++ "\n"))

/-- The member template `LoggerT::trace`. -/
def LoggerT.trace (format : String → List String → String) (config : LoggerConfig)
    (file : String) (line : Nat) (function : String) (str : String) (args : List String) :
    Option (ostream × String) :=
  LoggerT.log format config LogLevel.TRACE config.traceOut file line function str args

/-- The member template `LoggerT::debug`. -/
def LoggerT.debug (format : String → List String → String) (config : LoggerConfig)
    (file : String) (line : Nat) (function : String) (str : String) (args : List String) :
    Option (ostream × String) :=
  LoggerT.log format config LogLevel.DEBUG config.debugOut file line function str args

/-- The member template `LoggerT::info`. -/
def LoggerT.info (format : String → List String → String) (config : LoggerConfig)
    (file : String) (line : Nat) (function : String) (str : String) (args : List String) :
    Option (ostream × String) :=
  LoggerT.log format config LogLevel.INFO config.infoOut file line function str args

/-- The member template `LoggerT::warn`. -/
def LoggerT.warn (format : String → List String → String) (config : LoggerConfig)
    (file : String) (line : Nat) (function : String) (str : String) (args : List String) :
    Option (ostream × String) :=
  LoggerT.log format config LogLevel.WARN config.warnOut file line function str args

/-- The member template `LoggerT::error`. -/
def LoggerT.error (format : String → List String → String) (config : LoggerConfig)
    (file : String) (line : Nat) (function : String) (str : String) (args : List String) :
    Option (ostream × String) :=
  LoggerT.log format config LogLevel.ERROR config.errorOut file line function str args

/-- The member template `LoggerT::fatal`. -/
def LoggerT.fatal (format : String → List String → String) (config : LoggerConfig)
    (file : String) (line : Nat) (function : String) (str : String) (args : List String) :
    Option (ostream × String) :=
  LoggerT.log format config LogLevel.FATAL config.fatalOut file line function str args

/-- The member function of `LoggerT` that logs at a given level. -/
def LoggerT.logAt (level : LogLevel) (format : String → List String → String)
    (config : LoggerConfig) (file : String) (line : Nat) (function : String) (str : String)
    (args : List String) : Option (ostream × String) :=
  match level with
  | .TRACE => LoggerT.trace format config file line function str args
  | .DEBUG => LoggerT.debug format config file line function str args
  | .INFO => LoggerT.info format config file line function str args
  | .WARN => LoggerT.warn format config file line function str args
  | .ERROR => LoggerT.error format config file line function str args
  | .FATAL => LoggerT.fatal format config file line function str args

/-- The sink that the configuration assigns to a level. -/
def LoggerConfig.sink (config : LoggerConfig) : LogLevel → ostream
  | .TRACE => config.traceOut
  | .DEBUG => config.debugOut
  | .INFO => config.infoOut
  | .WARN => config.warnOut
  | .ERROR => config.errorOut
  | .FATAL => config.fatalOut

/-- The source location as `LoggerT::log` prints it. -/
def location (file : String) (line : Nat) (function : String) : String :=
  " (in " ++ function ++ " at " ++ file ++ ":" ++ toString line ++ ")"

end logger

/-! ## The epoch allocator (`libs/allocator/src/allocator.cpp`)

Pointers are numbers, the null pointer is 0.  The size `sizeof(lists::node)` of
the node header depends on the platform and is the parameter `nodeSize`.  The
node headers that exist are kept in a heap that maps the address of a header
to its contents.  Every function is modelled for single-threaded use, where a
compare-and-exchange on a value just loaded succeeds. -/

/-- The constant `NUM_LISTS`. -/
def NUM_LISTS : Nat := 64

/-- The struct `lists::node`, the header in front of every block: `next` is
the next node of the list the block is linked into (0 at the end of the list,
the mark `0x1` while the block is in no list), `ptr` is the start of the block
of the system allocator, and `destruct` is the callback, empty until the block
is given to a list. -/
structure lists.node where
  next : Nat
  ptr : Nat
  destruct : Option Nat
  deriving DecidableEq, Repr

/-- The node headers in memory, by address. -/
abbrev NodeHeap := Nat → Option lists.node

/-- The heap without any node header. -/
def NodeHeap.empty : NodeHeap := fun _ => none

/-- Store a node header at an address. -/
def NodeHeap.write (heap : NodeHeap) (addr : Nat) (nd : lists.node) : NodeHeap :=
  fun a => if a = addr then some nd else heap a

/-- The node header at an address ceases to exist. -/
def NodeHeap.erase (heap : NodeHeap) (addr : Nat) : NodeHeap :=
  fun a => if a = addr then none else heap a

/-- The constructor `node(void* p)`: the mark `0x1` in `next`, the block start
in `ptr`, an empty callback. -/
def lists.node.new (p : Nat) : lists.node :=
  { next := 1, ptr := p, destruct := none }

/-- The member `node::own(destruct)`: a node whose `next` is not the mark
`0x1` is already owned by a list and is left alone; otherwise `next` becomes
null and the callback is stored.  The result is the returned flag and the node
afterwards. -/
def lists.node.own (self : lists.node) (destruct : Nat) : Bool × lists.node :=
  if self.next ≠ 1 then
    (false, self)
  else
    (true, { self with next := 0, destruct := some destruct })

/-- What the teardown of a list does to the outside: it runs the destruct
callback of a node, or hands the start of a block to `::free`. -/
inductive Reclaim where
  | destruct (callback : Nat)
  | free (ptr : Nat)
  deriving DecidableEq, Repr

/-- The struct `lists::list`: the head of a singly linked list of nodes. -/
structure lists.list where
  head_ : Nat
  deriving DecidableEq, Repr

/-- The constructor `list()`: an empty list. -/
def lists.list.new : lists.list := { head_ := 0 }

/-- The recursive member `list::destruct(node* node)`: on null it returns;
otherwise it first tears down the rest of the list, then reads `node->ptr`,
runs the destructor of the node, which calls the callback, and frees the
block, with which the node header ceases to exist.  `fuel` bounds the depth of
the recursion; there is no result when the fuel runs out, when a pointer leads
to no node, or when the callback of a node is empty. -/
def lists.list.destruct : Nat → NodeHeap → Nat → Option (NodeHeap × List Reclaim)
  | 0, _, _ => none
  | fuel + 1, heap, node =>
    if node = 0 then
      some (heap, [])
    else
      match heap node with
      | none => none
      | some nd =>
        match lists.list.destruct fuel heap nd.next with
        | none => none
        | some (heap1, done) =>
          match heap1 node with
          | none => none
          | some nd1 =>
            match nd1.destruct with
            | none => none
            | some callback =>
              some (heap1.erase node, done ++ [Reclaim.destruct callback, Reclaim.free nd1.ptr])

/-- The destructor of `list`: `destruct(head_.load())`. -/
def lists.list.dtor (fuel : Nat) (heap : NodeHeap) (self : lists.list) :
    Option (NodeHeap × List Reclaim) :=
  lists.list.destruct fuel heap self.head_

/-- The member `list::append(uint8_t* ptr, destruct)`: the node header lies
`sizeof(node)` bytes before `ptr`; a node that is already owned is ignored,
otherwise the node is put in front of the list.  There is no result when no
node header lies before `ptr`. -/
def lists.list.append (nodeSize : Nat) (heap : NodeHeap) (self : lists.list)
    (ptr destruct : Nat) : Option (NodeHeap × lists.list) :=
  let nd := (ptr + 2 ^ 64 - nodeSize) % 2 ^ 64
  match heap nd with
  | none => none
  | some node =>
    let owned := node.own destruct
    if owned.1 = false then
      some (heap, self)
    else
      let head := self.head_
      some (heap.write nd { owned.2 with next := head }, { head_ := nd })

/-- The struct `lists`: the array `lists_` of `NUM_LISTS` lists, by index. -/
structure lists where
  lists_ : Nat → lists.list

/-- The constructor of `lists`: every list is empty. -/
def lists.new : lists := { lists_ := fun _ => lists.list.new }

/-- The member `lists::append(ptr, mycnt, destruct)`: the block goes to the
list `mycnt % NUM_LISTS`. -/
def lists.append (nodeSize : Nat) (heap : NodeHeap) (self : lists)
    (ptr mycnt destruct : Nat) : Option (NodeHeap × lists) :=
  match (self.lists_ (mycnt % NUM_LISTS)).append nodeSize heap ptr destruct with
  | none => none
  | some (heap1, l) =>
    some (heap1, { lists_ := fun i => if i = mycnt % NUM_LISTS then l else self.lists_ i })

/-- The lists `k - 1`, ..., `0` of the array are destroyed, in this order. -/
def lists.destroyBelow (fuel : Nat) (self : lists) :
    Nat → NodeHeap → Option (NodeHeap × List Reclaim)
  | 0, heap => some (heap, [])
  | k + 1, heap =>
    match (self.lists_ k).dtor fuel heap with
    | none => none
    | some (heap1, done) =>
      match lists.destroyBelow fuel self k heap1 with
      | none => none
      | some (heap2, rest) => some (heap2, done ++ rest)

/-- The destructor of `lists`, run by `delete`: the elements of the array are
destroyed from the last to the first. -/
def lists.dtor (fuel : Nat) (heap : NodeHeap) (self : lists) :
    Option (NodeHeap × List Reclaim) :=
  lists.destroyBelow fuel self NUM_LISTS heap

/-- The globals of the file: the three counters created by `init`, by index,
the pointers `active_cnt`, `old_cnt` and `oldest_cnt` to them, and the list
sets `active_list`, `old_list` and `oldest_list`; next to them the heap of
node headers. -/
structure Globals where
  counters : Nat → Nat
  active_cnt : Nat
  old_cnt : Nat
  oldest_cnt : Nat
  active_list : lists
  old_list : lists
  oldest_list : lists
  heap : NodeHeap

/-- Store a value in a counter. -/
def Globals.setCounter (g : Globals) (cnt value : Nat) : Globals :=
  { g with counters := fun i => if i = cnt then value else g.counters i }

/-- The class `allocator`: the member `cnt_` points to the counter of the
epoch the object entered. -/
structure allocator where
  cnt_ : Nat
  deriving DecidableEq, Repr

/-- The function `allocator::init()`: the active counter starts at 1, the old
and the oldest counter at 0, and the three list sets are empty. -/
def allocator.init (heap : NodeHeap) : Globals :=
  { counters := fun i => if i = 0 then 1 else 0,
    active_cnt := 0, old_cnt := 1, oldest_cnt := 2,
    active_list := lists.new, old_list := lists.new, oldest_list := lists.new,
    heap := heap }

/-- The padding `nodePadding` computed by `allocator::malloc(size, align)` for
an alignment `align > 0`.  At `align = 0` the source divides by zero in
`sizeof(lists::node) % align`; `allocator.malloc_aligned` has no result there
and never evaluates this padding. -/
def allocator.nodePadding (nodeSize align : Nat) : Nat :=
  if nodeSize % align ≠ 0 then align - nodeSize % align else 0

/-- The function `allocator::malloc(std::size_t size)`.  `sys_malloc` is
`::malloc` of the system, which returns the start of a block or null.  The
result is the pointer returned and the heap with the new node header. -/
def allocator.malloc (nodeSize : Nat) (sys_malloc : Nat → Option Nat) (heap : NodeHeap)
    (size : Nat) : Option Nat × NodeHeap :=
  match sys_malloc ((size + nodeSize) % 2 ^ 64) with
  | none => (none, heap)
  | some res => (some ((res + nodeSize) % 2 ^ 64), heap.write res (lists.node.new res))

/-- The function `allocator::malloc(std::size_t size, std::size_t align)`.
`sys_aligned_alloc` is `::aligned_alloc` of the system.  The node header is
constructed at `res + nodePadding`.  The first statement of the function
computes `sizeof(lists::node) % align`: with `align = 0` that is a division by
zero before the system is asked for a block, and the function has no result
(the outer `none`).  Otherwise the result is the pointer returned, null when
the system returns null, and the heap with the new node header. -/
def allocator.malloc_aligned (nodeSize : Nat) (sys_aligned_alloc : Nat → Nat → Option Nat)
    (heap : NodeHeap) (size align : Nat) : Option (Option Nat × NodeHeap) :=
  if align = 0 then
    none
  else
    let nodePadding := allocator.nodePadding nodeSize align
    match sys_aligned_alloc align ((size + nodeSize + nodePadding) % 2 ^ 64) with
    | none => some (none, heap)
    | some res =>
      some (some ((res + nodeSize + nodePadding) % 2 ^ 64),
        heap.write ((res + nodePadding) % 2 ^ 64) (lists.node.new res))

/-- The function `allocator::free(ptr, destruct)`: the block goes to the list
of the active list set chosen by the time stamp counter `t`. -/
def allocator.free (nodeSize : Nat) (g : Globals) (ptr destruct t : Nat) : Option Globals :=
  match g.active_list.append nodeSize g.heap ptr t destruct with
  | none => none
  | some (heap1, l) => some { g with active_list := l, heap := heap1 }

/-- The function `allocator::free_in_order(ptr, destruct)`: the block goes to
the list 0 of the active list set. -/
def allocator.free_in_order (nodeSize : Nat) (g : Globals) (ptr destruct : Nat) :
    Option Globals :=
  match g.active_list.append nodeSize g.heap ptr 0 destruct with
  | none => none
  | some (heap1, l) => some { g with active_list := l, heap := heap1 }

/-- The function `allocator::free_now(ptr)`: the result is the address handed
to `::free`, read from the node header before `ptr`; no result when no node
header lies there. -/
def allocator.free_now (nodeSize : Nat) (heap : NodeHeap) (ptr : Nat) : Option Nat :=
  match heap ((ptr + 2 ^ 64 - nodeSize) % 2 ^ 64) with
  | none => none
  | some nd => some nd.ptr

/-- The constructor `allocator()`: it enters the active epoch by adding 2 to
the active counter when that counter is odd.  With an even active counter the
loop never ends in single-threaded use, and there is no result. -/
def allocator.ctor (g : Globals) : Option (allocator × Globals) :=
  let cnt := g.active_cnt
  let my_cnt := g.counters cnt
  if my_cnt % 2 = 1 then
    some ({ cnt_ := cnt }, g.setCounter cnt ((my_cnt + 2) % 2 ^ 64))
  else
    none

/-- The rotation of the epochs in the destructor of `allocator`, from the
exchange of the counters to `delete todelete`: the active counter becomes the
old one, the old one the oldest and the oldest one the active one, the active
list set becomes the old one, the old one the oldest, a new list set becomes
the active one, the new active counter is incremented, and the former oldest
list set is deleted. -/
def allocator.rotate (fuel : Nat) (g : Globals) : Option (Globals × List Reclaim) :=
  let activecnt := g.active_cnt
  let g1 : Globals := { g with active_cnt := g.oldest_cnt }
  let g2 : Globals := { g1 with oldest_cnt := g1.old_cnt }
  let g3 : Globals := { g2 with old_cnt := activecnt }
  let todelete := g3.oldest_list
  let g4 : Globals := { g3 with oldest_list := g3.old_list }
  let g5 : Globals := { g4 with old_list := g4.active_list }
  let g6 : Globals := { g5 with active_list := lists.new }
  let g7 := g6.setCounter g6.active_cnt ((g6.counters g6.active_cnt + 1) % 2 ^ 64)
  match todelete.dtor fuel g7.heap with
  | none => none
  | some (heap1, done) => some ({ g7 with heap := heap1 }, done)

/-- Outcome of the destructor of `allocator`: the globals it leaves, whether it
rotated the epochs, and what the rotation reclaimed. -/
structure GuardExit where
  globals : Globals
  rotated : Bool
  reclaimed : List Reclaim

/-- The destructor of `allocator`: it leaves its epoch by subtracting 2 from
its counter; when the old and the oldest counter are zero and the active
counter is odd, it clears the low bit of the active counter and rotates the
epochs. -/
def allocator.dtor (fuel : Nat) (self : allocator) (g : Globals) : Option GuardExit :=
  let g1 := g.setCounter self.cnt_ ((g.counters self.cnt_ + 2 ^ 64 - 2) % 2 ^ 64)
  let oldcnt := g1.counters g1.old_cnt
  let oldestcnt := g1.counters g1.oldest_cnt
  let ac := g1.active_cnt
  let oac := g1.counters ac
  if oldestcnt = 0 ∧ oldcnt = 0 ∧ oac % 2 = 1 then
    let g2 := g1.setCounter ac (oac - 1)
    match allocator.rotate fuel g2 with
    | none => none
    | some (g3, done) => some { globals := g3, rotated := true, reclaimed := done }
  else
    some { globals := g1, rotated := false, reclaimed := [] }

/-- The function `allocator::destroy()`, registered with `atexit`: the oldest,
the old and the active list set are deleted, in this order. -/
def allocator.destroy (fuel : Nat) (g : Globals) : Option (NodeHeap × List Reclaim) :=
  match g.oldest_list.dtor fuel g.heap with
  | none => none
  | some (heap1, done1) =>
    match g.old_list.dtor fuel heap1 with
    | none => none
    | some (heap2, done2) =>
      match g.active_list.dtor fuel heap2 with
      | none => none
      | some (heap3, done3) => some (heap3, done1 ++ done2 ++ done3)

/-- Release a sequence of blocks with `free_in_order`, first block first; a
block is given by the pointer and the callback passed to the call. -/
def allocator.free_in_order_all (nodeSize : Nat) :
    Globals → List (Nat × Nat) → Option Globals
  | g, [] => some g
  | g, call :: rest =>
    match allocator.free_in_order nodeSize g call.1 call.2 with
    | none => none
    | some g1 => allocator.free_in_order_all nodeSize g1 rest

/-- One guarded section that releases nothing: an `allocator` object is
constructed and destroyed. -/
def allocator.enter_leave (fuel : Nat) (g : Globals) : Option GuardExit :=
  match allocator.ctor g with
  | none => none
  | some (guard, g1) => guard.dtor fuel g1

/-- One release of a block: with `free` and the time stamp `t` when `stamp` is
`some t`, with `free_in_order` when it is `none`. -/
def allocator.release (nodeSize : Nat) (g : Globals) (ptr destruct : Nat) :
    Option Nat → Option Globals
  | some t => allocator.free nodeSize g ptr destruct t
  | none => allocator.free_in_order nodeSize g ptr destruct

/-- The list index a release goes to: `t % NUM_LISTS` for `free` with the time
stamp `t`, 0 for `free_in_order`. -/
def allocator.listIndex : Option Nat → Nat
  | some t => t % NUM_LISTS
  | none => 0

/-- No guard is active: the active counter is 1, the old and the oldest
counter are 0, and the three counters are three objects. -/
def Globals.quiescent (g : Globals) : Prop :=
  g.counters g.active_cnt = 1 ∧ g.counters g.old_cnt = 0 ∧ g.counters g.oldest_cnt = 0 ∧
  g.active_cnt ≠ g.old_cnt ∧ g.active_cnt ≠ g.oldest_cnt ∧ g.old_cnt ≠ g.oldest_cnt

/-! ### Description of the lists

The contents of a list, for stating what a teardown reclaims. -/

/-- A block that is linked into a list: the address of its node header, the
block start recorded in the header, and the callback stored in the header. -/
structure Linked where
  addr : Nat
  ptr : Nat
  callback : Nat
  deriving DecidableEq, Repr

/-- What the teardown of one block does: the callback runs, then the block is
freed. -/
def Linked.reclaim (b : Linked) : List Reclaim :=
  [Reclaim.destruct b.callback, Reclaim.free b.ptr]

/-- The list that starts at `head` consists of exactly the given blocks, from
the head to the tail. -/
def NodeHeap.chain (heap : NodeHeap) : Nat → List Linked → Bool
  | head, [] => head == 0
  | head, b :: rest =>
    head == b.addr && b.addr != 0 &&
      match heap b.addr with
      | none => false
      | some nd => nd.ptr == b.ptr && nd.destruct == some b.callback && heap.chain nd.next rest

/-- What the teardown of a list reclaims: the blocks from the tail to the
head. -/
def Linked.reclaimAll : List Linked → List Reclaim
  | [] => []
  | b :: rest => Linked.reclaimAll rest ++ b.reclaim

/-- The blocks are reclaimed one after the other, in the order of the
sequence. -/
def Linked.reclaimInOrder : List Linked → List Reclaim
  | [] => []
  | b :: rest => b.reclaim ++ Linked.reclaimInOrder rest

/-- The addresses of the node headers in the lists `k - 1`, ..., `0` of a list
set whose list `i` holds the blocks `contents i`. -/
def Linked.addrsBelow (contents : Nat → List Linked) : Nat → List Nat
  | 0 => []
  | k + 1 => (contents k).map Linked.addr ++ Linked.addrsBelow contents k

/-- The block starts recorded in the lists `k - 1`, ..., `0`. -/
def Linked.ptrsBelow (contents : Nat → List Linked) : Nat → List Nat
  | 0 => []
  | k + 1 => (contents k).map Linked.ptr ++ Linked.ptrsBelow contents k

/-- What the teardown of the lists `k - 1`, ..., `0` reclaims. -/
def Linked.reclaimBelow (contents : Nat → List Linked) : Nat → List Reclaim
  | 0 => []
  | k + 1 => Linked.reclaimAll (contents k) ++ Linked.reclaimBelow contents k

/-- The contents of a list set after one more block has been put in front of
its list `j`. -/
def Linked.linkedAt (contents : Nat → List Linked) (j : Nat) (b : Linked) :
    Nat → List Linked :=
  fun i => if i = j then b :: contents i else contents i

/-- The list set holds, list by list, exactly the blocks `contents`. -/
def lists.holds (heap : NodeHeap) (self : lists) (contents : Nat → List Linked) : Prop :=
  ∀ i, i < NUM_LISTS → heap.chain (self.lists_ i).head_ (contents i) = true

/-! ## The singleton holder (`crossbow/singleton.hpp`) -/

/-- The exception `std::logic_error` with its message. -/
structure logic_error where
  what : String
  deriving DecidableEq, Repr

/-- The lifetime policies of the header. -/
inductive lifetime_policy where
  | default_lifetime
  | phoenix_lifetime
  | infinite_lifetime
  deriving DecidableEq, Repr

/-- The constant `lifetime_traits<L>::supports_recreation`: true in the primary
template, false in the specialisations for `infinite_lifetime` and
`default_lifetime`. -/
def lifetime_traits.supports_recreation : lifetime_policy → Bool
  | .default_lifetime => false
  | .infinite_lifetime => false
  | .phoenix_lifetime => true

/-- The member `on_dead_ref()` of a lifetime policy: `default_lifetime` throws
the logic error, the other two policies do nothing. -/
def lifetime_policy.on_dead_ref : lifetime_policy → Option logic_error
  | .default_lifetime => some { what := "Dead reference detected" }
  | .phoenix_lifetime => none
  | .infinite_lifetime => none

/-- The member `schedule_destruction(ptr, func)` of a lifetime policy: the
number of functions it registers with `std::atexit`. -/
def lifetime_policy.schedule_destruction : lifetime_policy → Nat
  | .default_lifetime => 1
  | .phoenix_lifetime => 1
  | .infinite_lifetime => 0

/-- A creation policy: the constant `supports_recreation` and the function
`create()`, which returns the address of the object it constructed, or null.
The argument of `create` is the number of objects constructed before. -/
structure create_policy where
  supports_recreation : Bool
  create : Nat → Option Nat

/-- The policy `create_static<T>`: the object is constructed in the static
storage `static_memory_`, whose address is `storage`. -/
def create_static (storage : Nat) : create_policy :=
  { supports_recreation := false, create := fun _ => some storage }

/-- The static members of `singleton<Type, Create, LifetimePolicy, Mutex>`,
`destroyed_` and `instance_`, next to what has happened so far: the number of
objects constructed by `Create::create`, the objects handed to
`Create::destroy`, and the number of registrations with `std::atexit`. -/
structure singleton where
  destroyed_ : Bool
  instance_ : Option Nat
  constructed : Nat
  destroyedObjects : List Nat
  scheduled : Nat
  deriving DecidableEq, Repr

/-- The initial values of the static members: `destroyed_ = false` and
`instance_ = nullptr`. -/
def singleton.initial : singleton :=
  { destroyed_ := false, instance_ := none, constructed := 0, destroyedObjects := [],
    scheduled := 0 }

/-- The condition of the `static_assert` in `instance()`. -/
def singleton.static_assert (create : create_policy) (lifetime : lifetime_policy) : Bool :=
  create.supports_recreation || !lifetime_traits.supports_recreation lifetime

/-- The private member `singleton::destroy()`.  Handing a null `instance_` to
`Create::destroy` has no defined result. -/
def singleton.destroy (self : singleton) : Option singleton :=
  if self.destroyed_ then
    some self
  else
    match self.instance_ with
    | none => none
    | some object =>
      some { self with
        destroyedObjects := self.destroyedObjects ++ [object],
        instance_ := none,
        destroyed_ := true }

/-- The member `singleton::destroy_instance()`. -/
def singleton.destroy_instance (self : singleton) : Option singleton :=
  match self.instance_ with
  | none => some self
  | some _ => self.destroy

/-- Outcome of `singleton::instance()`: the static members afterwards, and
either the exception thrown or the address of the object referred to by the
reference returned (null when `instance_` is null at the `return`). -/
structure Access where
  state : singleton
  result : Except logic_error (Option Nat)

/-- The member `singleton::instance()`.  With `instance_` null: when
`destroyed_` is set it is cleared and `on_dead_ref()` is called, which may
throw; then the object is created and its destruction scheduled. -/
def singleton.get_instance (create : create_policy) (lifetime : lifetime_policy)
    (self : singleton) : Access :=
  match self.instance_ with
  | some object => { state := self, result := Except.ok (some object) }
  | none =>
    let afterDead : singleton × Option logic_error :=
      if self.destroyed_ then
        ({ self with destroyed_ := false }, lifetime.on_dead_ref)
      else
        (self, none)
    match afterDead.2 with
    | some e => { state := afterDead.1, result := Except.error e }
    | none =>
      let created := create.create afterDead.1.constructed
      let next : singleton :=
        { afterDead.1 with
          instance_ := created,
          constructed := afterDead.1.constructed + 1,
          scheduled := afterDead.1.scheduled + lifetime.schedule_destruction }
      { state := next, result := Except.ok created }

end crossbow

/-! # Theorems -/

namespace crossbow
namespace infinio

/-! ## Auxiliary facts -/

/-- Adding a buffer range that the check accepts appends one element. -/
theorem ScatterGatherBuffer.addBuffer_accept (w : Nat) (S : ScatterGatherBuffer)
    (B : InfinibandBuffer) (offset length : Nat)
    (h : ¬ (offset + length) % 2 ^ 64 > B.length) :
    S.addBuffer w B offset length =
      { mHandle := S.mHandle ++
          [{ addr := (B.data + offset) % 2 ^ 64, length := length, lkey := B.lkey }],
        mLength := (S.mLength + length) % 2 ^ w } := by
  simp only [ScatterGatherBuffer.addBuffer, if_neg h]

/-- Adding a buffer range that the check refuses changes nothing. -/
theorem ScatterGatherBuffer.addBuffer_refuse (w : Nat) (S : ScatterGatherBuffer)
    (B : InfinibandBuffer) (offset length : Nat)
    (h : (offset + length) % 2 ^ 64 > B.length) :
    S.addBuffer w B offset length = S := by
  simp only [ScatterGatherBuffer.addBuffer, if_pos h]

/-- The sum of the element lengths after one more element. -/
theorem ScatterGatherBuffer.elementBytes_append (hs : List ibv_sge) (n : Nat) (e : ibv_sge) :
    ScatterGatherBuffer.elementBytes { mHandle := hs ++ [e], mLength := n } =
      ScatterGatherBuffer.elementBytes { mHandle := hs, mLength := 0 } + e.length := by
  simp [ScatterGatherBuffer.elementBytes]

/-- The sum of the element lengths does not depend on the recorded total. -/
theorem ScatterGatherBuffer.elementBytes_handle (S : ScatterGatherBuffer) :
    ScatterGatherBuffer.elementBytes { mHandle := S.mHandle, mLength := 0 } = S.elementBytes := by
  rfl

/-- One call of `add` keeps the recorded total equal to the sum of the element
lengths, reduced to the width of the counter. -/
theorem ScatterGatherBuffer.add_keeps_total (w : Nat) (S T : ScatterGatherBuffer) (c : AddCall)
    (hS : S.mLength = S.elementBytes % 2 ^ w) (hT : S.add w c = some T) :
    T.mLength = T.elementBytes % 2 ^ w := by
  cases c with
  | region src addr length =>
    simp only [ScatterGatherBuffer.add, ScatterGatherBuffer.addRegion] at hT
    cases hk : src.lkey with
    | none => simp [hk] at hT
    | some key =>
      simp only [hk, Option.some.injEq] at hT
      subst hT
      rw [ScatterGatherBuffer.elementBytes_append, ScatterGatherBuffer.elementBytes_handle]
      simp only [hS]
      exact Nat.mod_add_mod _ _ _
  | buffer src offset length =>
    simp only [ScatterGatherBuffer.add, Option.some.injEq] at hT
    by_cases h : (offset + length) % 2 ^ 64 > src.length
    · rw [ScatterGatherBuffer.addBuffer_refuse w S src offset length h] at hT
      subst hT
      exact hS
    · rw [ScatterGatherBuffer.addBuffer_accept w S src offset length h] at hT
      subst hT
      rw [ScatterGatherBuffer.elementBytes_append, ScatterGatherBuffer.elementBytes_handle]
      simp only [hS]
      exact Nat.mod_add_mod _ _ _

/-- A defined call of `add` has a result. -/
theorem ScatterGatherBuffer.add_defined (w : Nat) (S : ScatterGatherBuffer) (c : AddCall)
    (hc : c.defined = true) : ∃ T, S.add w c = some T := by
  cases c with
  | region src addr length =>
    simp only [AddCall.defined, LocalMemoryRegion.valid] at hc
    cases hm : src.mDataRegion with
    | none => simp [hm] at hc
    | some mr =>
      refine ⟨{ mHandle := S.mHandle ++ [{ addr := addr, length := length, lkey := mr.lkey }],
                mLength := (S.mLength + length) % 2 ^ w }, ?_⟩
      simp [ScatterGatherBuffer.add, ScatterGatherBuffer.addRegion, LocalMemoryRegion.lkey, hm]
  | buffer src offset length => exact ⟨_, rfl⟩

/-- A sequence of defined calls of `add` has a result, and it keeps the
recorded total equal to the sum of the element lengths, reduced to the width
of the counter. -/
theorem ScatterGatherBuffer.addAll_keeps_total (w : Nat) (calls : List AddCall) :
    ∀ S : ScatterGatherBuffer, S.mLength = S.elementBytes % 2 ^ w →
      (∀ c ∈ calls, AddCall.defined c = true) →
      ∃ T, S.addAll w calls = some T ∧ T.mLength = T.elementBytes % 2 ^ w := by
  induction calls with
  | nil =>
    intro S hS _
    exact ⟨S, rfl, hS⟩
  | cons c rest ih =>
    intro S hS hdef
    obtain ⟨T, hT⟩ := ScatterGatherBuffer.add_defined w S c (hdef c (List.mem_cons_self c rest))
    have hTlen := ScatterGatherBuffer.add_keeps_total w S T c hS hT
    obtain ⟨U, hU, hUlen⟩ := ih T hTlen (fun d hd => hdef d (List.mem_cons_of_mem c hd))
    refine ⟨U, ?_, hUlen⟩
    simp only [ScatterGatherBuffer.addAll, hT]
    exact hU

/-! ## `acquireBuffer` -/

/-- C1, as stated, fails at two inputs of the region `[4096, 4096 + 10)` with
key 7.  First, the request `(INVALID_ID, 0, 4)` is in range (`0 + 4 ≤ 10`) and
the buffer returned carries the id `INVALID_ID`, the mark of the invalid
sentinel.  Second, for the request `(1, 2 ^ 64 - 1, 1)` the mathematical sum
`2 ^ 64` exceeds the length 10, yet the 64-bit sum wraps to 0 and the buffer
returned carries the id 1 and the address 4095, one byte below the region. -/
theorem acquireBuffer_iff_counterexample :
    (0 + 4 ≤ 10 ∧
      (LocalMemoryRegion.mk (some { addr := 4096, length := 10, lkey := 7 })).acquireBuffer
          InfinibandBuffer.INVALID_ID 0 4 =
        some { mId := InfinibandBuffer.INVALID_ID,
               mHandle := { addr := 4096, length := 4, lkey := 7 } }) ∧
    (¬ ((2 ^ 64 - 1) + 1 ≤ 10) ∧
      (LocalMemoryRegion.mk (some { addr := 4096, length := 10, lkey := 7 })).acquireBuffer
          1 (2 ^ 64 - 1) 1 =
        some { mId := 1, mHandle := { addr := 4095, length := 1, lkey := 7 } } ∧
      (1 : Nat) ≠ InfinibandBuffer.INVALID_ID) := by
  refine ⟨⟨by decide, ?_⟩, by decide, ?_, by decide⟩
  · simp [LocalMemoryRegion.acquireBuffer, InfinibandBuffer.new]
  · simp [LocalMemoryRegion.acquireBuffer, InfinibandBuffer.new]

/-- C1, amended: for a registered region `R` and a request `(id, offset, length)`
whose sum `offset + length` fits in 64 bits, `acquireBuffer` returns a buffer,
and the id of that buffer differs from `INVALID_ID` if and only if
`offset + length ≤ R.length` and the requested id is not `INVALID_ID` itself;
when `offset + length > R.length` the buffer returned is the invalid sentinel
`InfinibandBuffer(INVALID_ID)`. -/
theorem acquireBuffer_succeeds_iff (R : LocalMemoryRegion) (mr : ibv_mr)
    (id offset length : Nat) (hR : R.mDataRegion = some mr)
    (hsum : offset + length < 2 ^ 64) :
    ∃ b, R.acquireBuffer id offset length = some b ∧
      (b.id ≠ InfinibandBuffer.INVALID_ID ↔
        (offset + length ≤ mr.length ∧ id ≠ InfinibandBuffer.INVALID_ID)) ∧
      (mr.length < offset + length → b = InfinibandBuffer.new InfinibandBuffer.INVALID_ID) := by
  have hmod : (offset + length) % 2 ^ 64 = offset + length := Nat.mod_eq_of_lt hsum
  by_cases h : offset + length > mr.length
  · refine ⟨InfinibandBuffer.new InfinibandBuffer.INVALID_ID, ?_, ?_, fun _ => rfl⟩
    · simp only [LocalMemoryRegion.acquireBuffer, hR, hmod, if_pos h]
    · constructor
      · intro hid
        exact absurd rfl hid
      · intro hle
        exact absurd hle.1 (Nat.not_le.mpr h)
  · refine ⟨{ mId := id,
              mHandle := { addr := (mr.addr + offset) % 2 ^ 64, length := length,
                           lkey := mr.lkey } }, ?_, ?_, fun hlt => absurd hlt h⟩
    · simp only [LocalMemoryRegion.acquireBuffer, hR, hmod, if_neg h, InfinibandBuffer.new]
    · constructor
      · intro hid
        exact ⟨Nat.le_of_not_lt h, hid⟩
      · intro hle
        exact hle.2

/-- Witness of `acquireBuffer_succeeds_iff`: the request `(5, 2, 8)` on the
region `[4096, 4096 + 10)`. -/
theorem acquireBuffer_succeeds_iff_witness :
    ∃ b, (LocalMemoryRegion.mk (some { addr := 4096, length := 10, lkey := 7 })).acquireBuffer
        5 2 8 = some b ∧
      (b.id ≠ InfinibandBuffer.INVALID_ID ↔
        (2 + 8 ≤ (ibv_mr.mk 4096 10 7).length ∧ 5 ≠ InfinibandBuffer.INVALID_ID)) ∧
      ((ibv_mr.mk 4096 10 7).length < 2 + 8 →
        b = InfinibandBuffer.new InfinibandBuffer.INVALID_ID) :=
  acquireBuffer_succeeds_iff (LocalMemoryRegion.mk (some { addr := 4096, length := 10, lkey := 7 }))
    { addr := 4096, length := 10, lkey := 7 } 5 2 8 rfl (by decide)

/-- C2: for a registered region `R` that is a span of the address space
(`R.address + R.length < 2 ^ 64`) and an in-range request
(`offset + length ≤ R.length`), the buffer returned by `acquireBuffer` carries
the requested id, the data address `R.address + offset`, the requested length
and the local key of `R`, and its span `[data, data + length)` lies inside
`[R.address, R.address + R.length)`. -/
theorem acquireBuffer_in_range (R : LocalMemoryRegion) (mr : ibv_mr)
    (id offset length : Nat) (hR : R.mDataRegion = some mr)
    (hspan : mr.addr + mr.length < 2 ^ 64) (hin : offset + length ≤ mr.length) :
    ∃ b, R.acquireBuffer id offset length = some b ∧
      b.id = id ∧ b.data = mr.addr + offset ∧ b.length = length ∧ b.lkey = mr.lkey ∧
      mr.addr ≤ b.data ∧ b.data + b.length ≤ mr.addr + mr.length := by
  have hsum : (offset + length) % 2 ^ 64 = offset + length :=
    Nat.mod_eq_of_lt (by omega)
  have haddr : (mr.addr + offset) % 2 ^ 64 = mr.addr + offset :=
    Nat.mod_eq_of_lt (by omega)
  refine ⟨{ mId := id,
            mHandle := { addr := mr.addr + offset, length := length, lkey := mr.lkey } },
    ?_, rfl, rfl, rfl, rfl, ?_, ?_⟩
  · simp only [LocalMemoryRegion.acquireBuffer, hR, hsum, haddr, InfinibandBuffer.new,
      if_neg (Nat.not_lt.mpr hin)]
  · simp only [InfinibandBuffer.data]
    omega
  · simp only [InfinibandBuffer.data, InfinibandBuffer.length]
    omega

/-- Witness of `acquireBuffer_in_range`: the request `(5, 2, 8)`, which ends
exactly at the end of the region `[4096, 4096 + 10)`. -/
theorem acquireBuffer_in_range_witness :
    ∃ b, (LocalMemoryRegion.mk (some { addr := 4096, length := 10, lkey := 7 })).acquireBuffer
        5 2 8 = some b ∧
      b.id = 5 ∧ b.data = (ibv_mr.mk 4096 10 7).addr + 2 ∧ b.length = 8 ∧
      b.lkey = (ibv_mr.mk 4096 10 7).lkey ∧
      (ibv_mr.mk 4096 10 7).addr ≤ b.data ∧
      b.data + b.length ≤ (ibv_mr.mk 4096 10 7).addr + (ibv_mr.mk 4096 10 7).length :=
  acquireBuffer_in_range (LocalMemoryRegion.mk (some { addr := 4096, length := 10, lkey := 7 }))
    { addr := 4096, length := 10, lkey := 7 } 5 2 8 rfl (by decide) (by decide)

/-! ## `ScatterGatherBuffer::add` -/

/-- C3, the code at the failing input: the source buffer spans
`[4096, 4096 + 10)`, the request is `offset = 2 ^ 64 - 1`, `length = 1`.  The
sum `2 ^ 64` exceeds the buffer length 10, yet the 64-bit sum wraps to 0, the
check lets the request pass, and the empty scatter-gather buffer receives one
element at address 4095 and a total length of 1. -/
theorem addBuffer_wrapped_range_appends :
    (2 ^ 64 - 1) + 1 > (InfinibandBuffer.mk 3 { addr := 4096, length := 10, lkey := 7 }).length ∧
    ScatterGatherBuffer.empty.addBuffer 64
        (InfinibandBuffer.mk 3 { addr := 4096, length := 10, lkey := 7 }) (2 ^ 64 - 1) 1 =
      { mHandle := [{ addr := 4095, length := 1, lkey := 7 }], mLength := 1 } ∧
    ScatterGatherBuffer.empty.addBuffer 64
        (InfinibandBuffer.mk 3 { addr := 4096, length := 10, lkey := 7 }) (2 ^ 64 - 1) 1 ≠
      ScatterGatherBuffer.empty := by
  refine ⟨by decide, ?_, ?_⟩
  · simp [ScatterGatherBuffer.addBuffer, ScatterGatherBuffer.empty, InfinibandBuffer.length,
      InfinibandBuffer.data, InfinibandBuffer.lkey]
  · simp [ScatterGatherBuffer.addBuffer, ScatterGatherBuffer.empty, InfinibandBuffer.length,
      InfinibandBuffer.data, InfinibandBuffer.lkey]

/-- Away from the wrap of the 64-bit sum the out-of-range request is dropped:
when `offset + length` fits in 64 bits and exceeds the length of the source
buffer, `add` returns the scatter-gather buffer it was given, elements and
total length alike. -/
theorem addBuffer_out_of_range_unchanged (w : Nat) (S : ScatterGatherBuffer)
    (B : InfinibandBuffer) (offset length : Nat)
    (hsum : offset + length < 2 ^ 64) (hout : offset + length > B.length) :
    S.addBuffer w B offset length = S := by
  apply ScatterGatherBuffer.addBuffer_refuse
  rw [Nat.mod_eq_of_lt hsum]
  exact hout

/-- C4: when the source buffer `B` is a span of the address space
(`B.data + B.length < 2 ^ 64`) and `offset + length ≤ B.length`, `add` appends
exactly one element at the end, equal to
`(B.data + offset, length, B.lkey)`, keeps the earlier elements in their order,
and the span of the new element lies inside `[B.data, B.data + B.length)`. -/
theorem addBuffer_in_range (w : Nat) (S : ScatterGatherBuffer) (B : InfinibandBuffer)
    (offset length : Nat)
    (hspan : B.data + B.length < 2 ^ 64) (hin : offset + length ≤ B.length) :
    (S.addBuffer w B offset length).mHandle =
        S.mHandle ++ [{ addr := B.data + offset, length := length, lkey := B.lkey }] ∧
      B.data ≤ B.data + offset ∧ (B.data + offset) + length ≤ B.data + B.length := by
  have hsum : (offset + length) % 2 ^ 64 = offset + length :=
    Nat.mod_eq_of_lt (by omega)
  have haddr : (B.data + offset) % 2 ^ 64 = B.data + offset :=
    Nat.mod_eq_of_lt (by omega)
  have hacc : ¬ (offset + length) % 2 ^ 64 > B.length := by
    rw [hsum]
    exact Nat.not_lt.mpr hin
  refine ⟨?_, by omega, by omega⟩
  rw [ScatterGatherBuffer.addBuffer_accept w S B offset length hacc, haddr]

/-- Witness of `addBuffer_in_range`: the sub-range `(2, 8)` of a buffer
spanning `[4096, 4096 + 10)`, added to a scatter-gather buffer that already
holds one element. -/
theorem addBuffer_in_range_witness :
    ((ScatterGatherBuffer.mk [{ addr := 64, length := 16, lkey := 1 }] 16).addBuffer 64
        (InfinibandBuffer.mk 3 { addr := 4096, length := 10, lkey := 7 }) 2 8).mHandle =
      [{ addr := 64, length := 16, lkey := 1 }] ++
        [{ addr := (InfinibandBuffer.mk 3 { addr := 4096, length := 10, lkey := 7 }).data + 2,
           length := 8,
           lkey := (InfinibandBuffer.mk 3 { addr := 4096, length := 10, lkey := 7 }).lkey }] ∧
    (InfinibandBuffer.mk 3 { addr := 4096, length := 10, lkey := 7 }).data ≤
      (InfinibandBuffer.mk 3 { addr := 4096, length := 10, lkey := 7 }).data + 2 ∧
    ((InfinibandBuffer.mk 3 { addr := 4096, length := 10, lkey := 7 }).data + 2) + 8 ≤
      (InfinibandBuffer.mk 3 { addr := 4096, length := 10, lkey := 7 }).data +
        (InfinibandBuffer.mk 3 { addr := 4096, length := 10, lkey := 7 }).length :=
  addBuffer_in_range 64 (ScatterGatherBuffer.mk [{ addr := 64, length := 16, lkey := 1 }] 16)
    (InfinibandBuffer.mk 3 { addr := 4096, length := 10, lkey := 7 }) 2 8
    (by decide) (by decide)

/-- C5: for a registered region `R` and any address and length, `add` appends
exactly one element `(address, length, R.lkey)` at the end and keeps the
earlier elements in their order; neither the address nor the length is
compared with the span of `R`. -/
theorem addRegion_appends (w : Nat) (S : ScatterGatherBuffer) (R : LocalMemoryRegion)
    (mr : ibv_mr) (addr length : Nat) (hR : R.mDataRegion = some mr) :
    ∃ T, S.addRegion w R addr length = some T ∧
      T.mHandle = S.mHandle ++ [{ addr := addr, length := length, lkey := mr.lkey }] := by
  refine ⟨{ mHandle := S.mHandle ++ [{ addr := addr, length := length, lkey := mr.lkey }],
            mLength := (S.mLength + length) % 2 ^ w }, ?_, rfl⟩
  simp [ScatterGatherBuffer.addRegion, LocalMemoryRegion.lkey, hR]

/-- Witness of `addRegion_appends`: the span `[0, 1000)`, which lies outside
the region `[4096, 4096 + 10)`, is appended all the same. -/
theorem addRegion_appends_witness :
    ∃ T, (ScatterGatherBuffer.mk [{ addr := 64, length := 16, lkey := 1 }] 16).addRegion 64
        (LocalMemoryRegion.mk (some { addr := 4096, length := 10, lkey := 7 })) 0 1000 = some T ∧
      T.mHandle = [{ addr := 64, length := 16, lkey := 1 }] ++
        [{ addr := 0, length := 1000, lkey := (ibv_mr.mk 4096 10 7).lkey }] :=
  addRegion_appends 64 (ScatterGatherBuffer.mk [{ addr := 64, length := 16, lkey := 1 }] 16)
    (LocalMemoryRegion.mk (some { addr := 4096, length := 10, lkey := 7 }))
    { addr := 4096, length := 10, lkey := 7 } 0 1000 rfl

/-- Region-form calls of `add` repeated `n` times on a registered region have
a result, and the elements held grow by `n` times the length. -/
theorem ScatterGatherBuffer.addAll_replicate_bytes (w : Nat) (R : LocalMemoryRegion)
    (hR : R.valid = true) (addr length : Nat) :
    ∀ (n : Nat) (S : ScatterGatherBuffer),
      ∃ T, S.addAll w (List.replicate n (AddCall.region R addr length)) = some T ∧
        T.elementBytes = S.elementBytes + n * length := by
  intro n
  induction n with
  | zero =>
    intro S
    exact ⟨S, rfl, by simp⟩
  | succ n ih =>
    intro S
    obtain ⟨T, hT⟩ := ScatterGatherBuffer.add_defined w S (AddCall.region R addr length) hR
    have hbytes : T.elementBytes = S.elementBytes + length := by
      simp only [ScatterGatherBuffer.add, ScatterGatherBuffer.addRegion] at hT
      cases hk : R.lkey with
      | none => simp [hk] at hT
      | some key =>
        simp only [hk, Option.some.injEq] at hT
        rw [← hT, ScatterGatherBuffer.elementBytes_append,
          ScatterGatherBuffer.elementBytes_handle]
    obtain ⟨U, hU, hUbytes⟩ := ih T
    refine ⟨U, ?_, ?_⟩
    · simp only [List.replicate_succ, ScatterGatherBuffer.addAll, hT]
      exact hU
    · rw [hUbytes, hbytes, Nat.succ_mul]
      omega

/-- Whatever the width `w` of the counter `mLength`, `2 ^ w` region-form calls
of `add` with the length 1 leave elements whose lengths sum to `2 ^ w`, while
the recorded total has wrapped to zero. -/
theorem ScatterGatherBuffer.addAll_total_wraps (w : Nat) (R : LocalMemoryRegion)
    (hR : R.valid = true) (addr : Nat) :
    ∃ T, ScatterGatherBuffer.empty.addAll w
        (List.replicate (2 ^ w) (AddCall.region R addr 1)) = some T ∧
      T.elementBytes = 2 ^ w ∧ T.mLength = 0 := by
  obtain ⟨T, hT, hbytes⟩ :=
    ScatterGatherBuffer.addAll_replicate_bytes w R hR addr 1 (2 ^ w) ScatterGatherBuffer.empty
  have h0 : ScatterGatherBuffer.empty.mLength =
      ScatterGatherBuffer.empty.elementBytes % 2 ^ w := by
    simp [ScatterGatherBuffer.empty, ScatterGatherBuffer.elementBytes]
  obtain ⟨U, hU, hlen⟩ :=
    ScatterGatherBuffer.addAll_keeps_total w (List.replicate (2 ^ w) (AddCall.region R addr 1))
      ScatterGatherBuffer.empty h0
      (fun c hc => by rw [List.eq_of_mem_replicate hc]; exact hR)
  have hTU : U = T := Option.some.inj (hU.symm.trans hT)
  have hb : T.elementBytes = 2 ^ w := by
    rw [hbytes]
    simp [ScatterGatherBuffer.empty, ScatterGatherBuffer.elementBytes]
  refine ⟨T, hT, hb, ?_⟩
  rw [← hTU, hlen, hTU, hb, Nat.mod_self]

/-- C6, as stated, fails: with a counter `mLength` of 32 bits, two region-form
calls of `add` with the length 4294967295 on the region `[4096, 4096 + 10)`
with key 7 leave two elements whose lengths sum to 8589934590, while the
recorded total has wrapped to 4294967294. -/
theorem addAll_total_counterexample :
    ∃ T, ScatterGatherBuffer.empty.addAll 32
        [AddCall.region (LocalMemoryRegion.mk (some { addr := 4096, length := 10, lkey := 7 }))
           4096 4294967295,
         AddCall.region (LocalMemoryRegion.mk (some { addr := 4096, length := 10, lkey := 7 }))
           4096 4294967295]
        = some T ∧
      T.mHandle = [{ addr := 4096, length := 4294967295, lkey := 7 },
                   { addr := 4096, length := 4294967295, lkey := 7 }] ∧
      T.elementBytes = 8589934590 ∧
      T.mLength = 4294967294 ∧
      T.mLength ≠ T.elementBytes :=
  ⟨_, rfl, rfl, by decide, by decide, by decide⟩

/-- C6, amended: after any sequence of well-defined `add` calls of either form,
rejected ones included, applied to an empty scatter-gather buffer, the
recorded total `mLength` is the sum of the `length` members of the elements
held, reduced modulo `2 ^ w` for a counter of `w` bits; it equals that sum
whenever the sum is below `2 ^ w`. -/
theorem addAll_tracks_total (w : Nat) (calls : List AddCall)
    (hdef : ∀ c ∈ calls, AddCall.defined c = true) :
    ∃ T, ScatterGatherBuffer.empty.addAll w calls = some T ∧
      T.mLength = T.elementBytes % 2 ^ w ∧
      (T.elementBytes < 2 ^ w → T.mLength = T.elementBytes) := by
  have h0 : ScatterGatherBuffer.empty.mLength =
      ScatterGatherBuffer.empty.elementBytes % 2 ^ w := by
    simp [ScatterGatherBuffer.empty, ScatterGatherBuffer.elementBytes]
  obtain ⟨T, hT, hlen⟩ :=
    ScatterGatherBuffer.addAll_keeps_total w calls ScatterGatherBuffer.empty h0 hdef
  exact ⟨T, hT, hlen, fun hfit => by rw [hlen, Nat.mod_eq_of_lt hfit]⟩

/-- Witness of `addAll_tracks_total`: a region-form call, an accepted
buffer-form call and a rejected buffer-form call. -/
theorem addAll_tracks_total_witness :
    ∃ T, ScatterGatherBuffer.empty.addAll 64
        [AddCall.region (LocalMemoryRegion.mk (some { addr := 4096, length := 10, lkey := 7 })) 0 1000,
         AddCall.buffer (InfinibandBuffer.mk 3 { addr := 4096, length := 10, lkey := 7 }) 2 8,
         AddCall.buffer (InfinibandBuffer.mk 3 { addr := 4096, length := 10, lkey := 7 }) 4 8]
        = some T ∧
      T.mLength = T.elementBytes % 2 ^ 64 ∧
      (T.elementBytes < 2 ^ 64 → T.mLength = T.elementBytes) :=
  addAll_tracks_total 64
    [AddCall.region (LocalMemoryRegion.mk (some { addr := 4096, length := 10, lkey := 7 })) 0 1000,
     AddCall.buffer (InfinibandBuffer.mk 3 { addr := 4096, length := 10, lkey := 7 }) 2 8,
     AddCall.buffer (InfinibandBuffer.mk 3 { addr := 4096, length := 10, lkey := 7 }) 4 8]
    (by decide)

/-! ## Registration life cycle -/

/-- A normal return of `deregisterRegion` leaves `mDataRegion` null. -/
theorem LocalMemoryRegion.deregisterRegion_return_null {σ : Type} (host : Host σ) (world : σ)
    (R : LocalMemoryRegion) (hret : (R.deregisterRegion host world).thrown = none) :
    (R.deregisterRegion host world).self.mDataRegion = none := by
  cases hR : R.mDataRegion with
  | none => simp [LocalMemoryRegion.deregisterRegion, hR]
  | some mr =>
    by_cases hrc : (host.ibv_dereg_mr world mr).1 = 0
    · simp [LocalMemoryRegion.deregisterRegion, hR, hrc]
    · simp [LocalMemoryRegion.deregisterRegion, hR, hrc] at hret

/-- On a region without registration `deregisterRegion` returns normally and
does nothing. -/
theorem LocalMemoryRegion.deregisterRegion_of_null {σ : Type} (host : Host σ) (world : σ)
    (R : LocalMemoryRegion) (hR : R.mDataRegion = none) :
    (R.deregisterRegion host world).thrown = none ∧
    (R.deregisterRegion host world).trace = [] ∧
    (R.deregisterRegion host world).world = world ∧
    (R.deregisterRegion host world).self.mDataRegion = none := by
  simp [LocalMemoryRegion.deregisterRegion, hR]

/-- C7: whenever `deregisterRegion` returns normally, the region it leaves
behind holds no registration (`valid()` is false), whether or not the region
held one before the call. -/
theorem deregisterRegion_invalidates {σ : Type} (host : Host σ) (world : σ)
    (R : LocalMemoryRegion) (hret : (R.deregisterRegion host world).thrown = none) :
    (R.deregisterRegion host world).self.valid = false := by
  simp [LocalMemoryRegion.valid,
    LocalMemoryRegion.deregisterRegion_return_null host world R hret]

/-- Witness of `deregisterRegion_invalidates`: a registered region whose
deregistration succeeds, and a region without registration. -/
theorem deregisterRegion_invalidates_witness :
    ((LocalMemoryRegion.mk (some { addr := 4096, length := 10, lkey := 7 })).deregisterRegion
        (Host.const 0 0 0) ()).self.valid = false ∧
    ((LocalMemoryRegion.mk none).deregisterRegion (Host.const 0 0 0) ()).self.valid = false :=
  ⟨deregisterRegion_invalidates (Host.const 0 0 0) ()
      (LocalMemoryRegion.mk (some { addr := 4096, length := 10, lkey := 7 })) rfl,
   deregisterRegion_invalidates (Host.const 0 0 0) () (LocalMemoryRegion.mk none) rfl⟩

/-- C8, as stated, fails: the region `[4096, 4096 + 10)` is deregistered once
with success, which leaves it without registration; `deregisterRegion` called
again on that region throws nothing and calls nothing, even on a host that
would answer a call of `ibv_dereg_mr` with the error 22. -/
theorem deregisterRegion_twice_counterexample :
    ((LocalMemoryRegion.mk (some { addr := 4096, length := 10, lkey := 7 })).deregisterRegion
        (Host.const 0 0 0) ()).thrown = none ∧
    ((LocalMemoryRegion.mk (some { addr := 4096, length := 10, lkey := 7 })).deregisterRegion
        (Host.const 0 0 0) ()).self = LocalMemoryRegion.mk none ∧
    ((LocalMemoryRegion.mk none).deregisterRegion (Host.const 0 0 0) ()).thrown = none ∧
    ((LocalMemoryRegion.mk none).deregisterRegion (Host.const 22 0 22) ()).thrown = none ∧
    ((LocalMemoryRegion.mk none).deregisterRegion (Host.const 22 0 22) ()).trace = [] := by
  refine ⟨?_, ?_, rfl, rfl, rfl⟩
  · simp [LocalMemoryRegion.deregisterRegion, Host.const]
  · simp [LocalMemoryRegion.deregisterRegion, Host.const]

/-- C8, amended: a second deregistration is a silent no-op.  When a first call
of `deregisterRegion` has returned normally, a second call on the region left
behind returns normally as well, makes no call of `ibv_dereg_mr`, leaves the
outside world as it was and leaves the region without registration. -/
theorem deregisterRegion_twice_noop {σ : Type} (host : Host σ) (world : σ)
    (R : LocalMemoryRegion) (hret : (R.deregisterRegion host world).thrown = none) :
    ((R.deregisterRegion host world).self.deregisterRegion host
        (R.deregisterRegion host world).world).thrown = none ∧
    ((R.deregisterRegion host world).self.deregisterRegion host
        (R.deregisterRegion host world).world).trace = [] ∧
    ((R.deregisterRegion host world).self.deregisterRegion host
        (R.deregisterRegion host world).world).world = (R.deregisterRegion host world).world ∧
    ((R.deregisterRegion host world).self.deregisterRegion host
        (R.deregisterRegion host world).world).self.valid = false := by
  have hnull := LocalMemoryRegion.deregisterRegion_return_null host world R hret
  obtain ⟨h1, h2, h3, h4⟩ := LocalMemoryRegion.deregisterRegion_of_null host
    (R.deregisterRegion host world).world (R.deregisterRegion host world).self hnull
  exact ⟨h1, h2, h3, by simp [LocalMemoryRegion.valid, h4]⟩

/-- Witness of `deregisterRegion_twice_noop`: the region `[4096, 4096 + 10)`
on a host whose deregistration succeeds. -/
theorem deregisterRegion_twice_noop_witness :
    ((LocalMemoryRegion.mk (some { addr := 4096, length := 10, lkey := 7 })).deregisterRegion
        (Host.const 0 0 0) ()).thrown = none ∧
    ((((LocalMemoryRegion.mk (some { addr := 4096, length := 10, lkey := 7 })).deregisterRegion
        (Host.const 0 0 0) ()).self.deregisterRegion (Host.const 0 0 0) ()).thrown = none ∧
     (((LocalMemoryRegion.mk (some { addr := 4096, length := 10, lkey := 7 })).deregisterRegion
        (Host.const 0 0 0) ()).self.deregisterRegion (Host.const 0 0 0) ()).trace = [] ∧
     (((LocalMemoryRegion.mk (some { addr := 4096, length := 10, lkey := 7 })).deregisterRegion
        (Host.const 0 0 0) ()).self.deregisterRegion (Host.const 0 0 0) ()).world = () ∧
     (((LocalMemoryRegion.mk (some { addr := 4096, length := 10, lkey := 7 })).deregisterRegion
        (Host.const 0 0 0) ()).self.deregisterRegion (Host.const 0 0 0) ()).self.valid = false) :=
  ⟨rfl, deregisterRegion_twice_noop (Host.const 0 0 0) ()
    (LocalMemoryRegion.mk (some { addr := 4096, length := 10, lkey := 7 })) rfl⟩

/-! ## Destruction and move assignment of `AllocatedMemoryRegion` -/

/-- The calls made by the destruction of a valid `AllocatedMemoryRegion`:
`ibv_dereg_mr` on its registration first, then `munmap` on the span read
before the deregistration; the only call that can follow is the second
attempt of the member destructor after a failed deregistration. -/
theorem AllocatedMemoryRegion.destroy_calls {σ : Type} (host : Host σ) (world : σ)
    (A : AllocatedMemoryRegion) (mr : ibv_mr) (hA : A.mRegion.mDataRegion = some mr) :
    ∃ rc2 rest,
      (A.destroy host world).calls =
        Effect.ibv_dereg_mr mr (host.ibv_dereg_mr world mr).1 ::
          Effect.munmap mr.addr mr.length rc2 :: rest ∧
      (∀ e ∈ rest, Effect.isMunmap e = false) ∧
      ((host.ibv_dereg_mr world mr).1 = 0 → rest = []) := by
  by_cases h1 : (host.ibv_dereg_mr world mr).1 = 0
  · refine ⟨(host.munmap (host.ibv_dereg_mr world mr).2 mr.addr mr.length).1, [], ?_,
      by simp, fun _ => rfl⟩
    by_cases h2 : (host.munmap (host.ibv_dereg_mr world mr).2 mr.addr mr.length).1 = 0 <;>
    simp [Run.calls, AllocatedMemoryRegion.destroy, AllocatedMemoryRegion.dtor,
      LocalMemoryRegion.deregisterRegion, LocalMemoryRegion.dtor, hA, h1, h2,
      Effect.isCall, Effect.isDereg, Effect.isMunmap]
  · refine ⟨(host.munmap (host.ibv_dereg_mr world mr).2 mr.addr mr.length).1,
      [Effect.ibv_dereg_mr mr
        (host.ibv_dereg_mr
          (host.munmap (host.ibv_dereg_mr world mr).2 mr.addr mr.length).2 mr).1], ?_,
      by simp [Effect.isMunmap], fun h => absurd h h1⟩
    by_cases h2 : (host.munmap (host.ibv_dereg_mr world mr).2 mr.addr mr.length).1 = 0 <;>
    by_cases h3 : (host.ibv_dereg_mr
          (host.munmap (host.ibv_dereg_mr world mr).2 mr.addr mr.length).2 mr).1 = 0 <;>
    simp [Run.calls, AllocatedMemoryRegion.destroy, AllocatedMemoryRegion.dtor,
      LocalMemoryRegion.deregisterRegion, LocalMemoryRegion.dtor, hA, h1, h2, h3,
      Effect.isCall, Effect.isDereg, Effect.isMunmap]

/-- C9: the destruction of a valid `AllocatedMemoryRegion` calls
`ibv_dereg_mr` on its registration first and `munmap` second, `munmap`
receives exactly the address and the length the region had before the
deregistration, and no further `munmap` follows; the destruction of an
invalid (moved-from) one has no effect at all, neither a deregistration nor
an unmap. -/
theorem destroy_deregisters_then_unmaps {σ : Type} (host : Host σ) (world : σ)
    (A : AllocatedMemoryRegion) :
    match A.mRegion.mDataRegion with
    | none => (A.destroy host world).trace = []
    | some mr =>
      ∃ rc1 rc2 rest,
        (A.destroy host world).calls =
          Effect.ibv_dereg_mr mr rc1 :: Effect.munmap mr.addr mr.length rc2 :: rest ∧
        (∀ e ∈ rest, Effect.isMunmap e = false) ∧ (rc1 = 0 → rest = []) := by
  cases hA : A.mRegion.mDataRegion with
  | none =>
    simp [AllocatedMemoryRegion.destroy, AllocatedMemoryRegion.dtor, LocalMemoryRegion.dtor, hA]
  | some mr =>
    obtain ⟨rc2, rest, h⟩ := AllocatedMemoryRegion.destroy_calls host world A mr hA
    exact ⟨_, rc2, rest, h⟩

/-- Concrete runs of `destroy_deregisters_then_unmaps`: the region
`[4096, 4096 + 10)` on a host where every call succeeds, and a moved-from
region. -/
theorem destroy_deregisters_then_unmaps_witness :
    (∃ rc1 rc2 rest,
      ((AllocatedMemoryRegion.mk
          (LocalMemoryRegion.mk (some { addr := 4096, length := 10, lkey := 7 }))).destroy
          (Host.const 0 0 0) ()).calls =
        Effect.ibv_dereg_mr { addr := 4096, length := 10, lkey := 7 } rc1 ::
          Effect.munmap 4096 10 rc2 :: rest ∧
      (∀ e ∈ rest, Effect.isMunmap e = false) ∧ (rc1 = 0 → rest = [])) ∧
    ((AllocatedMemoryRegion.mk (LocalMemoryRegion.mk none)).destroy
        (Host.const 0 0 0) ()).trace = [] :=
  ⟨destroy_deregisters_then_unmaps (Host.const 0 0 0) ()
      (AllocatedMemoryRegion.mk
        (LocalMemoryRegion.mk (some { addr := 4096, length := 10, lkey := 7 }))),
   destroy_deregisters_then_unmaps (Host.const 0 0 0) ()
      (AllocatedMemoryRegion.mk (LocalMemoryRegion.mk none))⟩

/-- C10, as stated, fails on destruction: on a host where `ibv_dereg_mr`
fails with the error 22, destroying the region `[4096, 4096 + 10)` logs the
failure and calls `munmap(4096, 10)` all the same, while the registration is
still in place; the member destructor then attempts the deregistration a
second time. -/
theorem destroy_unmaps_registered_counterexample :
    ((AllocatedMemoryRegion.mk
        (LocalMemoryRegion.mk (some { addr := 4096, length := 10, lkey := 7 }))).destroy
        (Host.const 22 0 22) ()).trace =
      [Effect.ibv_dereg_mr { addr := 4096, length := 10, lkey := 7 } 22,
       Effect.LOG_ERROR LogLine.deregister_failed 22,
       Effect.munmap 4096 10 0,
       Effect.ibv_dereg_mr { addr := 4096, length := 10, lkey := 7 } 22,
       Effect.LOG_ERROR LogLine.deregister_failed 22] := by
  simp [AllocatedMemoryRegion.destroy, AllocatedMemoryRegion.dtor,
    LocalMemoryRegion.deregisterRegion, LocalMemoryRegion.dtor, Host.const]

/-- C10, amended: for a valid `AllocatedMemoryRegion`, move assignment unmaps
the old mapping only if its deregistration succeeded: when `ibv_dereg_mr`
fails, the assignment throws the system error, makes no call of `munmap` and
leaves both objects as they were, and when it succeeds the call
`munmap(address, length)` follows the deregistration.  Destruction attempts
the deregistration first and calls `munmap(address, length)` afterwards
whatever `ibv_dereg_mr` returned. -/
theorem unmap_follows_deregistration {σ : Type} (host : Host σ) (world : σ)
    (A B : AllocatedMemoryRegion) (mr : ibv_mr) (hA : A.mRegion.mDataRegion = some mr) :
    ((host.ibv_dereg_mr world mr).1 ≠ 0 →
      (A.moveAssign host world B).thrown =
          some { code := host.errno (host.ibv_dereg_mr world mr).2 } ∧
        (A.moveAssign host world B).trace =
          [Effect.ibv_dereg_mr mr (host.ibv_dereg_mr world mr).1] ∧
        (A.moveAssign host world B).self = (A, B)) ∧
    ((host.ibv_dereg_mr world mr).1 = 0 →
      (A.moveAssign host world B).trace =
          [Effect.ibv_dereg_mr mr 0,
           Effect.munmap mr.addr mr.length
             (host.munmap (host.ibv_dereg_mr world mr).2 mr.addr mr.length).1] ∧
        (A.moveAssign host world B).self =
          ({ mRegion := { mDataRegion := B.mRegion.mDataRegion } },
           { mRegion := { mDataRegion := none } })) ∧
    (∃ rc2 rest,
      (A.destroy host world).calls =
        Effect.ibv_dereg_mr mr (host.ibv_dereg_mr world mr).1 ::
          Effect.munmap mr.addr mr.length rc2 :: rest) := by
  refine ⟨fun h1 => ?_, fun h1 => ?_, ?_⟩
  · simp [AllocatedMemoryRegion.moveAssign, LocalMemoryRegion.moveAssign, hA, h1]
  · simp [AllocatedMemoryRegion.moveAssign, LocalMemoryRegion.moveAssign, hA, h1]
  · obtain ⟨rc2, rest, h, _⟩ := AllocatedMemoryRegion.destroy_calls host world A mr hA
    exact ⟨rc2, rest, h⟩

/-- Witness of `unmap_follows_deregistration`: move assignment over the region
`[4096, 4096 + 10)`, once on a host where `ibv_dereg_mr` fails with the error
22 (the assignment throws and never reaches `munmap`) and once on a host where
every call succeeds (`munmap(4096, 10)` follows the deregistration). -/
theorem unmap_follows_deregistration_witness :
    ((AllocatedMemoryRegion.mk
        (LocalMemoryRegion.mk (some { addr := 4096, length := 10, lkey := 7 }))).moveAssign
        (Host.const 22 0 22) ()
        (AllocatedMemoryRegion.mk
          (LocalMemoryRegion.mk (some { addr := 8192, length := 32, lkey := 9 })))).trace =
      [Effect.ibv_dereg_mr { addr := 4096, length := 10, lkey := 7 } 22] ∧
    ((AllocatedMemoryRegion.mk
        (LocalMemoryRegion.mk (some { addr := 4096, length := 10, lkey := 7 }))).moveAssign
        (Host.const 0 0 0) ()
        (AllocatedMemoryRegion.mk
          (LocalMemoryRegion.mk (some { addr := 8192, length := 32, lkey := 9 })))).trace =
      [Effect.ibv_dereg_mr { addr := 4096, length := 10, lkey := 7 } 0,
       Effect.munmap 4096 10 0] :=
  ⟨((unmap_follows_deregistration (Host.const 22 0 22) ()
      (AllocatedMemoryRegion.mk
        (LocalMemoryRegion.mk (some { addr := 4096, length := 10, lkey := 7 })))
      (AllocatedMemoryRegion.mk
        (LocalMemoryRegion.mk (some { addr := 8192, length := 32, lkey := 9 })))
      { addr := 4096, length := 10, lkey := 7 } rfl).1 (by decide)).2.1,
   ((unmap_follows_deregistration (Host.const 0 0 0) ()
      (AllocatedMemoryRegion.mk
        (LocalMemoryRegion.mk (some { addr := 4096, length := 10, lkey := 7 })))
      (AllocatedMemoryRegion.mk
        (LocalMemoryRegion.mk (some { addr := 8192, length := 32, lkey := 9 })))
      { addr := 4096, length := 10, lkey := 7 } rfl).2.1 rfl).1⟩

end infinio
end crossbow

namespace crossbow
namespace infinio

/-! ## Registration -/

/-- C11: constructing a `LocalMemoryRegion` throws a system error if and only
if `ibv_reg_mr` returns no registration record, the error then carries the
error number `errno` that the failed call left behind (in the generic
category, the only category of `system_error`), and no object exists; when
`ibv_reg_mr` returns a record, nothing is thrown and the object is a valid
region that holds exactly the returned record. -/
theorem ctor_throws_iff_rejected {σ : Type} (reg : Registrar σ) (world : σ)
    (domain data length : Nat) (access : Int) :
    (((LocalMemoryRegion.ctor reg world domain data length access).thrown ≠ none ↔
        (reg.ibv_reg_mr world domain data length access).1 = none) ∧
      ((reg.ibv_reg_mr world domain data length access).1 = none →
        (LocalMemoryRegion.ctor reg world domain data length access).thrown =
            some { code := reg.errno (reg.ibv_reg_mr world domain data length access).2 } ∧
          (LocalMemoryRegion.ctor reg world domain data length access).object = none)) ∧
    (∀ mr, (reg.ibv_reg_mr world domain data length access).1 = some mr →
      (LocalMemoryRegion.ctor reg world domain data length access).thrown = none ∧
        (LocalMemoryRegion.ctor reg world domain data length access).object =
          some { mDataRegion := some mr } ∧
        (LocalMemoryRegion.mk (some mr)).valid = true) := by
  cases h : (reg.ibv_reg_mr world domain data length access).1 with
  | none => simp [LocalMemoryRegion.ctor, h]
  | some mr => simp [LocalMemoryRegion.ctor, h, LocalMemoryRegion.valid]

/-- Concrete runs of `ctor_throws_iff_rejected`: a registrar that rejects the
registration with the error 12, and one that returns the record of the span
`[4096, 4096 + 10)`. -/
theorem ctor_throws_iff_rejected_witness :
    ((LocalMemoryRegion.ctor (Registrar.const none 12) () 1 4096 10 7).thrown =
        some { code := 12 } ∧
      (LocalMemoryRegion.ctor (Registrar.const none 12) () 1 4096 10 7).object = none) ∧
    ((LocalMemoryRegion.ctor
        (Registrar.const (some { addr := 4096, length := 10, lkey := 7 }) 0) () 1 4096 10 7).thrown
        = none ∧
      (LocalMemoryRegion.ctor
        (Registrar.const (some { addr := 4096, length := 10, lkey := 7 }) 0) () 1 4096 10 7).object
        = some { mDataRegion := some { addr := 4096, length := 10, lkey := 7 } } ∧
      (LocalMemoryRegion.mk (some { addr := 4096, length := 10, lkey := 7 })).valid = true) :=
  ⟨(ctor_throws_iff_rejected (Registrar.const none 12) () 1 4096 10 7).1.2 rfl,
   (ctor_throws_iff_rejected
      (Registrar.const (some { addr := 4096, length := 10, lkey := 7 }) 0) () 1 4096 10 7).2
      { addr := 4096, length := 10, lkey := 7 } rfl⟩

/-! ## Error codes -/

/-- C12: each of the four rpc codes and each of the seven network codes maps
to its own message; within a domain the messages of distinct enumerators
differ; every integer that is the value of no enumerator maps to the fallback
message of the domain, `infinio.rpc error` or `infinio.network error`; and the
fallback differs from the message of every enumerator. -/
theorem category_messages :
    ((error.rpc_category.message 1 = "No response received" ∧
        error.rpc_category.message 2 = "Received message is invalid" ∧
        error.rpc_category.message 3 = "Received message of wrong type" ∧
        error.rpc_category.message 4 = "Tried to write a message exceeding the buffer size") ∧
      (∀ a b : error.rpc_errors,
        error.rpc_category.message a.toInt = error.rpc_category.message b.toInt → a = b) ∧
      (∀ value : Int, (∀ e : error.rpc_errors, e.toInt ≠ value) →
        error.rpc_category.message value = "infinio.rpc error") ∧
      (∀ e : error.rpc_errors, error.rpc_category.message e.toInt ≠ "infinio.rpc error")) ∧
    ((error.network_category.message 1 = "Already open" ∧
        error.network_category.message 2 = "Address resolution failed" ∧
        error.network_category.message 3 = "Route resolution failed" ∧
        error.network_category.message 4 = "Remote unreachable" ∧
        error.network_category.message 5 = "Connection error" ∧
        error.network_category.message 6 = "Buffer is invalid" ∧
        error.network_category.message 7 = "Memory access out of range") ∧
      (∀ a b : error.network_errors,
        error.network_category.message a.toInt = error.network_category.message b.toInt →
          a = b) ∧
      (∀ value : Int, (∀ e : error.network_errors, e.toInt ≠ value) →
        error.network_category.message value = "infinio.network error") ∧
      (∀ e : error.network_errors,
        error.network_category.message e.toInt ≠ "infinio.network error")) := by
  refine ⟨⟨⟨rfl, rfl, rfl, rfl⟩, ?_, ?_, ?_⟩, ⟨⟨rfl, rfl, rfl, rfl, rfl, rfl, rfl⟩, ?_, ?_, ?_⟩⟩
  · intro a b
    cases a <;> cases b <;> decide
  · intro value h
    have h1 := h error.rpc_errors.no_response
    have h2 := h error.rpc_errors.invalid_message
    have h3 := h error.rpc_errors.wrong_type
    have h4 := h error.rpc_errors.message_too_big
    simp only [error.rpc_category.message, if_neg (Ne.symm h1), if_neg (Ne.symm h2),
      if_neg (Ne.symm h3), if_neg (Ne.symm h4)]
  · intro e
    cases e <;> decide
  · intro a b
    cases a <;> cases b <;> decide
  · intro value h
    have h1 := h error.network_errors.already_open
    have h2 := h error.network_errors.address_resolution
    have h3 := h error.network_errors.route_resolution
    have h4 := h error.network_errors.unreachable
    have h5 := h error.network_errors.connection_error
    have h6 := h error.network_errors.invalid_buffer
    have h7 := h error.network_errors.out_of_range
    simp only [error.network_category.message, if_neg (Ne.symm h1), if_neg (Ne.symm h2),
      if_neg (Ne.symm h3), if_neg (Ne.symm h4), if_neg (Ne.symm h5), if_neg (Ne.symm h6),
      if_neg (Ne.symm h7)]
  · intro e
    cases e <;> decide

end infinio
end crossbow

namespace crossbow
namespace infinio

/-- C13: `make_error_code` of an rpc, network or completion-status enumerator
carries the numeric value of the enumerator and the category of its own
domain; two error codes are equal if and only if their categories and their
values agree; and `no_response` and `already_open`, both of value 1, give
different error codes, because the categories differ. -/
theorem make_error_code_domain_and_value :
    (∀ e : error.rpc_errors,
      (error.rpc_errors.make_error_code e).value = e.toInt ∧
      (error.rpc_errors.make_error_code e).category = error.get_rpc_category) ∧
    (∀ e : error.network_errors,
      (error.network_errors.make_error_code e).value = e.toInt ∧
      (error.network_errors.make_error_code e).category = error.get_network_category) ∧
    (∀ e : error.ibv_wc_status,
      (error.ibv_wc_status.make_error_code e).value = e.toInt ∧
      (error.ibv_wc_status.make_error_code e).category = error.get_work_completion_category) ∧
    (error.get_rpc_category ≠ error.get_network_category ∧
      error.get_rpc_category ≠ error.get_work_completion_category ∧
      error.get_network_category ≠ error.get_work_completion_category) ∧
    (∀ a b : error_code, a = b ↔ (a.category = b.category ∧ a.value = b.value)) ∧
    ((error.rpc_errors.make_error_code error.rpc_errors.no_response).value = 1 ∧
      (error.network_errors.make_error_code error.network_errors.already_open).value = 1 ∧
      error.rpc_errors.make_error_code error.rpc_errors.no_response ≠
        error.network_errors.make_error_code error.network_errors.already_open) := by
  refine ⟨fun e => ⟨rfl, rfl⟩, fun e => ⟨rfl, rfl⟩, fun e => ⟨rfl, rfl⟩,
    ⟨by decide, by decide, by decide⟩, ?_, rfl, rfl, by decide⟩
  intro a b
  constructor
  · intro h
    subst h
    exact ⟨rfl, rfl⟩
  · intro h
    cases a
    cases b
    simp only [error_code.mk.injEq]
    exact ⟨h.2, h.1⟩

/-! ## Completion events -/

/-- C14: on a socket with an installed handler, each of the internal events
`onSend`, `onRead` and `onWrite` makes exactly one call, on that handler, of
the callback of the same name with the same id and the same error; `onReceive`
makes exactly one call of the handler's `onReceive` with the same buffer,
length and error; and `onDisconnected` makes exactly one call of the handler's
`onDisconnect`. -/
theorem events_forwarded (socket : InfinibandSocketImpl) (handler : Nat)
    (buffer length userId : Nat) (ec : error_code)
    (hinstalled : socket.mHandler = some handler) :
    socket.onSend userId ec = some (handler, [HandlerCall.onSend userId ec]) ∧
    socket.onRead userId ec = some (handler, [HandlerCall.onRead userId ec]) ∧
    socket.onWrite userId ec = some (handler, [HandlerCall.onWrite userId ec]) ∧
    socket.onReceive buffer length ec =
      some (handler, [HandlerCall.onReceive buffer length ec]) ∧
    socket.onDisconnected = some (handler, [HandlerCall.onDisconnect]) := by
  simp [InfinibandSocketImpl.onSend, InfinibandSocketImpl.onRead, InfinibandSocketImpl.onWrite,
    InfinibandSocketImpl.onReceive, InfinibandSocketImpl.onDisconnected, hinstalled]

/-- Witness of `events_forwarded`: a socket whose handler 9 was installed with
`setHandler`, the correlation id 77 and a network error. -/
theorem events_forwarded_witness :
    ((InfinibandSocketImpl.mk none none []).setHandler (some 9)).onSend 77
        (error.network_errors.make_error_code error.network_errors.unreachable) =
      some (9, [HandlerCall.onSend 77
        (error.network_errors.make_error_code error.network_errors.unreachable)]) ∧
    ((InfinibandSocketImpl.mk none none []).setHandler (some 9)).onDisconnected =
      some (9, [HandlerCall.onDisconnect]) :=
  ⟨(events_forwarded ((InfinibandSocketImpl.mk none none []).setHandler (some 9)) 9 4096 16 77
      (error.network_errors.make_error_code error.network_errors.unreachable) rfl).1,
   (events_forwarded ((InfinibandSocketImpl.mk none none []).setHandler (some 9)) 9 4096 16 77
      (error.network_errors.make_error_code error.network_errors.unreachable) rfl).2.2.2.2⟩

/-! ## Configurable limits -/

/-- C20: a default-constructed `InfinibandLimits` has
`receiveBufferCount = 64`, `sendBufferCount = 64`, `bufferLength = 256`,
`sendQueueLength = 64`, `completionQueueLength = 128` and
`pollCycles = 1000000`. -/
theorem limits_defaults :
    InfinibandLimits.new.receiveBufferCount = 64 ∧
    InfinibandLimits.new.sendBufferCount = 64 ∧
    InfinibandLimits.new.bufferLength = 256 ∧
    InfinibandLimits.new.sendQueueLength = 64 ∧
    InfinibandLimits.new.completionQueueLength = 128 ∧
    InfinibandLimits.new.pollCycles = 1000000 := by
  refine ⟨?_, ?_, ?_, ?_, ?_, ?_⟩ <;> simp [InfinibandLimits.new]

end infinio
end crossbow

namespace crossbow
namespace infinio

/-! ## Reference counting of sockets -/

/-- Taking the references of application holders adds their number to the
counter and destroys nothing. -/
theorem InfinibandBaseSocket.acquireAll_applications (apps : List Nat) :
    ∀ s : InfinibandBaseSocket,
      (s.acquireAll (apps.map Holder.application)).useCount = s.useCount + apps.length ∧
      (s.acquireAll (apps.map Holder.application)).destroyed = s.destroyed := by
  induction apps with
  | nil =>
    intro s
    simp [InfinibandBaseSocket.acquireAll]
  | cons a rest ih =>
    intro s
    obtain ⟨h1, h2⟩ := ih s.intrusive_ptr_add_ref
    simp only [List.map_cons, InfinibandBaseSocket.acquireAll, h1, h2, List.length_cons]
    simp only [InfinibandBaseSocket.intrusive_ptr_add_ref]
    constructor
    · push_cast
      ring
    · trivial

/-- Fewer releases than references: nothing is destroyed, and the counter
drops by the number of releases. -/
theorem InfinibandBaseSocket.releaseAll_fewer (order : List Holder) :
    ∀ s : InfinibandBaseSocket, (order.length : Int) < s.useCount →
      (s.releaseAll order).destroyed = s.destroyed ∧
      (s.releaseAll order).useCount = s.useCount - order.length := by
  induction order with
  | nil =>
    intro s _
    simp [InfinibandBaseSocket.releaseAll]
  | cons h rest ih =>
    intro s hlt
    simp only [List.length_cons, Nat.cast_add, Nat.cast_one] at hlt
    have hne : ¬ s.useCount - 1 = 0 := by omega
    have hstep : s.intrusive_ptr_release = { s with useCount := s.useCount - 1 } := by
      simp only [InfinibandBaseSocket.intrusive_ptr_release, if_neg hne]
    obtain ⟨h1, h2⟩ := ih s.intrusive_ptr_release (by rw [hstep]; simp only; omega)
    simp only [hstep] at h1 h2
    simp only [InfinibandBaseSocket.releaseAll, hstep, List.length_cons]
    refine ⟨h1, ?_⟩
    rw [h2]
    push_cast
    ring

/-- As many releases as references, at least one: the object is destroyed
exactly once more. -/
theorem InfinibandBaseSocket.releaseAll_exact (order : List Holder) :
    ∀ s : InfinibandBaseSocket, order ≠ [] → (order.length : Int) = s.useCount →
      (s.releaseAll order).destroyed = s.destroyed + 1 := by
  induction order with
  | nil =>
    intro s hne _
    exact absurd rfl hne
  | cons h rest ih =>
    intro s _ heq
    simp only [List.length_cons, Nat.cast_add, Nat.cast_one] at heq
    cases rest with
    | nil =>
      have hz : s.useCount - 1 = 0 := by
        simp only [List.length_nil, Nat.cast_zero] at heq
        omega
      simp [InfinibandBaseSocket.releaseAll, InfinibandBaseSocket.intrusive_ptr_release, hz]
    | cons h2 rest2 =>
      have hne : ¬ s.useCount - 1 = 0 := by
        simp only [List.length_cons, Nat.cast_add, Nat.cast_one] at heq
        omega
      have hstep : s.intrusive_ptr_release = { s with useCount := s.useCount - 1 } := by
        simp only [InfinibandBaseSocket.intrusive_ptr_release, if_neg hne]
      have := ih s.intrusive_ptr_release (List.cons_ne_nil h2 rest2)
        (by rw [hstep]; simp only; omega)
      simp only [InfinibandBaseSocket.releaseAll] at this ⊢
      rw [this, hstep]

/-- A socket whose counter equals the number of its holders, none of them
released yet: any sequence of fewer releases destroys nothing, and any
sequence of exactly that many releases destroys the object exactly once. -/
theorem InfinibandBaseSocket.released_once (s : InfinibandBaseSocket) (order : List Holder)
    (hcount : s.useCount = order.length) (hfresh : s.destroyed = 0) (hne : order ≠ []) :
    (s.releaseAll order).destroyed = 1 ∧
    ∀ k, k < order.length → (s.releaseAll (order.take k)).destroyed = 0 := by
  constructor
  · rw [InfinibandBaseSocket.releaseAll_exact order s hne hcount.symm, hfresh]
  · intro k hk
    have hlen : (order.take k).length = k := by
      rw [List.length_take]
      omega
    have := InfinibandBaseSocket.releaseAll_fewer (order.take k) s (by rw [hlen, hcount]; omega)
    rw [this.1, hfresh]

/-- C17: a socket constructed from an existing hardware identifier and held by
any number of application holders next to the back-reference of the
identifier has as many references as holders; whatever the order in which the
holders release, the object is destroyed exactly once, by the last release,
and not by any earlier one.  The same holds for a socket constructed from an
event channel and held by application holders only. -/
theorem socket_destroyed_once (thisPtr : Nat) (id : rdma_cm_id) (channel : Nat)
    (apps : List Nat) (order : List Holder) :
    (order.Perm (Holder.hardwareId :: apps.map Holder.application) →
      (((InfinibandBaseSocket.ofId thisPtr id).acquireAll
          (Holder.hardwareId :: apps.map Holder.application)).releaseAll order).destroyed = 1 ∧
      ∀ k, k < order.length →
        (((InfinibandBaseSocket.ofId thisPtr id).acquireAll
          (Holder.hardwareId :: apps.map Holder.application)).releaseAll
            (order.take k)).destroyed = 0) ∧
    (order.Perm (apps.map Holder.application) → apps ≠ [] →
      (((InfinibandBaseSocket.ofChannel channel).acquireAll
          (apps.map Holder.application)).releaseAll order).destroyed = 1 ∧
      ∀ k, k < order.length →
        (((InfinibandBaseSocket.ofChannel channel).acquireAll
          (apps.map Holder.application)).releaseAll (order.take k)).destroyed = 0) := by
  constructor
  · intro hperm
    have hlen : order.length = apps.length + 1 := by
      rw [hperm.length_eq]
      simp
    obtain ⟨h1, h2⟩ := InfinibandBaseSocket.acquireAll_applications apps
      (InfinibandBaseSocket.ofId thisPtr id)
    apply InfinibandBaseSocket.released_once
    · simp only [InfinibandBaseSocket.acquireAll, h1, hlen]
      simp only [InfinibandBaseSocket.ofId, InfinibandBaseSocket.intrusive_ptr_add_ref]
      push_cast
      ring
    · simp only [InfinibandBaseSocket.acquireAll, h2]
      rfl
    · intro hnil
      rw [hnil] at hlen
      simp at hlen
  · intro hperm hne
    have hlen : order.length = apps.length := by
      rw [hperm.length_eq]
      simp
    obtain ⟨h1, h2⟩ := InfinibandBaseSocket.acquireAll_applications apps
      (InfinibandBaseSocket.ofChannel channel)
    apply InfinibandBaseSocket.released_once
    · simp only [h1, hlen]
      simp [InfinibandBaseSocket.ofChannel]
    · simp only [h2]
      rfl
    · intro hnil
      rw [hnil] at hlen
      have : apps = [] := List.length_eq_zero.mp hlen.symm
      exact hne this

end infinio
end crossbow

namespace crossbow
namespace infinio

/-- Witness of `socket_destroyed_once`: a socket constructed from a hardware
identifier with two application holders; the second application holder
releases first, then the hardware identifier, then the first application
holder. -/
theorem socket_destroyed_once_witness :
    (((InfinibandBaseSocket.ofId 500 { channel := 3, context := none }).acquireAll
        (Holder.hardwareId :: [1, 2].map Holder.application)).releaseAll
        [Holder.application 2, Holder.hardwareId, Holder.application 1]).destroyed = 1 ∧
    ∀ k, k < [Holder.application 2, Holder.hardwareId, Holder.application 1].length →
      (((InfinibandBaseSocket.ofId 500 { channel := 3, context := none }).acquireAll
        (Holder.hardwareId :: [1, 2].map Holder.application)).releaseAll
        ([Holder.application 2, Holder.hardwareId, Holder.application 1].take k)).destroyed = 0 :=
  (socket_destroyed_once 500 { channel := 3, context := none } 3 [1, 2]
    [Holder.application 2, Holder.hardwareId, Holder.application 1]).1 (by decide)

/-! ## Connection requests -/

/-- A request without socket performs no action, whatever is called on it. -/
theorem ConnectionRequest.perform_consumed (calls : List RequestCall) :
    ∀ req : ConnectionRequest, req.mSocket = none → req.perform calls = [] := by
  induction calls with
  | nil =>
    intro req _
    rfl
  | cons c rest ih =>
    intro req h
    cases c <;>
      simp [ConnectionRequest.perform, ConnectionRequest.call, ConnectionRequest.accept,
        ConnectionRequest.reject, h, ih req h]

/-- A call that is possible leaves the request without socket. -/
theorem ConnectionRequest.call_consumes (req next : ConnectionRequest) (c : RequestCall)
    (action : TerminalAction) (h : req.call c = some (action, next)) : next.mSocket = none := by
  cases hs : req.mSocket with
  | none =>
    cases c <;>
      simp [ConnectionRequest.call, ConnectionRequest.accept, ConnectionRequest.reject, hs] at h
  | some socket =>
    cases c <;>
      simp only [ConnectionRequest.call, ConnectionRequest.accept, ConnectionRequest.reject, hs,
        Option.some.injEq, Prod.mk.injEq] at h <;>
      (rw [← h.2])

/-- C15: once `accept` or `reject` has been called on a connection request,
the request is consumed: neither `accept` nor `reject` is possible on it any
more, and every sequence of further calls performs no terminal action; so no
sequence of calls on a request performs more than one terminal action. -/
theorem request_single_terminal_action (req next : ConnectionRequest) (first : RequestCall)
    (action : TerminalAction) (hfirst : req.call first = some (action, next)) :
    (∀ data thread, next.accept data thread = none) ∧
    (∀ data, next.reject data = none) ∧
    (∀ thread, next.acceptNoData thread = none) ∧
    next.rejectNoData = none ∧
    (∀ calls, next.perform calls = []) ∧
    (∀ calls, req.perform (first :: calls) = [action]) := by
  have hnone := ConnectionRequest.call_consumes req next first action hfirst
  refine ⟨?_, ?_, ?_, ?_, ?_, ?_⟩
  · intro data thread
    simp [ConnectionRequest.accept, hnone]
  · intro data
    simp [ConnectionRequest.reject, hnone]
  · intro thread
    simp [ConnectionRequest.acceptNoData, ConnectionRequest.accept, hnone]
  · simp [ConnectionRequest.rejectNoData, ConnectionRequest.reject, hnone]
  · intro calls
    exact ConnectionRequest.perform_consumed calls next hnone
  · intro calls
    simp [ConnectionRequest.perform, hfirst, ConnectionRequest.perform_consumed calls next hnone]

/-- Witness of `request_single_terminal_action`: a request for the pending
socket 8 is accepted; a later `reject` and a later `accept` perform nothing. -/
theorem request_single_terminal_action_witness :
    (ConnectionRequest.mk (some 8) [1, 2]).perform
        [RequestCall.accept [7] 0, RequestCall.reject [], RequestCall.accept [] 1] =
      [TerminalAction.accepted 8 [7] 0] :=
  (request_single_terminal_action (ConnectionRequest.mk (some 8) [1, 2])
    (ConnectionRequest.mk none [1, 2]) (RequestCall.accept [7] 0)
    (TerminalAction.accepted 8 [7] 0) rfl).2.2.2.2.2
    [RequestCall.reject [], RequestCall.accept [] 1]

end infinio
end crossbow

namespace crossbow
namespace infinio

/-! ## Life cycle of a socket -/

/-- Every well-formed event keeps the state or follows an edge of the graph. -/
theorem SocketState.step_follows (s t : SocketState) (e : SocketEvent)
    (h : s.step e = some t) : SocketState.follows s t := by
  cases s <;> cases e <;> simp [SocketState.step] at h <;> subst h <;>
    simp [SocketState.follows, SocketState.edge, SocketState.succ, SocketState.terminal]

/-- No event is well-formed in the state Error. -/
theorem SocketState.step_error (e : SocketEvent) : SocketState.Error.step e = none := by
  cases e <;> rfl

/-- The states of a run start with the first state, and each state stays in
place or follows an edge of the graph. -/
theorem SocketState.run_chain (events : List SocketEvent) :
    ∀ (s : SocketState) (path : List SocketState), s.run events = some path →
      path.head? = some s ∧ List.Chain' SocketState.follows path := by
  induction events with
  | nil =>
    intro s path h
    simp only [SocketState.run, Option.some.injEq] at h
    subst h
    simp
  | cons e rest ih =>
    intro s path h
    cases hstep : s.step e with
    | none => simp [SocketState.run, hstep] at h
    | some t =>
      cases hrun : t.run rest with
      | none => simp [SocketState.run, hstep, hrun] at h
      | some tail =>
        simp only [SocketState.run, hstep, hrun, Option.some.injEq] at h
        subst h
        obtain ⟨hhead, hchain⟩ := ih t tail hrun
        refine ⟨rfl, ?_⟩
        cases tail with
        | nil => simp
        | cons u rest2 =>
          simp only [List.head?_cons, Option.some.injEq] at hhead
          subst hhead
          exact List.Chain'.cons (SocketState.step_follows s u e hstep) hchain

/-- The state Error can only be the last state of a run. -/
theorem SocketState.run_error_last (events : List SocketEvent) :
    ∀ (s : SocketState) (path : List SocketState), s.run events = some path →
      ∀ before after, path = before ++ SocketState.Error :: after → after = [] := by
  induction events with
  | nil =>
    intro s path h before after hsplit
    simp only [SocketState.run, Option.some.injEq] at h
    subst h
    cases before with
    | nil =>
      simp only [List.nil_append, List.cons.injEq] at hsplit
      exact hsplit.2.symm
    | cons b rest => simp at hsplit
  | cons e rest ih =>
    intro s path h before after hsplit
    cases hstep : s.step e with
    | none => simp [SocketState.run, hstep] at h
    | some t =>
      cases hrun : t.run rest with
      | none => simp [SocketState.run, hstep, hrun] at h
      | some tail =>
        simp only [SocketState.run, hstep, hrun, Option.some.injEq] at h
        subst h
        cases before with
        | nil =>
          simp only [List.nil_append, List.cons.injEq] at hsplit
          rw [hsplit.1, SocketState.step_error] at hstep
          simp at hstep
        | cons b before2 =>
          simp only [List.cons_append, List.cons.injEq] at hsplit
          exact ih t tail hrun before2 after hsplit.2

/-- C16: for every sequence of well-formed events and calls, from whatever
state, the sequence of states the socket goes through starts with that state,
each state of it stays in place or follows an edge of the graph (the line from
Idle to Disconnected, and the edges from every non-terminal state to Error),
and Error is never left: no event is accepted in Error, so Error can only be
the last state of the sequence. -/
theorem socket_states_follow_graph (s : SocketState) (events : List SocketEvent)
    (path : List SocketState) (hrun : s.run events = some path) :
    path.head? = some s ∧ List.Chain' SocketState.follows path ∧
    (∀ before after, path = before ++ SocketState.Error :: after → after = []) ∧
    (∀ e t, SocketState.Error.step e = some t → t = SocketState.Error) ∧
    (∀ e, SocketState.Error.step e = none) := by
  obtain ⟨hhead, hchain⟩ := SocketState.run_chain events s path hrun
  refine ⟨hhead, hchain, SocketState.run_error_last events s path hrun, ?_,
    SocketState.step_error⟩
  intro e t h
  rw [SocketState.step_error] at h
  simp at h

/-- Witness of `socket_states_follow_graph`: an active socket that connects,
sends once, disconnects and drains. -/
theorem socket_states_follow_graph_witness :
    SocketState.Idle.run
        [SocketEvent.connect, SocketEvent.onAddressResolved, SocketEvent.onRouteResolved,
         SocketEvent.onConnectionEstablished, SocketEvent.send, SocketEvent.onSend,
         SocketEvent.disconnect, SocketEvent.onTimewaitExit, SocketEvent.onDrained] =
      some [SocketState.Idle, SocketState.AddressResolving, SocketState.RouteResolving,
        SocketState.Connecting, SocketState.Connected, SocketState.Connected,
        SocketState.Connected, SocketState.Disconnecting, SocketState.Draining,
        SocketState.Disconnected] ∧
    List.Chain' SocketState.follows
      [SocketState.Idle, SocketState.AddressResolving, SocketState.RouteResolving,
        SocketState.Connecting, SocketState.Connected, SocketState.Connected,
        SocketState.Connected, SocketState.Disconnecting, SocketState.Draining,
        SocketState.Disconnected] :=
  ⟨rfl, (socket_states_follow_graph SocketState.Idle
      [SocketEvent.connect, SocketEvent.onAddressResolved, SocketEvent.onRouteResolved,
       SocketEvent.onConnectionEstablished, SocketEvent.send, SocketEvent.onSend,
       SocketEvent.disconnect, SocketEvent.onTimewaitExit, SocketEvent.onDrained]
      [SocketState.Idle, SocketState.AddressResolving, SocketState.RouteResolving,
        SocketState.Connecting, SocketState.Connected, SocketState.Connected,
        SocketState.Connected, SocketState.Disconnecting, SocketState.Draining,
        SocketState.Disconnected] rfl).2.1⟩

end infinio
end crossbow

namespace crossbow
namespace logger

/-! ## The logger -/

/-- C18, as stated, fails: with the filter at TRACE, `warn` and `error` called
with the same message `disk full` from line 7 of `a.cpp` in `main` write the
same text, `disk full (in main at a.cpp:7)` and the end of line, one to the
sink of warnings and one to the sink of errors.  The text names the message
and the source location and holds no severity. -/
theorem log_text_severity_counterexample :
    LoggerT.warn (fun str _ => str) { level := LogLevel.TRACE } ("a.cpp") 7 ("main")
        ("disk full") [] =
      some (ostream.clog, "disk full (in main at a.cpp:7)\n") ∧
    LoggerT.error (fun str _ => str) { level := LogLevel.TRACE } ("a.cpp") 7 ("main")
        ("disk full") [] =
      some (ostream.cerr, "disk full (in main at a.cpp:7)\n") := by
  constructor <;> decide

/-- C18, amended: for every severity level and every call that passes the
level filter, the logger writes to the sink of that level the formatted
message followed by the source location (function, file and line) and the end
of line.  The severity is not part of the text: it decides the filter and the
sink only. -/
theorem log_line_text (format : String → List String → String) (config : LoggerConfig)
    (level : LogLevel) (file : String) (line : Nat) (function : String) (str : String)
    (args : List String) (hpass : config.level.toNat ≤ level.toNat) :
    LoggerT.logAt level format config file line function str args =
      some (config.sink level,
        format str args ++ (location file line function ++ "\n")) := by
  have hfilter : ¬ config.level.toNat > level.toNat := Nat.not_lt.mpr hpass
  cases level <;>
    simp only [LoggerT.logAt, LoggerT.trace, LoggerT.debug, LoggerT.info, LoggerT.warn,
      LoggerT.error, LoggerT.fatal, LoggerT.log, LoggerConfig.sink, location, if_neg hfilter]

/-- Witness of `log_line_text`: an error logged with the filter at INFO and
the default sinks. -/
theorem log_line_text_witness :
    LoggerT.logAt LogLevel.ERROR (fun str _ => str) { level := LogLevel.INFO } ("a.cpp") 7
        ("main") ("disk full") [] =
      some (({ level := LogLevel.INFO } : LoggerConfig).sink LogLevel.ERROR,
        (fun (str : String) (_ : List String) => str) ("disk full") [] ++
          (location ("a.cpp") 7 ("main") ++ "\n")) :=
  log_line_text (fun str _ => str) { level := LogLevel.INFO } LogLevel.ERROR ("a.cpp") 7
    ("main") ("disk full") [] (by decide)

end logger
end crossbow

namespace crossbow

/-! ## The epoch allocator: allocation -/

/-- C23: for every alignment `align > 0` and header size `nodeSize`, the
padding computed by `malloc(size, align)` is smaller than `align`, makes
`nodeSize + nodePadding` a multiple of `align`, and is the smallest number
that does; so the pointer returned, `res + nodeSize + nodePadding`, is a
multiple of `align` whenever the block start `res` is. -/
theorem nodePadding_aligns (nodeSize align : Nat) (halign : 0 < align) :
    allocator.nodePadding nodeSize align < align ∧
    (nodeSize + allocator.nodePadding nodeSize align) % align = 0 ∧
    (∀ q, (nodeSize + q) % align = 0 → allocator.nodePadding nodeSize align ≤ q) ∧
    (∀ res, res % align = 0 →
      (res + nodeSize + allocator.nodePadding nodeSize align) % align = 0) := by
  have hr : nodeSize % align < align := Nat.mod_lt nodeSize halign
  have hsum : (nodeSize + allocator.nodePadding nodeSize align) % align = 0 := by
    by_cases h0 : nodeSize % align = 0
    · simp [allocator.nodePadding, h0]
    · have hpad : allocator.nodePadding nodeSize align = align - nodeSize % align := by
        simp [allocator.nodePadding, h0]
      have hlt : align - nodeSize % align < align := by omega
      rw [hpad, Nat.add_mod, Nat.mod_eq_of_lt hlt]
      have : nodeSize % align + (align - nodeSize % align) = align := by omega
      rw [this, Nat.mod_self]
  refine ⟨?_, hsum, ?_, ?_⟩
  · by_cases h0 : nodeSize % align = 0
    · simp [allocator.nodePadding, h0, halign]
    · simp only [allocator.nodePadding, if_pos h0]
      omega
  · intro q hq
    by_cases h0 : nodeSize % align = 0
    · simp [allocator.nodePadding, h0]
    · simp only [allocator.nodePadding, if_pos h0]
      by_contra hcon
      have hqlt : q < align - nodeSize % align := by omega
      have hq1 : q % align = q := Nat.mod_eq_of_lt (by omega)
      rw [Nat.add_mod, hq1, Nat.mod_eq_of_lt (by omega)] at hq
      omega
  · intro res hres
    rw [Nat.add_assoc, Nat.add_mod, hres, hsum]
    simp

/-- Witness of `nodePadding_aligns`: a header of 48 bytes and an alignment of
64 bytes need a padding of 16 bytes. -/
theorem nodePadding_aligns_witness :
    allocator.nodePadding 48 64 = 16 ∧
    allocator.nodePadding 48 64 < 64 ∧
    (48 + allocator.nodePadding 48 64) % 64 = 0 ∧
    (∀ q, (48 + q) % 64 = 0 → allocator.nodePadding 48 64 ≤ q) ∧
    (∀ res, res % 64 = 0 → (res + 48 + allocator.nodePadding 48 64) % 64 = 0) :=
  ⟨by decide, nodePadding_aligns 48 64 (by decide)⟩

/-- C24: for both forms of `malloc`, the aligned one with an alignment
`align > 0`, when the system returns the block start `res` (and the header and
the padding lie below the end of the address space), `malloc` returns the
pointer `res + nodeSize` plus the padding, the node header lies in the
`nodeSize` bytes right before that pointer, its `ptr` records `res`, and
`free_now` of the pointer hands exactly `res` to `::free`. -/
theorem free_now_releases_block (nodeSize : Nat) (sys_malloc : Nat → Option Nat)
    (sys_aligned_alloc : Nat → Nat → Option Nat) (heap : NodeHeap) (size align res : Nat) :
    (sys_malloc ((size + nodeSize) % 2 ^ 64) = some res → res + nodeSize < 2 ^ 64 →
      (allocator.malloc nodeSize sys_malloc heap size).1 = some (res + nodeSize) ∧
      (allocator.malloc nodeSize sys_malloc heap size).2 (res + nodeSize - nodeSize) =
        some { next := 1, ptr := res, destruct := none } ∧
      allocator.free_now nodeSize (allocator.malloc nodeSize sys_malloc heap size).2
        (res + nodeSize) = some res) ∧
    (0 < align →
      sys_aligned_alloc align
        ((size + nodeSize + allocator.nodePadding nodeSize align) % 2 ^ 64) = some res →
      res + nodeSize + allocator.nodePadding nodeSize align < 2 ^ 64 →
      ∃ heap1,
        allocator.malloc_aligned nodeSize sys_aligned_alloc heap size align =
          some (some (res + nodeSize + allocator.nodePadding nodeSize align), heap1) ∧
        heap1 (res + nodeSize + allocator.nodePadding nodeSize align - nodeSize) =
          some { next := 1, ptr := res, destruct := none } ∧
        allocator.free_now nodeSize heap1
          (res + nodeSize + allocator.nodePadding nodeSize align) = some res) := by
  constructor
  · intro hsys hfit
    have h1 : (res + nodeSize) % 2 ^ 64 = res + nodeSize := Nat.mod_eq_of_lt hfit
    have h2 : (res + nodeSize + 2 ^ 64 - nodeSize) % 2 ^ 64 = res := by
      have : res + nodeSize + 2 ^ 64 - nodeSize = res + 2 ^ 64 := by omega
      rw [this, Nat.add_mod_right]
      exact Nat.mod_eq_of_lt (by omega)
    have h3 : res + nodeSize - nodeSize = res := by omega
    have hm : allocator.malloc nodeSize sys_malloc heap size =
        (some (res + nodeSize), heap.write res (lists.node.new res)) := by
      simp only [allocator.malloc, hsys, h1]
    rw [hm]
    refine ⟨rfl, ?_, ?_⟩
    · rw [h3]
      simp [NodeHeap.write, lists.node.new]
    · simp only [allocator.free_now]
      rw [h2]
      simp [NodeHeap.write, lists.node.new]
  · intro halign hsys hfit
    have hne : align ≠ 0 := Nat.pos_iff_ne_zero.mp halign
    have h1 : (res + nodeSize + allocator.nodePadding nodeSize align) % 2 ^ 64 =
        res + nodeSize + allocator.nodePadding nodeSize align := Nat.mod_eq_of_lt hfit
    have h0 : (res + allocator.nodePadding nodeSize align) % 2 ^ 64 =
        res + allocator.nodePadding nodeSize align := Nat.mod_eq_of_lt (by omega)
    have h2 : (res + nodeSize + allocator.nodePadding nodeSize align + 2 ^ 64 - nodeSize)
        % 2 ^ 64 = res + allocator.nodePadding nodeSize align := by
      have : res + nodeSize + allocator.nodePadding nodeSize align + 2 ^ 64 - nodeSize =
          res + allocator.nodePadding nodeSize align + 2 ^ 64 := by omega
      rw [this, Nat.add_mod_right]
      exact Nat.mod_eq_of_lt (by omega)
    have h3 : res + nodeSize + allocator.nodePadding nodeSize align - nodeSize =
        res + allocator.nodePadding nodeSize align := by omega
    have hm : allocator.malloc_aligned nodeSize sys_aligned_alloc heap size align =
        some (some (res + nodeSize + allocator.nodePadding nodeSize align),
          heap.write (res + allocator.nodePadding nodeSize align) (lists.node.new res)) := by
      simp only [allocator.malloc_aligned, if_neg hne, hsys, h1, h0]
    refine ⟨_, hm, ?_, ?_⟩
    · rw [h3]
      simp [NodeHeap.write, lists.node.new]
    · simp only [allocator.free_now]
      rw [h2]
      simp [NodeHeap.write, lists.node.new]

/-- Witness of `free_now_releases_block`: the system returns the block at 4096
to `malloc(100)` and the block at 8192 to `malloc(100, 64)`; the header has 48
bytes and the padding 16, so the aligned pointer is 8256 and the header lies
at 8208. -/
theorem free_now_releases_block_witness :
    allocator.free_now 48
        (allocator.malloc 48 (fun _ => some 4096) (fun _ => none) 100).2 (4096 + 48) =
      some 4096 ∧
    ∃ heap1,
      allocator.malloc_aligned 48 (fun _ _ => some 8192) (fun _ => none) 100 64 =
        some (some (8192 + 48 + allocator.nodePadding 48 64), heap1) ∧
      heap1 (8192 + 48 + allocator.nodePadding 48 64 - 48) =
        some { next := 1, ptr := 8192, destruct := none } ∧
      allocator.free_now 48 heap1 (8192 + 48 + allocator.nodePadding 48 64) = some 8192 :=
  ⟨((free_now_releases_block 48 (fun _ => some 4096) (fun _ _ => some 8192) (fun _ => none)
      100 64 4096).1 rfl (by decide)).2.2,
   (free_now_releases_block 48 (fun _ => some 4096) (fun _ _ => some 8192) (fun _ => none)
      100 64 8192).2 (by decide) rfl (by decide)⟩

/-- With an alignment of zero the aligned form of `malloc` has no result,
whatever the system would return. -/
theorem allocator.malloc_aligned_zero (nodeSize : Nat)
    (sys_aligned_alloc : Nat → Nat → Option Nat) (heap : NodeHeap) (size : Nat) :
    allocator.malloc_aligned nodeSize sys_aligned_alloc heap size 0 = none := by
  simp [allocator.malloc_aligned]

end crossbow

namespace crossbow

/-! ## The singleton holder -/

/-- The first call of `instance()` after the destruction, with the default
lifetime policy: it throws the logic error, creates nothing, and leaves
`instance_` null but `destroyed_` cleared. -/
theorem singleton.first_dead_reference (create : create_policy) (s : singleton)
    (hnull : s.instance_ = none) (hdead : s.destroyed_ = true) :
    (singleton.get_instance create lifetime_policy.default_lifetime s).result =
      Except.error { what := "Dead reference detected" } ∧
    (singleton.get_instance create lifetime_policy.default_lifetime s).state =
      { s with destroyed_ := false } := by
  simp [singleton.get_instance, hnull, hdead, lifetime_policy.on_dead_ref]

/-- C25, the code at the failing input: a singleton with `create_static` and
the default lifetime policy, for which the `static_assert` holds.  The first
`instance()` creates the object, `destroy_instance()` destroys it, the next
`instance()` throws `Dead reference detected` and clears `destroyed_`, and the
`instance()` after that throws nothing: it constructs a second object in the
static storage, returns it and schedules its destruction. -/
theorem dead_reference_detected_once (storage : Nat) :
    singleton.static_assert (create_static storage) lifetime_policy.default_lifetime = true ∧
    (singleton.get_instance (create_static storage) lifetime_policy.default_lifetime
        singleton.initial).state =
      { destroyed_ := false, instance_ := some storage, constructed := 1,
        destroyedObjects := [], scheduled := 1 } ∧
    singleton.destroy_instance
        { destroyed_ := false, instance_ := some storage, constructed := 1,
          destroyedObjects := [], scheduled := 1 } =
      some { destroyed_ := true, instance_ := none, constructed := 1,
             destroyedObjects := [storage], scheduled := 1 } ∧
    (singleton.get_instance (create_static storage) lifetime_policy.default_lifetime
        { destroyed_ := true, instance_ := none, constructed := 1,
          destroyedObjects := [storage], scheduled := 1 }).result =
      Except.error { what := "Dead reference detected" } ∧
    (singleton.get_instance (create_static storage) lifetime_policy.default_lifetime
        { destroyed_ := true, instance_ := none, constructed := 1,
          destroyedObjects := [storage], scheduled := 1 }).state =
      { destroyed_ := false, instance_ := none, constructed := 1,
        destroyedObjects := [storage], scheduled := 1 } ∧
    (singleton.get_instance (create_static storage) lifetime_policy.default_lifetime
        { destroyed_ := false, instance_ := none, constructed := 1,
          destroyedObjects := [storage], scheduled := 1 }).result =
      Except.ok (some storage) ∧
    (singleton.get_instance (create_static storage) lifetime_policy.default_lifetime
        { destroyed_ := false, instance_ := none, constructed := 1,
          destroyedObjects := [storage], scheduled := 1 }).state =
      { destroyed_ := false, instance_ := some storage, constructed := 2,
        destroyedObjects := [storage], scheduled := 2 } := by
  refine ⟨rfl, ?_, ?_, ?_, ?_, ?_, ?_⟩ <;>
    simp [singleton.get_instance, singleton.destroy_instance, singleton.destroy,
      singleton.initial, create_static, lifetime_policy.on_dead_ref,
      lifetime_policy.schedule_destruction]

end crossbow

namespace crossbow

/-! ## The epoch allocator: lists -/

/-- The empty list starts at the null pointer. -/
theorem NodeHeap.chain_nil (heap : NodeHeap) (head : Nat) :
    heap.chain head [] = true ↔ head = 0 := by
  simp [NodeHeap.chain]

/-- A list with a first block: the head is the header of that block, the
header records the block and its callback, and the rest of the list starts at
the `next` of the header. -/
theorem NodeHeap.chain_cons (heap : NodeHeap) (head : Nat) (b : Linked) (rest : List Linked) :
    heap.chain head (b :: rest) = true ↔
      head = b.addr ∧ b.addr ≠ 0 ∧
        ∃ nd, heap b.addr = some nd ∧ nd.ptr = b.ptr ∧ nd.destruct = some b.callback ∧
          heap.chain nd.next rest = true := by
  cases h : heap b.addr with
  | none => simp [NodeHeap.chain, h]
  | some nd => simp [NodeHeap.chain, h, and_assoc]

/-- A list stays what it is when the headers of its blocks stay what they
are. -/
theorem NodeHeap.chain_frame (heap heap1 : NodeHeap) (blocks : List Linked) :
    ∀ head, heap.chain head blocks = true →
      (∀ b ∈ blocks, heap1 b.addr = heap b.addr) → heap1.chain head blocks = true := by
  induction blocks with
  | nil =>
    intro head h _
    rw [NodeHeap.chain_nil] at h ⊢
    exact h
  | cons b rest ih =>
    intro head h hsame
    rw [NodeHeap.chain_cons] at h ⊢
    obtain ⟨h1, h2, nd, h3, h4, h5, h6⟩ := h
    refine ⟨h1, h2, nd, ?_, h4, h5, ?_⟩
    · rw [hsame b (List.mem_cons_self b rest)]
      exact h3
    · exact ih nd.next h6 (fun c hc => hsame c (List.mem_cons_of_mem b hc))

/-- The teardown of a list whose blocks have distinct headers, with enough
fuel: it reclaims the blocks from the tail to the head, the headers of these
blocks cease to exist, and every other header stays what it is. -/
theorem lists.list.destruct_chain (blocks : List Linked) :
    ∀ (fuel : Nat) (heap : NodeHeap) (head : Nat), heap.chain head blocks = true →
      (blocks.map Linked.addr).Nodup → blocks.length < fuel →
      ∃ heap1, lists.list.destruct fuel heap head = some (heap1, Linked.reclaimAll blocks) ∧
        (∀ a, a ∉ blocks.map Linked.addr → heap1 a = heap a) ∧
        (∀ a, a ∈ blocks.map Linked.addr → heap1 a = none) := by
  induction blocks with
  | nil =>
    intro fuel heap head h _ hfuel
    rw [NodeHeap.chain_nil] at h
    cases fuel with
    | zero => simp at hfuel
    | succ n =>
      refine ⟨heap, ?_, fun a _ => rfl, ?_⟩
      · simp [lists.list.destruct, h, Linked.reclaimAll]
      · intro a ha
        simp at ha
  | cons b rest ih =>
    intro fuel heap head h hnodup hfuel
    rw [NodeHeap.chain_cons] at h
    obtain ⟨h1, h2, nd, h3, h4, h5, h6⟩ := h
    cases fuel with
    | zero => simp at hfuel
    | succ n =>
      simp only [List.map_cons, List.nodup_cons] at hnodup
      simp only [List.length_cons, Nat.add_lt_add_iff_right] at hfuel
      obtain ⟨heap1, hd, hout, hin⟩ := ih n heap nd.next h6 hnodup.2 hfuel
      have hkeep : heap1 b.addr = some nd := by
        rw [hout b.addr hnodup.1]
        exact h3
      refine ⟨heap1.erase b.addr, ?_, ?_, ?_⟩
      · subst h1
        simp [lists.list.destruct, h2, h3, hd, hkeep, h5, h4, Linked.reclaimAll,
          Linked.reclaim]
      · intro a ha
        simp only [List.map_cons, List.mem_cons, not_or] at ha
        simp only [NodeHeap.erase, if_neg ha.1]
        exact hout a ha.2
      · intro a ha
        simp only [List.map_cons, List.mem_cons] at ha
        by_cases hab : a = b.addr
        · simp [NodeHeap.erase, hab]
        · simp only [NodeHeap.erase, if_neg hab]
          exact hin a (ha.resolve_left hab)

end crossbow

namespace crossbow

/-- An address is among the headers of the lists below `k` exactly when it is
the header of a block of one of these lists. -/
theorem Linked.mem_addrsBelow (contents : Nat → List Linked) (a : Nat) :
    ∀ k, a ∈ Linked.addrsBelow contents k ↔ ∃ i, i < k ∧ a ∈ (contents i).map Linked.addr := by
  intro k
  induction k with
  | zero => simp [Linked.addrsBelow]
  | succ k ih =>
    simp only [Linked.addrsBelow, List.mem_append, ih]
    constructor
    · rintro (h | ⟨i, hi, h⟩)
      · exact ⟨k, Nat.lt_succ_self k, h⟩
      · exact ⟨i, Nat.lt_succ_of_lt hi, h⟩
    · rintro ⟨i, hi, h⟩
      by_cases hik : i = k
      · subst hik
        exact Or.inl h
      · exact Or.inr ⟨i, by omega, h⟩

/-- A block start is handed to `::free` by the teardown of a list exactly when
it is recorded in a block of the list. -/
theorem Linked.free_mem_reclaimAll (p : Nat) (blocks : List Linked) :
    Reclaim.free p ∈ Linked.reclaimAll blocks ↔ p ∈ blocks.map Linked.ptr := by
  induction blocks with
  | nil => simp [Linked.reclaimAll]
  | cons b rest ih =>
    simp only [Linked.reclaimAll, Linked.reclaim, List.mem_append, ih, List.map_cons,
      List.mem_cons, List.mem_singleton, Reclaim.free.injEq, List.not_mem_nil, or_false,
      false_or, reduceCtorEq]
    constructor
    · rintro (h | h)
      · exact Or.inr h
      · exact Or.inl h
    · rintro (h | h)
      · exact Or.inr h
      · exact Or.inl h

/-- A block start is handed to `::free` by the teardown of the lists below `k`
exactly when it is recorded in one of these lists. -/
theorem Linked.free_mem_reclaimBelow (contents : Nat → List Linked) (p : Nat) :
    ∀ k, Reclaim.free p ∈ Linked.reclaimBelow contents k ↔ p ∈ Linked.ptrsBelow contents k := by
  intro k
  induction k with
  | zero => simp [Linked.reclaimBelow, Linked.ptrsBelow]
  | succ k ih =>
    simp only [Linked.reclaimBelow, Linked.ptrsBelow, List.mem_append, ih,
      Linked.free_mem_reclaimAll]

/-- The teardown of the lists below `k` of a list set, when the headers of all
their blocks are distinct and the fuel exceeds the length of every list: it
reclaims list after list, from the last to the first, each from its tail to
its head; the headers of these blocks cease to exist and every other header
stays what it is. -/
theorem lists.destroyBelow_holds (fuel : Nat) (self : lists) (contents : Nat → List Linked) :
    ∀ (k : Nat) (heap : NodeHeap),
      (∀ i, i < k → heap.chain (self.lists_ i).head_ (contents i) = true) →
      (Linked.addrsBelow contents k).Nodup →
      (∀ i, i < k → (contents i).length < fuel) →
      ∃ heap1, lists.destroyBelow fuel self k heap = some (heap1, Linked.reclaimBelow contents k) ∧
        (∀ a, a ∉ Linked.addrsBelow contents k → heap1 a = heap a) ∧
        (∀ a, a ∈ Linked.addrsBelow contents k → heap1 a = none) := by
  intro k
  induction k with
  | zero =>
    intro heap _ _ _
    exact ⟨heap, rfl, fun a _ => rfl, fun a ha => by simp [Linked.addrsBelow] at ha⟩
  | succ k ih =>
    intro heap hchain hnodup hfuel
    simp only [Linked.addrsBelow] at hnodup
    rw [List.nodup_append] at hnodup
    obtain ⟨hn1, hn2, hdisj⟩ := hnodup
    obtain ⟨heap1, hd, hout, hin⟩ := lists.list.destruct_chain (contents k) fuel heap
      (self.lists_ k).head_ (hchain k (Nat.lt_succ_self k)) hn1 (hfuel k (Nat.lt_succ_self k))
    have hchain1 : ∀ i, i < k → heap1.chain (self.lists_ i).head_ (contents i) = true := by
      intro i hi
      apply NodeHeap.chain_frame heap heap1 (contents i) _ (hchain i (Nat.lt_succ_of_lt hi))
      intro b hb
      apply hout
      intro hmem
      have hbelow : b.addr ∈ Linked.addrsBelow contents k :=
        (Linked.mem_addrsBelow contents b.addr k).mpr ⟨i, hi, List.mem_map_of_mem _ hb⟩
      exact hdisj hmem hbelow
    obtain ⟨heap2, hd2, hout2, hin2⟩ := ih heap1 hchain1 hn2
      (fun i hi => hfuel i (Nat.lt_succ_of_lt hi))
    refine ⟨heap2, ?_, ?_, ?_⟩
    · simp [lists.destroyBelow, lists.list.dtor, hd, hd2, Linked.reclaimBelow]
    · intro a ha
      simp only [Linked.addrsBelow, List.mem_append, not_or] at ha
      rw [hout2 a ha.2, hout a ha.1]
    · intro a ha
      simp only [Linked.addrsBelow, List.mem_append] at ha
      by_cases hbelow : a ∈ Linked.addrsBelow contents k
      · exact hin2 a hbelow
      · rw [hout2 a hbelow]
        exact hin a (ha.resolve_right hbelow)

end crossbow

namespace crossbow

/-- Appending a live block to a list: the header before the pointer becomes
the new head of the list, it keeps the block start, takes the callback, and
points to the former head. -/
theorem lists.list.append_live (nodeSize : Nat) (heap : NodeHeap) (self : lists.list)
    (a cb : Nat) (nd : lists.node) (blocks : List Linked)
    (hfit : a + nodeSize < 2 ^ 64) (hnode : heap a = some nd) (hlive : nd.next = 1)
    (ha0 : a ≠ 0) (hchain : heap.chain self.head_ blocks = true)
    (hfresh : a ∉ blocks.map Linked.addr) :
    lists.list.append nodeSize heap self (a + nodeSize) cb =
      some (heap.write a { next := self.head_, ptr := nd.ptr, destruct := some cb },
            { head_ := a }) ∧
    (heap.write a { next := self.head_, ptr := nd.ptr, destruct := some cb }).chain a
      ({ addr := a, ptr := nd.ptr, callback := cb } :: blocks) = true := by
  have haddr : (a + nodeSize + 2 ^ 64 - nodeSize) % 2 ^ 64 = a := by
    have : a + nodeSize + 2 ^ 64 - nodeSize = a + 2 ^ 64 := by omega
    rw [this, Nat.add_mod_right]
    exact Nat.mod_eq_of_lt (by omega)
  constructor
  · simp only [lists.list.append]
    rw [haddr]
    simp [hnode, lists.node.own, hlive]
  · rw [NodeHeap.chain_cons]
    refine ⟨rfl, ha0, { next := self.head_, ptr := nd.ptr, destruct := some cb }, ?_, rfl, rfl,
      ?_⟩
    · simp [NodeHeap.write]
    · apply NodeHeap.chain_frame heap _ blocks _ hchain
      intro b hb
      have hne : b.addr ≠ a := by
        intro h
        exact hfresh (h ▸ List.mem_map_of_mem _ hb)
      simp [NodeHeap.write, hne]

/-- Tearing a list down from its tail to its head reclaims the blocks in the
reverse of the list order. -/
theorem Linked.reclaimAll_reverse (blocks : List Linked) :
    Linked.reclaimAll blocks.reverse = Linked.reclaimInOrder blocks := by
  have happ : ∀ (l : List Linked) (b : Linked),
      Linked.reclaimAll (l ++ [b]) = b.reclaim ++ Linked.reclaimAll l := by
    intro l b
    induction l with
    | nil => simp [Linked.reclaimAll]
    | cons c rest ih => simp [Linked.reclaimAll, ih]
  induction blocks with
  | nil => rfl
  | cons b rest ih => rw [List.reverse_cons, happ, ih, Linked.reclaimInOrder]

/-- When only the list 0 of a list set holds blocks, the headers of the list
set are those of the list 0. -/
theorem Linked.addrsBelow_first (contents : Nat → List Linked)
    (hempty : ∀ i, i ≠ 0 → contents i = []) :
    ∀ k, Linked.addrsBelow contents (k + 1) = (contents 0).map Linked.addr := by
  intro k
  induction k with
  | zero => simp [Linked.addrsBelow]
  | succ k ih =>
    rw [Linked.addrsBelow, ih, hempty (k + 1) (Nat.succ_ne_zero k)]
    simp

/-- When only the list 0 of a list set holds blocks, the teardown of the list
set reclaims what the teardown of the list 0 reclaims. -/
theorem Linked.reclaimBelow_first (contents : Nat → List Linked)
    (hempty : ∀ i, i ≠ 0 → contents i = []) :
    ∀ k, Linked.reclaimBelow contents (k + 1) = Linked.reclaimAll (contents 0) := by
  intro k
  induction k with
  | zero => simp [Linked.reclaimBelow]
  | succ k ih =>
    rw [Linked.reclaimBelow, ih, hempty (k + 1) (Nat.succ_ne_zero k)]
    simp [Linked.reclaimAll]

/-- Releasing live blocks with distinct headers through `free_in_order` puts
them in front of the list 0 of the active list set, the block released last
first, and leaves every other list alone. -/
theorem allocator.free_in_order_all_chain (nodeSize : Nat) (todo : List Linked) :
    ∀ (g : Globals) (done : List Linked),
      g.heap.chain (g.active_list.lists_ 0).head_ done = true →
      (∀ b ∈ todo, b.addr ≠ 0 ∧ b.addr + nodeSize < 2 ^ 64 ∧
        ∃ nd, g.heap b.addr = some nd ∧ nd.next = 1 ∧ nd.ptr = b.ptr) →
      ((todo ++ done).map Linked.addr).Nodup →
      ∃ g1, allocator.free_in_order_all nodeSize g
          (todo.map (fun b => (b.addr + nodeSize, b.callback))) = some g1 ∧
        g1.heap.chain (g1.active_list.lists_ 0).head_ (todo.reverse ++ done) = true ∧
        (∀ i, i ≠ 0 → g1.active_list.lists_ i = g.active_list.lists_ i) := by
  induction todo with
  | nil =>
    intro g done hchain _ _
    exact ⟨g, rfl, by simpa using hchain, fun i _ => rfl⟩
  | cons b rest ih =>
    intro g done hchain hlive hnodup
    obtain ⟨hb0, hbfit, nd, hnd, hnext, hptr⟩ := hlive b (List.mem_cons_self b rest)
    simp only [List.cons_append, List.map_cons, List.nodup_cons, List.map_append,
      List.mem_append, not_or] at hnodup
    obtain ⟨⟨hbrest, hbdone⟩, hnodup2⟩ := hnodup
    obtain ⟨happ, hchain1⟩ := lists.list.append_live nodeSize g.heap (g.active_list.lists_ 0)
      b.addr b.callback nd done hbfit hnd hnext hb0 hchain hbdone
    have hb : ({ addr := b.addr, ptr := nd.ptr, callback := b.callback } : Linked) = b := by
      rw [hptr]
    rw [hb] at hchain1
    have hzero : 0 % NUM_LISTS = 0 := by decide
    have hstep : allocator.free_in_order nodeSize g (b.addr + nodeSize) b.callback =
        some { g with
          active_list := { lists_ := fun i =>
            if i = 0 then { head_ := b.addr } else g.active_list.lists_ i },
          heap := g.heap.write b.addr
            { next := (g.active_list.lists_ 0).head_, ptr := nd.ptr,
              destruct := some b.callback } } := by
      simp only [allocator.free_in_order, lists.append, hzero, happ]
    have hlive1 : ∀ c ∈ rest, c.addr ≠ 0 ∧ c.addr + nodeSize < 2 ^ 64 ∧
        ∃ nd1, (g.heap.write b.addr
            { next := (g.active_list.lists_ 0).head_, ptr := nd.ptr,
              destruct := some b.callback }) c.addr = some nd1 ∧
          nd1.next = 1 ∧ nd1.ptr = c.ptr := by
      intro c hc
      obtain ⟨hc0, hcfit, ndc, hndc, hcnext, hcptr⟩ := hlive c (List.mem_cons_of_mem b hc)
      refine ⟨hc0, hcfit, ndc, ?_, hcnext, hcptr⟩
      have hne : c.addr ≠ b.addr := by
        intro h
        exact hbrest (h ▸ List.mem_map_of_mem _ hc)
      simp [NodeHeap.write, hne, hndc]
    have hnodup1 : ((rest ++ b :: done).map Linked.addr).Nodup := by
      simp only [List.map_append, List.map_cons]
      rw [List.nodup_append] at hnodup2 ⊢
      refine ⟨hnodup2.1, List.nodup_cons.mpr ⟨hbdone, hnodup2.2.1⟩, ?_⟩
      intro a ha1 ha2
      rcases List.mem_cons.mp ha2 with h | h
      · exact hbrest (h ▸ ha1)
      · exact hnodup2.2.2 ha1 h
    obtain ⟨g1, hrun, hchain2, hother⟩ := ih
      { g with
        active_list := { lists_ := fun i =>
          if i = 0 then { head_ := b.addr } else g.active_list.lists_ i },
        heap := g.heap.write b.addr
          { next := (g.active_list.lists_ 0).head_, ptr := nd.ptr,
            destruct := some b.callback } }
      (b :: done) (by simpa using hchain1) hlive1 hnodup1
    refine ⟨g1, ?_, ?_, ?_⟩
    · simp only [List.map_cons, allocator.free_in_order_all, hstep]
      exact hrun
    · simpa using hchain2
    · intro i hi
      rw [hother i hi]
      simp [hi]

end crossbow

namespace crossbow

/-- C22: in an epoch that starts with a new list set, blocks with distinct
live headers released with `free_in_order` in the order `b1`, ..., `bn` are
reclaimed in that order when the list set is deleted (with enough fuel for the
recursion): the callback of `b1` runs and `b1` is freed, then `b2`, and so on
to `bn`. -/
theorem free_in_order_reclaimed_in_order (nodeSize fuel : Nat) (g : Globals)
    (blocks : List Linked)
    (hepoch : g.active_list = lists.new)
    (hlive : ∀ b ∈ blocks, b.addr ≠ 0 ∧ b.addr + nodeSize < 2 ^ 64 ∧
      ∃ nd, g.heap b.addr = some nd ∧ nd.next = 1 ∧ nd.ptr = b.ptr)
    (hdistinct : (blocks.map Linked.addr).Nodup)
    (hfuel : blocks.length < fuel) :
    ∃ g1 heap1,
      allocator.free_in_order_all nodeSize g
          (blocks.map (fun b => (b.addr + nodeSize, b.callback))) = some g1 ∧
      g1.active_list.dtor fuel g1.heap = some (heap1, Linked.reclaimInOrder blocks) := by
  have hstart : g.heap.chain (g.active_list.lists_ 0).head_ [] = true := by
    rw [hepoch]
    rfl
  obtain ⟨g1, hrun, hchain, hother⟩ := allocator.free_in_order_all_chain nodeSize blocks g []
    hstart hlive (by simpa using hdistinct)
  have hempty : ∀ i, i ≠ 0 →
      (fun i => if i = 0 then blocks.reverse else ([] : List Linked)) i = [] := by
    intro i hi
    simp [hi]
  obtain ⟨heap1, hd, _, _⟩ := lists.destroyBelow_holds fuel g1.active_list
    (fun i => if i = 0 then blocks.reverse else []) (63 + 1) g1.heap
    (by
      intro i _
      by_cases hi : i = 0
      · subst hi
        simpa using hchain
      · rw [hother i hi, hepoch]
        simp only [if_neg hi]
        rfl)
    (by
      rw [Linked.addrsBelow_first _ hempty 63]
      simpa [List.map_reverse] using hdistinct)
    (by
      intro i _
      by_cases hi : i = 0
      · simpa [hi] using hfuel
      · simp only [if_neg hi, List.length_nil]
        omega)
  refine ⟨g1, heap1, hrun, ?_⟩
  rw [Linked.reclaimBelow_first _ hempty 63] at hd
  simp only [if_pos, Linked.reclaimAll_reverse] at hd
  exact hd

/-- Witness of `free_in_order_reclaimed_in_order`: after `init`, the blocks at
4096 and 8192, with headers of 48 bytes, are released with the callbacks 1 and
2; deleting the list set runs the callback 1, frees 4096, runs the callback 2
and frees 8192. -/
theorem free_in_order_reclaimed_in_order_witness :
    ∃ g1 heap1,
      allocator.free_in_order_all 48
          (allocator.init
            (NodeHeap.write (NodeHeap.write NodeHeap.empty 4096 (lists.node.new 4096)) 8192
              (lists.node.new 8192)))
          [(4096 + 48, 1), (8192 + 48, 2)] = some g1 ∧
      g1.active_list.dtor 3 g1.heap =
        some (heap1, [Reclaim.destruct 1, Reclaim.free 4096, Reclaim.destruct 2,
          Reclaim.free 8192]) :=
  free_in_order_reclaimed_in_order 48 3
    (allocator.init
      (NodeHeap.write (NodeHeap.write NodeHeap.empty 4096 (lists.node.new 4096)) 8192
              (lists.node.new 8192)))
    [{ addr := 4096, ptr := 4096, callback := 1 }, { addr := 8192, ptr := 8192, callback := 2 }]
    rfl
    (by
      intro b hb
      simp only [List.mem_cons, List.mem_singleton, List.not_mem_nil, or_false] at hb
      rcases hb with rfl | rfl
      · exact ⟨by decide, by decide, lists.node.new 4096, rfl, rfl, rfl⟩
      · exact ⟨by decide, by decide, lists.node.new 8192, rfl, rfl, rfl⟩)
    (by decide) (by decide)

end crossbow

namespace crossbow

/-! ## The epoch allocator: epochs -/

/-- The headers of a list set after one more block has been linked into its
list `j`: below `k` they are the headers from before, and the new header when
`j < k`. -/
theorem Linked.mem_addrsBelow_linkedAt (contents : Nat → List Linked) (j : Nat) (b : Linked)
    (a k : Nat) :
    a ∈ Linked.addrsBelow (Linked.linkedAt contents j b) k ↔
      (a = b.addr ∧ j < k) ∨ a ∈ Linked.addrsBelow contents k := by
  rw [Linked.mem_addrsBelow, Linked.mem_addrsBelow]
  constructor
  · rintro ⟨i, hi, hmem⟩
    by_cases hij : i = j
    · subst hij
      simp only [Linked.linkedAt, if_pos, List.map_cons, List.mem_cons] at hmem
      rcases hmem with h | h
      · exact Or.inl ⟨h, hi⟩
      · exact Or.inr ⟨i, hi, h⟩
    · simp only [Linked.linkedAt, if_neg hij] at hmem
      exact Or.inr ⟨i, hi, hmem⟩
  · rintro (⟨h, hj⟩ | ⟨i, hi, hmem⟩)
    · exact ⟨j, hj, by simp [Linked.linkedAt, h]⟩
    · refine ⟨i, hi, ?_⟩
      by_cases hij : i = j
      · simp only [Linked.linkedAt, if_pos hij, List.map_cons, List.mem_cons]
        exact Or.inr hmem
      · simp only [Linked.linkedAt, if_neg hij]
        exact hmem

/-- Linking a block with a new header into a list set keeps the headers of the
list set distinct. -/
theorem Linked.nodup_addrsBelow_linkedAt (contents : Nat → List Linked) (j : Nat) (b : Linked) :
    ∀ k, (Linked.addrsBelow contents k).Nodup → b.addr ∉ Linked.addrsBelow contents k →
      (Linked.addrsBelow (Linked.linkedAt contents j b) k).Nodup := by
  intro k
  induction k with
  | zero =>
    intro _ _
    simp [Linked.addrsBelow]
  | succ k ih =>
    intro hnodup hfresh
    simp only [Linked.addrsBelow, List.mem_append, not_or] at hnodup hfresh ⊢
    rw [List.nodup_append] at hnodup ⊢
    obtain ⟨hn1, hn2, hdisj⟩ := hnodup
    refine ⟨?_, ih hn2 hfresh.2, ?_⟩
    · by_cases hkj : k = j
      · simp only [Linked.linkedAt, if_pos hkj, List.map_cons, List.nodup_cons]
        exact ⟨hfresh.1, hn1⟩
      · simp only [Linked.linkedAt, if_neg hkj]
        exact hn1
    · intro a ha1 ha2
      rw [Linked.mem_addrsBelow_linkedAt] at ha2
      by_cases hkj : k = j
      · simp only [Linked.linkedAt, if_pos hkj, List.map_cons, List.mem_cons] at ha1
        rcases ha2 with ⟨_, hlt⟩ | ha2
        · omega
        · rcases ha1 with h | h
          · exact hfresh.2 (h ▸ ha2)
          · exact hdisj h ha2
      · simp only [Linked.linkedAt, if_neg hkj] at ha1
        rcases ha2 with ⟨h, _⟩ | ha2
        · exact hfresh.1 (h ▸ ha1)
        · exact hdisj ha1 ha2

/-- The teardown of a list set reclaims a block of its list `j` in one piece:
the callback of the block, immediately followed by the release of the block. -/
theorem Linked.reclaimBelow_linkedAt (contents : Nat → List Linked) (j : Nat) (b : Linked) :
    ∀ k, j < k → ∃ before after,
      Linked.reclaimBelow (Linked.linkedAt contents j b) k = before ++ b.reclaim ++ after := by
  intro k
  induction k with
  | zero =>
    intro h
    omega
  | succ k ih =>
    intro hj
    by_cases hkj : k = j
    · refine ⟨Linked.reclaimAll (contents k),
        Linked.reclaimBelow (Linked.linkedAt contents j b) k, ?_⟩
      simp only [Linked.reclaimBelow, Linked.linkedAt, if_pos hkj, Linked.reclaimAll]
    · obtain ⟨before, after, h⟩ := ih (by omega)
      refine ⟨Linked.reclaimAll (contents k) ++ before, after, ?_⟩
      simp only [Linked.reclaimBelow, h]
      simp only [Linked.linkedAt, if_neg hkj, List.append_assoc]

/-- A list set keeps its contents when the headers of its blocks stay what
they are. -/
theorem lists.holds_frame (heap heap1 : NodeHeap) (self : lists) (contents : Nat → List Linked)
    (h : self.holds heap contents)
    (hsame : ∀ a, a ∈ Linked.addrsBelow contents NUM_LISTS → heap1 a = heap a) :
    self.holds heap1 contents := by
  intro i hi
  apply NodeHeap.chain_frame heap heap1 (contents i) _ (h i hi)
  intro b hb
  exact hsame b.addr ((Linked.mem_addrsBelow contents b.addr NUM_LISTS).mpr
    ⟨i, hi, List.mem_map_of_mem _ hb⟩)

/-- Releasing a live block whose header is in no list of a list set: the
release succeeds, the header becomes the head of the list `mycnt % NUM_LISTS`
and still exists, and the list set holds its former contents with the block in
front of that list. -/
theorem lists.append_holds (nodeSize : Nat) (heap : NodeHeap) (self : lists)
    (contents : Nat → List Linked) (b : Linked) (mycnt : Nat) (nd : lists.node)
    (hholds : self.holds heap contents)
    (hfit : b.addr + nodeSize < 2 ^ 64) (hnode : heap b.addr = some nd) (hlive : nd.next = 1)
    (hptr : nd.ptr = b.ptr) (ha0 : b.addr ≠ 0)
    (hfresh : b.addr ∉ Linked.addrsBelow contents NUM_LISTS) :
    ∃ set1, self.append nodeSize heap (b.addr + nodeSize) mycnt b.callback =
        some (heap.write b.addr
          { next := (self.lists_ (mycnt % NUM_LISTS)).head_, ptr := b.ptr,
            destruct := some b.callback }, set1) ∧
      (set1.lists_ (mycnt % NUM_LISTS)).head_ = b.addr ∧
      set1.holds (heap.write b.addr
          { next := (self.lists_ (mycnt % NUM_LISTS)).head_, ptr := b.ptr,
            destruct := some b.callback })
        (Linked.linkedAt contents (mycnt % NUM_LISTS) b) := by
  have hj : mycnt % NUM_LISTS < NUM_LISTS := Nat.mod_lt _ (by decide)
  have hnot : ∀ i, i < NUM_LISTS → b.addr ∉ (contents i).map Linked.addr := by
    intro i hi hmem
    exact hfresh ((Linked.mem_addrsBelow contents b.addr NUM_LISTS).mpr ⟨i, hi, hmem⟩)
  obtain ⟨happ, hchain⟩ := lists.list.append_live nodeSize heap
    (self.lists_ (mycnt % NUM_LISTS)) b.addr b.callback nd (contents (mycnt % NUM_LISTS))
    hfit hnode hlive ha0 (hholds _ hj) (hnot _ hj)
  rw [hptr] at happ hchain
  refine ⟨{ lists_ := fun i =>
      if i = mycnt % NUM_LISTS then { head_ := b.addr } else self.lists_ i }, ?_, ?_, ?_⟩
  · simp only [lists.append, happ]
  · simp
  · intro i hi
    by_cases hij : i = mycnt % NUM_LISTS
    · subst hij
      simpa [Linked.linkedAt] using hchain
    · simp only [if_neg hij, Linked.linkedAt]
      apply NodeHeap.chain_frame heap _ (contents i) _ (hholds i hi)
      intro c hc
      have hne : c.addr ≠ b.addr := by
        intro h
        exact hnot i hi (h ▸ List.mem_map_of_mem _ hc)
      simp [NodeHeap.write, hne]

end crossbow

namespace crossbow

/-- The rotation of the epochs, when the oldest list set holds blocks with
distinct headers and the fuel suffices: the counters and the list sets move on
by one place, the new active counter is incremented, the new active list set
is empty, and what is reclaimed is the former oldest list set, list after
list. -/
theorem allocator.rotate_holds (fuel : Nat) (g : Globals) (contents : Nat → List Linked)
    (hholds : g.oldest_list.holds g.heap contents)
    (hnodup : (Linked.addrsBelow contents NUM_LISTS).Nodup)
    (hfuel : ∀ i, i < NUM_LISTS → (contents i).length < fuel) :
    ∃ g1, allocator.rotate fuel g = some (g1, Linked.reclaimBelow contents NUM_LISTS) ∧
      g1.counters = (fun i =>
        if i = g.oldest_cnt then (g.counters g.oldest_cnt + 1) % 2 ^ 64 else g.counters i) ∧
      g1.active_cnt = g.oldest_cnt ∧ g1.old_cnt = g.active_cnt ∧ g1.oldest_cnt = g.old_cnt ∧
      g1.active_list = lists.new ∧ g1.old_list = g.active_list ∧
      g1.oldest_list = g.old_list ∧
      (∀ a, a ∉ Linked.addrsBelow contents NUM_LISTS → g1.heap a = g.heap a) ∧
      (∀ a, a ∈ Linked.addrsBelow contents NUM_LISTS → g1.heap a = none) := by
  obtain ⟨heap1, hd, hout, hin⟩ := lists.destroyBelow_holds fuel g.oldest_list contents
    NUM_LISTS g.heap hholds hnodup hfuel
  refine ⟨{ counters := fun i =>
              if i = g.oldest_cnt then (g.counters g.oldest_cnt + 1) % 2 ^ 64
              else g.counters i,
            active_cnt := g.oldest_cnt, old_cnt := g.active_cnt,
            oldest_cnt := g.old_cnt, active_list := lists.new,
            old_list := g.active_list, oldest_list := g.old_list, heap := heap1 },
    ?_, rfl, rfl, rfl, rfl, rfl, rfl, rfl, hout, hin⟩
  simp only [allocator.rotate, Globals.setCounter, lists.dtor, hd]

/-- The constructor of `allocator` while no guard is active: the object enters
the active epoch, whose counter becomes 3. -/
theorem allocator.ctor_quiescent (g : Globals) (hq : g.quiescent) :
    allocator.ctor g = some ({ cnt_ := g.active_cnt }, g.setCounter g.active_cnt 3) := by
  obtain ⟨h1, _⟩ := hq
  simp [allocator.ctor, h1]

/-- The destructor of the only active guard: it rotates the epochs, reclaims
the former oldest list set, and leaves no guard active; the active list set
becomes the old one and the old one the oldest. -/
theorem allocator.dtor_rotates (fuel : Nat) (g : Globals) (guard : allocator)
    (contents : Nat → List Linked)
    (hguard : guard.cnt_ = g.active_cnt)
    (hactive : g.counters g.active_cnt = 3) (hold : g.counters g.old_cnt = 0)
    (holdest : g.counters g.oldest_cnt = 0)
    (hd1 : g.active_cnt ≠ g.old_cnt) (hd2 : g.active_cnt ≠ g.oldest_cnt)
    (hd3 : g.old_cnt ≠ g.oldest_cnt)
    (hholds : g.oldest_list.holds g.heap contents)
    (hnodup : (Linked.addrsBelow contents NUM_LISTS).Nodup)
    (hfuel : ∀ i, i < NUM_LISTS → (contents i).length < fuel) :
    ∃ e, guard.dtor fuel g = some e ∧ e.rotated = true ∧
      e.reclaimed = Linked.reclaimBelow contents NUM_LISTS ∧
      e.globals.quiescent ∧ e.globals.active_list = lists.new ∧
      e.globals.old_list = g.active_list ∧ e.globals.oldest_list = g.old_list ∧
      (∀ a, a ∉ Linked.addrsBelow contents NUM_LISTS → e.globals.heap a = g.heap a) ∧
      (∀ a, a ∈ Linked.addrsBelow contents NUM_LISTS → e.globals.heap a = none) := by
  have hleave : (g.counters g.active_cnt + 2 ^ 64 - 2) % 2 ^ 64 = 1 := by
    rw [hactive]
    decide
  obtain ⟨g1, hrot, hc, ha, ho, hz, hal, hol, hzl, hout, hin⟩ := allocator.rotate_holds fuel
    ({ g with counters := fun i =>
        if i = g.active_cnt then 0
        else if i = g.active_cnt then 1 else g.counters i } : Globals)
    contents hholds hnodup hfuel
  refine ⟨{ globals := g1, rotated := true, reclaimed := Linked.reclaimBelow contents NUM_LISTS },
    ?_, rfl, rfl, ?_, hal, hol, hzl, hout, hin⟩
  · simp only [allocator.dtor, Globals.setCounter, hguard, hleave, if_true, Nat.sub_self]
    rw [hrot]
    simp [hold, holdest, Ne.symm hd1, Ne.symm hd2]
  · simp only [Globals.quiescent, hc, ha, ho, hz]
    simp [hold, holdest, hd1, hd2, hd3, Ne.symm hd1, Ne.symm hd2, Ne.symm hd3]

/-- One guarded section without releases, entered while no guard is active: it
rotates the epochs, reclaims the former oldest list set and nothing else, and
leaves no guard active. -/
theorem allocator.enter_leave_rotates (fuel : Nat) (g : Globals) (contents : Nat → List Linked)
    (hq : g.quiescent)
    (hholds : g.oldest_list.holds g.heap contents)
    (hnodup : (Linked.addrsBelow contents NUM_LISTS).Nodup)
    (hfuel : ∀ i, i < NUM_LISTS → (contents i).length < fuel) :
    ∃ e, allocator.enter_leave fuel g = some e ∧ e.rotated = true ∧
      e.reclaimed = Linked.reclaimBelow contents NUM_LISTS ∧
      e.globals.quiescent ∧ e.globals.active_list = lists.new ∧
      e.globals.old_list = g.active_list ∧ e.globals.oldest_list = g.old_list ∧
      (∀ a, a ∉ Linked.addrsBelow contents NUM_LISTS → e.globals.heap a = g.heap a) ∧
      (∀ a, a ∈ Linked.addrsBelow contents NUM_LISTS → e.globals.heap a = none) := by
  have hctor := allocator.ctor_quiescent g hq
  obtain ⟨h1, h2, h3, hd1, hd2, hd3⟩ := hq
  obtain ⟨e, he, hprops⟩ := allocator.dtor_rotates fuel (g.setCounter g.active_cnt 3)
    { cnt_ := g.active_cnt } contents rfl
    (by simp [Globals.setCounter])
    (by simp [Globals.setCounter, Ne.symm hd1, h2])
    (by simp [Globals.setCounter, Ne.symm hd2, h3])
    hd1 hd2 hd3 hholds hnodup hfuel
  refine ⟨e, ?_, hprops⟩
  simp only [allocator.enter_leave, hctor]
  exact he

end crossbow

namespace crossbow

/-- A release of a live block whose header is in no list of the active list
set, in either form: the header becomes the head of the list chosen by the
time stamp and still exists, the active list set holds its former contents with
the block in front of that list, and the counters and the other list sets stay
what they are. -/
theorem allocator.release_holds (nodeSize : Nat) (g : Globals) (contents : Nat → List Linked)
    (b : Linked) (stamp : Option Nat) (nd : lists.node)
    (hholds : g.active_list.holds g.heap contents)
    (hfit : b.addr + nodeSize < 2 ^ 64) (hnode : g.heap b.addr = some nd) (hlive : nd.next = 1)
    (hptr : nd.ptr = b.ptr) (ha0 : b.addr ≠ 0)
    (hfresh : b.addr ∉ Linked.addrsBelow contents NUM_LISTS) :
    ∃ g1, allocator.release nodeSize g (b.addr + nodeSize) b.callback stamp = some g1 ∧
      g1.heap = g.heap.write b.addr
        { next := (g.active_list.lists_ (allocator.listIndex stamp)).head_, ptr := b.ptr,
          destruct := some b.callback } ∧
      (g1.active_list.lists_ (allocator.listIndex stamp)).head_ = b.addr ∧
      g1.active_list.holds g1.heap (Linked.linkedAt contents (allocator.listIndex stamp) b) ∧
      g1.counters = g.counters ∧ g1.active_cnt = g.active_cnt ∧ g1.old_cnt = g.old_cnt ∧
      g1.oldest_cnt = g.oldest_cnt ∧ g1.old_list = g.old_list ∧
      g1.oldest_list = g.oldest_list := by
  cases stamp with
  | none =>
    obtain ⟨set1, happ, hhead, hset⟩ := lists.append_holds nodeSize g.heap g.active_list
      contents b 0 nd hholds hfit hnode hlive hptr ha0 hfresh
    have hzero : 0 % NUM_LISTS = 0 := by decide
    rw [hzero] at happ hhead hset
    exact ⟨{ g with
        active_list := set1,
        heap := (g.heap.write b.addr
          { next := (g.active_list.lists_ 0).head_, ptr := b.ptr,
            destruct := some b.callback }) },
      by simp only [allocator.release, allocator.free_in_order, happ],
      rfl, hhead, hset, rfl, rfl, rfl, rfl, rfl, rfl⟩
  | some t =>
    obtain ⟨set1, happ, hhead, hset⟩ := lists.append_holds nodeSize g.heap g.active_list
      contents b t nd hholds hfit hnode hlive hptr ha0 hfresh
    exact ⟨{ g with
        active_list := set1,
        heap := (g.heap.write b.addr
          { next := (g.active_list.lists_ (t % NUM_LISTS)).head_, ptr := b.ptr,
            destruct := some b.callback }) },
      by simp only [allocator.release, allocator.free, happ],
      rfl, hhead, hset, rfl, rfl, rfl, rfl, rfl, rfl⟩

/-- The list index of a release is an index of the array. -/
theorem allocator.listIndex_lt (stamp : Option Nat) : allocator.listIndex stamp < NUM_LISTS := by
  cases stamp with
  | none => decide
  | some t => exact Nat.mod_lt t (by decide)

end crossbow

namespace crossbow

/-- C21: in single-threaded use, while no guard is active and the three list
sets hold blocks with distinct headers, a guarded section releases a live
block with `free` or `free_in_order`.  The call links the header into the
active list set and reclaims nothing: the header still exists.  The
destructor of the guard performs the first rotation, which reclaims the former
oldest list set and not the block; the next guarded section performs the
second rotation, which reclaims the former old list set and not the block; and
the guarded section after that performs the third rotation, which runs the
callback of the block and frees it, after which its header is gone. -/
theorem block_reclaimed_at_third_rotation (nodeSize fuel : Nat) (g : Globals)
    (active old oldest : Nat → List Linked) (b : Linked) (nd : lists.node)
    (stamp : Option Nat)
    (hq : g.quiescent)
    (hactive : g.active_list.holds g.heap active)
    (hold : g.old_list.holds g.heap old)
    (holdest : g.oldest_list.holds g.heap oldest)
    (hdistinct : (Linked.addrsBelow oldest NUM_LISTS ++
      (Linked.addrsBelow old NUM_LISTS ++ Linked.addrsBelow active NUM_LISTS)).Nodup)
    (hnode : g.heap b.addr = some nd) (hlive : nd.next = 1) (hptr : nd.ptr = b.ptr)
    (ha0 : b.addr ≠ 0) (hfit : b.addr + nodeSize < 2 ^ 64)
    (hfresh : b.addr ∉ Linked.addrsBelow oldest NUM_LISTS ++
      (Linked.addrsBelow old NUM_LISTS ++ Linked.addrsBelow active NUM_LISTS))
    (hblock : b.ptr ∉ Linked.ptrsBelow oldest NUM_LISTS ++ Linked.ptrsBelow old NUM_LISTS)
    (hfuel : ∀ i, i < NUM_LISTS →
      (oldest i).length < fuel ∧ (old i).length < fuel ∧ (active i).length + 1 < fuel) :
    ∃ guard g1 g2 e1 e2 e3,
      allocator.ctor g = some (guard, g1) ∧
      allocator.release nodeSize g1 (b.addr + nodeSize) b.callback stamp = some g2 ∧
      (g2.active_list.lists_ (allocator.listIndex stamp)).head_ = b.addr ∧
      g2.heap b.addr =
        some { next := (g.active_list.lists_ (allocator.listIndex stamp)).head_, ptr := b.ptr,
               destruct := some b.callback } ∧
      guard.dtor fuel g2 = some e1 ∧
      allocator.enter_leave fuel e1.globals = some e2 ∧
      allocator.enter_leave fuel e2.globals = some e3 ∧
      (e1.rotated = true ∧ e1.reclaimed = Linked.reclaimBelow oldest NUM_LISTS ∧
        Reclaim.free b.ptr ∉ e1.reclaimed ∧ e1.globals.heap b.addr ≠ none) ∧
      (e2.rotated = true ∧ e2.reclaimed = Linked.reclaimBelow old NUM_LISTS ∧
        Reclaim.free b.ptr ∉ e2.reclaimed ∧ e2.globals.heap b.addr ≠ none) ∧
      (e3.rotated = true ∧
        e3.reclaimed =
          Linked.reclaimBelow (Linked.linkedAt active (allocator.listIndex stamp) b) NUM_LISTS ∧
        (∃ before after, e3.reclaimed =
          before ++ [Reclaim.destruct b.callback, Reclaim.free b.ptr] ++ after) ∧
        e3.globals.heap b.addr = none) := by
  -- the facts packed into the hypotheses
  rw [List.nodup_append] at hdistinct
  obtain ⟨hnZ, hnOA, hdisjZ⟩ := hdistinct
  rw [List.nodup_append] at hnOA
  obtain ⟨hnO, hnA, hdisjO⟩ := hnOA
  simp only [List.mem_append, not_or] at hfresh hblock
  obtain ⟨hfZ, hfO, hfA⟩ := hfresh
  have hj := allocator.listIndex_lt stamp
  have hmemL : ∀ a, a ∈ Linked.addrsBelow
      (Linked.linkedAt active (allocator.listIndex stamp) b) NUM_LISTS ↔
        a = b.addr ∨ a ∈ Linked.addrsBelow active NUM_LISTS := by
    intro a
    rw [Linked.mem_addrsBelow_linkedAt]
    simp [hj]
  have hq0 := hq
  obtain ⟨hc1, hc2, hc3, hd1, hd2, hd3⟩ := hq0
  -- the guard enters, the block is released
  have hctor := allocator.ctor_quiescent g hq
  obtain ⟨g2, hrel, hheap2, hhead2, hholds2, hcnt2, hac2, hoc2, hzc2, hol2, hzl2⟩ :=
    allocator.release_holds nodeSize (g.setCounter g.active_cnt 3) active b stamp nd
      hactive hfit hnode hlive hptr ha0 hfA
  have hheap2b : g2.heap b.addr =
      some { next := (g.active_list.lists_ (allocator.listIndex stamp)).head_, ptr := b.ptr,
             destruct := some b.callback } := by
    rw [hheap2]
    simp [NodeHeap.write, Globals.setCounter]
  have hheap2o : ∀ a, a ≠ b.addr → g2.heap a = g.heap a := by
    intro a ha
    rw [hheap2]
    simp [NodeHeap.write, ha, Globals.setCounter]
  -- the first rotation
  obtain ⟨e1, he1, hr1, hrec1, hq1, _, hol1, hzl1, hout1, _⟩ :=
    allocator.dtor_rotates fuel g2 { cnt_ := g.active_cnt } oldest
      (by rw [hac2]; rfl)
      (by rw [hcnt2, hac2]; simp [Globals.setCounter])
      (by rw [hcnt2, hoc2]; simp [Globals.setCounter, Ne.symm hd1, hc2])
      (by rw [hcnt2, hzc2]; simp [Globals.setCounter, Ne.symm hd2, hc3])
      (by rw [hac2, hoc2]; exact hd1)
      (by rw [hac2, hzc2]; exact hd2)
      (by rw [hoc2, hzc2]; exact hd3)
      (by
        rw [hzl2]
        apply lists.holds_frame g.heap g2.heap _ oldest holdest
        intro a ha
        exact hheap2o a (fun h => hfZ (h ▸ ha)))
      hnZ (fun i hi => (hfuel i hi).1)
  have hheap1 : ∀ a, a ∉ Linked.addrsBelow oldest NUM_LISTS → e1.globals.heap a = g2.heap a :=
    hout1
  have hholds1o : e1.globals.oldest_list.holds e1.globals.heap old := by
    rw [hzl1, hol2]
    apply lists.holds_frame g.heap e1.globals.heap _ old hold
    intro a ha
    have hnz : a ∉ Linked.addrsBelow oldest NUM_LISTS :=
      fun h => hdisjZ h (List.mem_append_left _ ha)
    rw [hheap1 a hnz]
    exact hheap2o a (fun h => hfO (h ▸ ha))
  have hnotZ : ∀ a, a ∈ Linked.addrsBelow
      (Linked.linkedAt active (allocator.listIndex stamp) b) NUM_LISTS →
        a ∉ Linked.addrsBelow oldest NUM_LISTS := by
    intro a ha hz
    rcases (hmemL a).mp ha with h | h
    · exact hfZ (h ▸ hz)
    · exact hdisjZ hz (List.mem_append_right _ h)
  have hnotO : ∀ a, a ∈ Linked.addrsBelow
      (Linked.linkedAt active (allocator.listIndex stamp) b) NUM_LISTS →
        a ∉ Linked.addrsBelow old NUM_LISTS := by
    intro a ha ho
    rcases (hmemL a).mp ha with h | h
    · exact hfO (h ▸ ho)
    · exact hdisjO ho h
  have hbmem : b.addr ∈ Linked.addrsBelow
      (Linked.linkedAt active (allocator.listIndex stamp) b) NUM_LISTS :=
    (hmemL b.addr).mpr (Or.inl rfl)
  have hholds1a : e1.globals.old_list.holds e1.globals.heap
      (Linked.linkedAt active (allocator.listIndex stamp) b) := by
    rw [hol1]
    apply lists.holds_frame g2.heap e1.globals.heap _ _ hholds2
    intro a ha
    exact hheap1 a (hnotZ a ha)
  -- the second rotation
  obtain ⟨e2, he2, hr2, hrec2, hq2, _, _, hzl2b, hout2, _⟩ :=
    allocator.enter_leave_rotates fuel e1.globals old hq1 hholds1o hnO
      (fun i hi => (hfuel i hi).2.1)
  have hholds2a : e2.globals.oldest_list.holds e2.globals.heap
      (Linked.linkedAt active (allocator.listIndex stamp) b) := by
    rw [hzl2b]
    apply lists.holds_frame e1.globals.heap e2.globals.heap _ _ hholds1a
    intro a ha
    exact hout2 a (hnotO a ha)
  -- the third rotation
  obtain ⟨e3, he3, hr3, hrec3, _, _, _, _, _, hin3⟩ :=
    allocator.enter_leave_rotates fuel e2.globals
      (Linked.linkedAt active (allocator.listIndex stamp) b) hq2 hholds2a
      (Linked.nodup_addrsBelow_linkedAt active _ b NUM_LISTS hnA hfA)
      (by
        intro i hi
        by_cases hij : i = allocator.listIndex stamp
        · simp only [Linked.linkedAt, if_pos hij, List.length_cons]
          exact (hfuel i hi).2.2
        · simp only [Linked.linkedAt, if_neg hij]
          have := (hfuel i hi).2.2
          omega)
  obtain ⟨before, after, hpiece⟩ :=
    Linked.reclaimBelow_linkedAt active (allocator.listIndex stamp) b NUM_LISTS hj
  refine ⟨{ cnt_ := g.active_cnt }, g.setCounter g.active_cnt 3, g2, e1, e2, e3, hctor, hrel,
    hhead2, hheap2b, he1, he2, he3, ⟨hr1, hrec1, ?_, ?_⟩, ⟨hr2, hrec2, ?_, ?_⟩,
    ⟨hr3, hrec3, ⟨before, after, ?_⟩, hin3 b.addr hbmem⟩⟩
  · rw [hrec1, Linked.free_mem_reclaimBelow]
    exact hblock.1
  · rw [hheap1 b.addr hfZ, hheap2b]
    simp
  · rw [hrec2, Linked.free_mem_reclaimBelow]
    exact hblock.2
  · rw [hout2 b.addr hfO, hheap1 b.addr hfZ, hheap2b]
    simp
  · rw [hrec3, hpiece]
    rfl

end crossbow

namespace crossbow

/-- Witness of `block_reclaimed_at_third_rotation`: after `init` the block at
4096, with a header of 48 bytes, is released with `free`, the callback 7 and
the time stamp 130, which chooses the list 2; the third rotation reclaims
it. -/
theorem block_reclaimed_at_third_rotation_witness :
    ∃ guard g1 g2 e1 e2 e3,
      allocator.ctor (allocator.init (NodeHeap.write NodeHeap.empty 4096 (lists.node.new 4096)))
        = some (guard, g1) ∧
      allocator.release 48 g1 (4096 + 48) 7 (some 130) = some g2 ∧
      (g2.active_list.lists_ (allocator.listIndex (some 130))).head_ = 4096 ∧
      g2.heap 4096 =
        some { next := ((allocator.init (NodeHeap.write NodeHeap.empty 4096
                  (lists.node.new 4096))).active_list.lists_
                    (allocator.listIndex (some 130))).head_,
               ptr := 4096, destruct := some 7 } ∧
      guard.dtor 2 g2 = some e1 ∧
      allocator.enter_leave 2 e1.globals = some e2 ∧
      allocator.enter_leave 2 e2.globals = some e3 ∧
      (e1.rotated = true ∧ e1.reclaimed = Linked.reclaimBelow (fun _ => []) NUM_LISTS ∧
        Reclaim.free 4096 ∉ e1.reclaimed ∧ e1.globals.heap 4096 ≠ none) ∧
      (e2.rotated = true ∧ e2.reclaimed = Linked.reclaimBelow (fun _ => []) NUM_LISTS ∧
        Reclaim.free 4096 ∉ e2.reclaimed ∧ e2.globals.heap 4096 ≠ none) ∧
      (e3.rotated = true ∧
        e3.reclaimed =
          Linked.reclaimBelow
            (Linked.linkedAt (fun _ => []) (allocator.listIndex (some 130))
              { addr := 4096, ptr := 4096, callback := 7 }) NUM_LISTS ∧
        (∃ before after, e3.reclaimed =
          before ++ [Reclaim.destruct 7, Reclaim.free 4096] ++ after) ∧
        e3.globals.heap 4096 = none) :=
  block_reclaimed_at_third_rotation 48 2
    (allocator.init (NodeHeap.write NodeHeap.empty 4096 (lists.node.new 4096)))
    (fun _ => []) (fun _ => []) (fun _ => [])
    { addr := 4096, ptr := 4096, callback := 7 } (lists.node.new 4096) (some 130)
    ⟨rfl, rfl, rfl, by decide, by decide, by decide⟩
    (fun _ _ => rfl) (fun _ _ => rfl) (fun _ _ => rfl)
    (by decide) rfl rfl rfl (by decide) (by decide) (by decide) (by decide)
    (fun _ _ => ⟨Nat.zero_lt_two, Nat.zero_lt_two, Nat.one_lt_two⟩)

end crossbow
